import Mathlib

/-!
# Half-edge mesh: a shallow embedding of `src/halfedgemesh.cpp`

Pointers are `Option Nat`: `none` is `nullptr`, `some i` addresses slot `i` of the
store of its kind (`vertices`, `faces`, `halfedges`).  Nothing is ever freed, so
a slot index is a stable address.  Every read or write through a pointer is
fallible: following `nullptr` (or an address that was never allocated) is the
fault `nullDereference`.  The `do ... while` loops take a fuel argument.
Coordinates range over an ordered field `K` in place of `double`.
-/

set_option linter.all false

namespace HalfedgeMesh

/-- Modelled from the spec: the external `Vector3` type of the absent header, with
`+`, `-`, scalar `*` and `lengthSquared()`. -/
structure Vector3 (K : Type) where
  x : K
  y : K
  z : K
deriving DecidableEq, Repr

namespace Vector3

variable {K : Type}

/-- Componentwise sum, `operator+`. -/
def add [Add K] (a b : Vector3 K) : Vector3 K := ⟨a.x + b.x, a.y + b.y, a.z + b.z⟩

/-- Componentwise difference, `operator-`. -/
def sub [Sub K] (a b : Vector3 K) : Vector3 K := ⟨a.x - b.x, a.y - b.y, a.z - b.z⟩

/-- Product with a scalar, `operator*(double)`. -/
def scale [Mul K] (a : Vector3 K) (s : K) : Vector3 K := ⟨a.x * s, a.y * s, a.z * s⟩

/-- Squared Euclidean norm, `lengthSquared()`. -/
def lengthSquared [Add K] [Mul K] (a : Vector3 K) : K := a.x * a.x + a.y * a.y + a.z * a.z

/-- The default-constructed vector. -/
def zero [Zero K] : Vector3 K := ⟨0, 0, 0⟩

end Vector3

/-- The ways a run of the code can fail to produce a value. -/
inductive Fault where
  | nullDereference
  | outOfRange
  | aborted
  | outOfFuel
deriving DecidableEq, Repr

/-- Modelled from the spec: `struct Vertex` of the absent header. -/
structure Vertex (K : Type) where
  position : Vector3 K
  firstHalfedge : Option Nat
  previousVertex : Option Nat
  nextVertex : Option Nat
  removed : Bool
  debugIndex : Nat
deriving DecidableEq, Repr

/-- Modelled from the spec: `struct Face` of the absent header. -/
structure Face where
  halfedge : Option Nat
  previousFace : Option Nat
  nextFace : Option Nat
  removed : Bool
  debugIndex : Nat
deriving DecidableEq, Repr

/-- Modelled from the spec: `struct Halfedge` of the absent header. -/
structure Halfedge where
  startVertex : Option Nat
  leftFace : Option Nat
  previousHalfedge : Option Nat
  nextHalfedge : Option Nat
  oppositeHalfedge : Option Nat
  debugIndex : Nat
deriving DecidableEq, Repr

/-- Modelled from the spec: the data members of `class HalfedgeMesh`, together with
the three stores that stand for the heap. -/
structure Mesh (K : Type) where
  vertices : List (Vertex K)
  faces : List Face
  halfedges : List Halfedge
  m_firstVertex : Option Nat
  m_lastVertex : Option Nat
  m_firstFace : Option Nat
  m_lastFace : Option Nat
  m_debugVertexIndex : Nat
  m_debugFaceIndex : Nat
  m_debugHalfedgeIndex : Nat
deriving DecidableEq, Repr

/-- The mesh before the constructor body runs. -/
def Mesh.empty (K : Type) : Mesh K :=
  { vertices := [], faces := [], halfedges := [],
    m_firstVertex := none, m_lastVertex := none,
    m_firstFace := none, m_lastFace := none,
    m_debugVertexIndex := 0, m_debugFaceIndex := 0, m_debugHalfedgeIndex := 0 }

section Heap

variable {K : Type}

/-- Read `*p` for a vertex pointer. -/
def Mesh.vertexAt (m : Mesh K) (p : Option Nat) : Except Fault (Vertex K) :=
  match p with
  | none => .error .nullDereference
  | some i =>
    match m.vertices[i]? with
    | none => .error .nullDereference
    | some v => .ok v

/-- Read `*p` for a face pointer. -/
def Mesh.faceAt (m : Mesh K) (p : Option Nat) : Except Fault Face :=
  match p with
  | none => .error .nullDereference
  | some i =>
    match m.faces[i]? with
    | none => .error .nullDereference
    | some f => .ok f

/-- Read `*p` for a half-edge pointer. -/
def Mesh.halfedgeAt (m : Mesh K) (p : Option Nat) : Except Fault Halfedge :=
  match p with
  | none => .error .nullDereference
  | some i =>
    match m.halfedges[i]? with
    | none => .error .nullDereference
    | some h => .ok h

/-- Assign to fields of `*p` for a vertex pointer. -/
def Mesh.updateVertex (m : Mesh K) (p : Option Nat) (f : Vertex K → Vertex K) :
    Except Fault (Mesh K) :=
  match p with
  | none => .error .nullDereference
  | some i =>
    match m.vertices[i]? with
    | none => .error .nullDereference
    | some v => .ok { m with vertices := m.vertices.set i (f v) }

/-- Assign to fields of `*p` for a face pointer. -/
def Mesh.updateFace (m : Mesh K) (p : Option Nat) (f : Face → Face) :
    Except Fault (Mesh K) :=
  match p with
  | none => .error .nullDereference
  | some i =>
    match m.faces[i]? with
    | none => .error .nullDereference
    | some v => .ok { m with faces := m.faces.set i (f v) }

/-- Assign to fields of `*p` for a half-edge pointer. -/
def Mesh.updateHalfedge (m : Mesh K) (p : Option Nat) (f : Halfedge → Halfedge) :
    Except Fault (Mesh K) :=
  match p with
  | none => .error .nullDereference
  | some i =>
    match m.halfedges[i]? with
    | none => .error .nullDereference
    | some v => .ok { m with halfedges := m.halfedges.set i (f v) }

end Heap

section Operations

variable {K : Type}

/-- `HalfedgeMesh::newFace` (lines 134-146). -/
def newFace (m : Mesh K) : Except Fault (Mesh K × Option Nat) :=
  let face := m.faces.length
  let index := m.m_debugFaceIndex + 1
  let m1 : Mesh K :=
    { m with
      faces := m.faces ++ [{ halfedge := none, previousFace := none, nextFace := none,
                             removed := false, debugIndex := index }],
      m_debugFaceIndex := index }
  match m1.m_lastFace with
  | some last => do
    let m2 ← m1.updateFace (some last) (fun f => { f with nextFace := some face })
    let m3 ← m2.updateFace (some face) (fun f => { f with previousFace := some last })
    pure ({ m3 with m_lastFace := some face }, some face)
  | none =>
    pure ({ m1 with m_firstFace := some face, m_lastFace := some face }, some face)

/-- `HalfedgeMesh::newVertex` (lines 148-160). -/
def newVertex [Zero K] (m : Mesh K) : Except Fault (Mesh K × Option Nat) :=
  let vertex := m.vertices.length
  let index := m.m_debugVertexIndex + 1
  let m1 : Mesh K :=
    { m with
      vertices := m.vertices ++ [{ position := Vector3.zero, firstHalfedge := none,
                                   previousVertex := none, nextVertex := none,
                                   removed := false, debugIndex := index }],
      m_debugVertexIndex := index }
  match m1.m_lastVertex with
  | some last => do
    let m2 ← m1.updateVertex (some last) (fun v => { v with nextVertex := some vertex })
    let m3 ← m2.updateVertex (some vertex) (fun v => { v with previousVertex := some last })
    pure ({ m3 with m_lastVertex := some vertex }, some vertex)
  | none =>
    pure ({ m1 with m_firstVertex := some vertex, m_lastVertex := some vertex }, some vertex)

/-- `HalfedgeMesh::newHalfedge` (lines 162-167). -/
def newHalfedge (m : Mesh K) : Mesh K × Option Nat :=
  let halfedge := m.halfedges.length
  let index := m.m_debugHalfedgeIndex + 1
  ({ m with
     halfedges := m.halfedges ++ [{ startVertex := none, leftFace := none,
                                    previousHalfedge := none, nextHalfedge := none,
                                    oppositeHalfedge := none, debugIndex := index }],
     m_debugHalfedgeIndex := index }, some halfedge)

/-- One round of the loop of `linkFaceHalfedges`: rounds `i, i+1, ...`, `n` of them. -/
def linkFaceHalfedgesLoop (halfedges : List (Option Nat)) :
    Nat → Nat → Mesh K → Except Fault (Mesh K)
  | 0, _, m => pure m
  | n + 1, i, m => do
    let j := (i + 1) % halfedges.length
    let hi ← (match halfedges[i]? with
      | some p => pure p
      | none => Except.error Fault.outOfRange)
    let hj ← (match halfedges[j]? with
      | some p => pure p
      | none => Except.error Fault.outOfRange)
    let m1 ← m.updateHalfedge hi (fun h => { h with nextHalfedge := hj })
    let m2 ← m1.updateHalfedge hj (fun h => { h with previousHalfedge := hi })
    linkFaceHalfedgesLoop halfedges n (i + 1) m2

/-- `HalfedgeMesh::linkFaceHalfedges` (lines 92-99). -/
def linkFaceHalfedges (m : Mesh K) (halfedges : List (Option Nat)) : Except Fault (Mesh K) :=
  linkFaceHalfedgesLoop halfedges halfedges.length 0 m

/-- `HalfedgeMesh::updateFaceHalfedgesLeftFace` (lines 101-106). -/
def updateFaceHalfedgesLeftFace (m : Mesh K) :
    List (Option Nat) → Option Nat → Except Fault (Mesh K)
  | [], _ => pure m
  | it :: rest, leftFace => do
    let m1 ← m.updateHalfedge it (fun h => { h with leftFace := leftFace })
    updateFaceHalfedgesLeftFace m1 rest leftFace

/-- `HalfedgeMesh::linkHalfedgePair` (lines 108-114). -/
def linkHalfedgePair (m : Mesh K) (first second : Option Nat) : Except Fault (Mesh K) := do
  let m1 ← (if first ≠ none then
      m.updateHalfedge first (fun h => { h with oppositeHalfedge := second })
    else pure m)
  if second ≠ none then
    m1.updateHalfedge second (fun h => { h with oppositeHalfedge := first })
  else pure m1

/-- Read element `i` of a `std::vector<Halfedge *>`. -/
def vectorAt (v : List (Option Nat)) (i : Nat) : Except Fault (Option Nat) :=
  match v[i]? with
  | some p => pure p
  | none => .error .outOfRange

/-- `HalfedgeMesh::breakFace` (lines 199-235).  The two vectors are passed by
reference in the source; here they are taken and handed back. -/
def breakFace (m : Mesh K) (leftOldFace halfedge breakPointVertex : Option Nat)
    (leftNewFaceHalfedges leftOldFaceHalfedges : List (Option Nat)) :
    Except Fault (Mesh K × List (Option Nat) × List (Option Nat)) := do
  let h ← m.halfedgeAt halfedge
  let leftFaceHalfedges : List (Option Nat) := [h.previousHalfedge, halfedge, h.nextHalfedge]
  let (m, leftNewFace) ← newFace m
  let lf2 ← vectorAt leftFaceHalfedges 2
  let m ← m.updateFace leftNewFace (fun f => { f with halfedge := lf2 })
  let m ← m.updateHalfedge lf2 (fun e => { e with leftFace := leftNewFace })
  let (m, a) := newHalfedge m
  let leftNewFaceHalfedges := leftNewFaceHalfedges ++ [a]
  let (m, b) := newHalfedge m
  let leftNewFaceHalfedges := leftNewFaceHalfedges ++ [b]
  let leftNewFaceHalfedges := leftNewFaceHalfedges ++ [lf2]
  let m ← linkFaceHalfedges m leftNewFaceHalfedges
  let m ← updateFaceHalfedgesLeftFace m leftNewFaceHalfedges leftNewFace
  let ln0 ← vectorAt leftNewFaceHalfedges 0
  let lf0 ← vectorAt leftFaceHalfedges 0
  let e0 ← m.halfedgeAt lf0
  let m ← m.updateHalfedge ln0 (fun e => { e with startVertex := e0.startVertex })
  let ln1 ← vectorAt leftNewFaceHalfedges 1
  let m ← m.updateHalfedge ln1 (fun e => { e with startVertex := breakPointVertex })
  let leftOldFaceHalfedges := leftOldFaceHalfedges ++ [lf0]
  let leftOldFaceHalfedges := leftOldFaceHalfedges ++ [halfedge]
  let (m, c) := newHalfedge m
  let leftOldFaceHalfedges := leftOldFaceHalfedges ++ [c]
  let m ← linkFaceHalfedges m leftOldFaceHalfedges
  let m ← updateFaceHalfedgesLeftFace m leftOldFaceHalfedges leftOldFace
  let lo2 ← vectorAt leftOldFaceHalfedges 2
  let m ← m.updateHalfedge lo2 (fun e => { e with startVertex := breakPointVertex })
  let m ← m.updateVertex breakPointVertex (fun v => { v with firstHalfedge := ln1 })
  let m ← linkHalfedgePair m ln0 lo2
  let lo0 ← vectorAt leftOldFaceHalfedges 0
  let m ← m.updateFace leftOldFace (fun f => { f with halfedge := lo0 })
  pure (m, leftNewFaceHalfedges, leftOldFaceHalfedges)

/-- `HalfedgeMesh::breakEdge` (lines 237-267). -/
def breakEdge [Field K] (m : Mesh K) (halfedge : Option Nat) : Except Fault (Mesh K) := do
  let h ← m.halfedgeAt halfedge
  let leftOldFace := h.leftFace
  let oppositeHalfedge := h.oppositeHalfedge
  let rightOldFace ← (if oppositeHalfedge ≠ none then do
      let o ← m.halfedgeAt oppositeHalfedge
      pure o.leftFace
    else pure none)
  let (m, breakPointVertex) ← newVertex m
  let h ← m.halfedgeAt halfedge
  let a ← m.vertexAt h.startVertex
  let hn ← m.halfedgeAt h.nextHalfedge
  let b ← m.vertexAt hn.startVertex
  let m ← m.updateVertex breakPointVertex
    (fun v => { v with position := (a.position.add b.position).scale (1 / 2) })
  let (m, leftNewFaceHalfedges, leftOldFaceHalfedges) ←
    breakFace m leftOldFace halfedge breakPointVertex [] []
  if rightOldFace ≠ none then do
    let (m, rightNewFaceHalfedges, rightOldFaceHalfedges) ←
      breakFace m rightOldFace oppositeHalfedge breakPointVertex [] []
    let lo1 ← vectorAt leftOldFaceHalfedges 1
    let rn1 ← vectorAt rightNewFaceHalfedges 1
    let m ← linkHalfedgePair m lo1 rn1
    let ln1 ← vectorAt leftNewFaceHalfedges 1
    let ro1 ← vectorAt rightOldFaceHalfedges 1
    linkHalfedgePair m ln1 ro1
  else pure m

/-- `HalfedgeMesh::changeVertexStartHalfedgeFrom` (lines 269-280). -/
def changeVertexStartHalfedgeFrom (m : Mesh K) (vertex halfedge : Option Nat) :
    Except Fault (Mesh K) := do
  let h ← m.halfedgeAt halfedge
  let p ← m.halfedgeAt h.previousHalfedge
  let m ← m.updateVertex vertex (fun v => { v with firstHalfedge := p.oppositeHalfedge })
  let v ← m.vertexAt vertex
  if v.firstHalfedge ≠ none then pure m
  else do
    let h ← m.halfedgeAt halfedge
    if h.oppositeHalfedge = none then pure m
    else do
      let o ← m.halfedgeAt h.oppositeHalfedge
      m.updateVertex vertex (fun v => { v with firstHalfedge := o.nextHalfedge })

/-- The first `do ... while` loop of `testLengthSquaredAroundVertex` (lines 289-298):
one unit of fuel per run of the body. -/
def testLengthSquaredLoopOpposite [LinearOrderedField K] (m : Mesh K) (target : Vector3 K)
    (maxEdgeLengthSquared : K) (startHalfedge : Option Nat) :
    Nat → Option Nat → Except Fault Bool
  | 0, _ => .error .outOfFuel
  | fuel + 1, loopHalfedge => do
    let l ← m.halfedgeAt loopHalfedge
    let n ← m.halfedgeAt l.nextHalfedge
    let v ← m.vertexAt n.startVertex
    if (v.position.sub target).lengthSquared > maxEdgeLengthSquared then pure true
    else
      let loopHalfedge := l.oppositeHalfedge
      if loopHalfedge = none then pure false
      else do
        let o ← m.halfedgeAt loopHalfedge
        let loopHalfedge := o.nextHalfedge
        if loopHalfedge ≠ startHalfedge then
          testLengthSquaredLoopOpposite m target maxEdgeLengthSquared startHalfedge fuel
            loopHalfedge
        else pure false

/-- The second `do ... while` loop of `testLengthSquaredAroundVertex` (lines 300-309). -/
def testLengthSquaredLoopPrevious [LinearOrderedField K] (m : Mesh K) (target : Vector3 K)
    (maxEdgeLengthSquared : K) (startHalfedge : Option Nat) :
    Nat → Option Nat → Except Fault Bool
  | 0, _ => .error .outOfFuel
  | fuel + 1, loopHalfedge => do
    let l ← m.halfedgeAt loopHalfedge
    let n ← m.halfedgeAt l.nextHalfedge
    let v ← m.vertexAt n.startVertex
    if (v.position.sub target).lengthSquared > maxEdgeLengthSquared then pure true
    else
      let loopHalfedge := l.previousHalfedge
      if loopHalfedge = none then pure false
      else do
        let p ← m.halfedgeAt loopHalfedge
        let loopHalfedge := p.oppositeHalfedge
        if loopHalfedge ≠ startHalfedge then
          testLengthSquaredLoopPrevious m target maxEdgeLengthSquared startHalfedge fuel
            loopHalfedge
        else pure false

/-- `HalfedgeMesh::testLengthSquaredAroundVertex` (lines 282-312). -/
def testLengthSquaredAroundVertex [LinearOrderedField K] (fuel : Nat) (m : Mesh K)
    (vertex : Option Nat) (target : Vector3 K) (maxEdgeLengthSquared : K) :
    Except Fault Bool := do
  let v ← m.vertexAt vertex
  let startHalfedge := v.firstHalfedge
  let loopHalfedge := startHalfedge
  let l ← m.halfedgeAt loopHalfedge
  if l.oppositeHalfedge ≠ none then
    testLengthSquaredLoopOpposite m target maxEdgeLengthSquared startHalfedge fuel loopHalfedge
  else
    testLengthSquaredLoopPrevious m target maxEdgeLengthSquared startHalfedge fuel loopHalfedge

/-- The first `do ... while` loop of `pointerVertexToNewVertex` (lines 320-330). -/
def pointerVertexLoopOpposite (replacement startHalfedge : Option Nat) :
    Nat → Mesh K → Option Nat → Nat → Except Fault (Mesh K)
  | 0, _, _, _ => .error .outOfFuel
  | fuel + 1, m, loopHalfedge, count => do
    let m ← m.updateHalfedge loopHalfedge (fun h => { h with startVertex := replacement })
    let l ← m.halfedgeAt loopHalfedge
    let loopHalfedge := l.oppositeHalfedge
    if loopHalfedge = none then pure m
    else do
      let o ← m.halfedgeAt loopHalfedge
      let loopHalfedge := o.nextHalfedge
      if count > 20 then .error .aborted
      else
        let count := count + 1
        if loopHalfedge ≠ startHalfedge then
          pointerVertexLoopOpposite replacement startHalfedge fuel m loopHalfedge count
        else pure m

/-- The second `do ... while` loop of `pointerVertexToNewVertex` (lines 332-339). -/
def pointerVertexLoopPrevious (replacement startHalfedge : Option Nat) :
    Nat → Mesh K → Option Nat → Except Fault (Mesh K)
  | 0, _, _ => .error .outOfFuel
  | fuel + 1, m, loopHalfedge => do
    let m ← m.updateHalfedge loopHalfedge (fun h => { h with startVertex := replacement })
    let l ← m.halfedgeAt loopHalfedge
    let loopHalfedge := l.previousHalfedge
    if loopHalfedge = none then pure m
    else do
      let p ← m.halfedgeAt loopHalfedge
      let loopHalfedge := p.oppositeHalfedge
      if loopHalfedge ≠ startHalfedge then
        pointerVertexLoopPrevious replacement startHalfedge fuel m loopHalfedge
      else pure m

/-- `HalfedgeMesh::pointerVertexToNewVertex` (lines 314-341). -/
def pointerVertexToNewVertex (fuel : Nat) (m : Mesh K) (vertex replacement : Option Nat) :
    Except Fault (Mesh K) := do
  let v ← m.vertexAt vertex
  let startHalfedge := v.firstHalfedge
  let loopHalfedge := startHalfedge
  let l ← m.halfedgeAt loopHalfedge
  if l.oppositeHalfedge ≠ none then
    pointerVertexLoopOpposite replacement startHalfedge fuel m loopHalfedge 0
  else
    pointerVertexLoopPrevious replacement startHalfedge fuel m loopHalfedge

/-- Lines 359-364 and 375-380 of `collapseEdge`: repair the representative of the
start vertex of `halfedge->previousHalfedge` when that half-edge is the
representative. -/
def repairPreviousStart (m : Mesh K) (halfedge : Option Nat) : Except Fault (Mesh K) := do
  let h ← m.halfedgeAt halfedge
  let p ← m.halfedgeAt h.previousHalfedge
  let c ← m.vertexAt p.startVertex
  if h.previousHalfedge = c.firstHalfedge then
    changeVertexStartHalfedgeFrom m p.startVertex h.previousHalfedge
  else pure m

/-- Lines 357-391 of `collapseEdge`: what runs once both length tests passed. -/
def collapseEdgeMutate (fuel : Nat) (m : Mesh K) (halfedge : Option Nat)
    (collapseTo : Vector3 K) : Except Fault (Mesh K) := do
  let h ← m.halfedgeAt halfedge
  let hn ← m.halfedgeAt h.nextHalfedge
  let m ← m.updateVertex hn.startVertex (fun v => { v with position := collapseTo })
  let m ← repairPreviousStart m halfedge
  let h ← m.halfedgeAt halfedge
  let m ← m.updateFace h.leftFace (fun f => { f with removed := true })
  let h ← m.halfedgeAt halfedge
  let hn ← m.halfedgeAt h.nextHalfedge
  let m ← pointerVertexToNewVertex fuel m h.startVertex hn.startVertex
  let h ← m.halfedgeAt halfedge
  let hp ← m.halfedgeAt h.previousHalfedge
  let hn ← m.halfedgeAt h.nextHalfedge
  let m ← linkHalfedgePair m hp.oppositeHalfedge hn.oppositeHalfedge
  let h ← m.halfedgeAt halfedge
  let opposite := h.oppositeHalfedge
  if opposite ≠ none then do
    let m ← repairPreviousStart m opposite
    let o ← m.halfedgeAt opposite
    let m ← changeVertexStartHalfedgeFrom m o.startVertex opposite
    let o ← m.halfedgeAt opposite
    let m ← m.updateFace o.leftFace (fun f => { f with removed := true })
    let o ← m.halfedgeAt opposite
    let oPrev ← m.halfedgeAt o.previousHalfedge
    let oNext ← m.halfedgeAt o.nextHalfedge
    linkHalfedgePair m oPrev.oppositeHalfedge oNext.oppositeHalfedge
  else pure m

/-- `HalfedgeMesh::collapseEdge` (lines 343-392): the returned boolean together with
the mesh after the call. -/
def collapseEdge [LinearOrderedField K] (fuel : Nat) (m : Mesh K) (halfedge : Option Nat)
    (maxEdgeLengthSquared : K) : Except Fault (Bool × Mesh K) := do
  let h ← m.halfedgeAt halfedge
  let a ← m.vertexAt h.startVertex
  let hn ← m.halfedgeAt h.nextHalfedge
  let b ← m.vertexAt hn.startVertex
  let collapseTo : Vector3 K := (a.position.add b.position).scale (1 / 2)
  if (← testLengthSquaredAroundVertex fuel m h.startVertex collapseTo maxEdgeLengthSquared)
  then pure (false, m)
  else if (← testLengthSquaredAroundVertex fuel m hn.startVertex collapseTo
      maxEdgeLengthSquared)
  then pure (false, m)
  else do
    let m ← collapseEdgeMutate fuel m halfedge collapseTo
    pure (true, m)

end Operations

section Construction

variable {K : Type}

/-- `std::unordered_map::insert`: an entry whose key is present is not replaced.
The boolean is `insertResult.second`. -/
def mapInsert (map : List (Nat × Option Nat)) (key : Nat) (value : Option Nat) :
    List (Nat × Option Nat) × Bool :=
  if map.any (fun e => e.1 == key) then (map, false) else (map ++ [(key, value)], true)

/-- `std::unordered_map::find`: `none` stands for `end()`. -/
def mapFind (map : List (Nat × Option Nat)) (key : Nat) : Option (Nat × Option Nat) :=
  map.find? (fun e => e.1 == key)

/-- Lines 35-39 of the constructor. -/
def constructVertices [Zero K] :
    List (Vector3 K) → Mesh K → List (Option Nat) → Except Fault (Mesh K × List (Option Nat))
  | [], m, halfedgeVertices => pure (m, halfedgeVertices)
  | it :: rest, m, halfedgeVertices => do
    let (m, vertex) ← newVertex m
    let m ← m.updateVertex vertex (fun v => { v with position := it })
    constructVertices rest m (halfedgeVertices ++ [vertex])

/-- Lines 43-47 of the constructor. -/
def constructFaces :
    List (List Nat) → Mesh K → List (Option Nat) → Except Fault (Mesh K × List (Option Nat))
  | [], m, halfedgeFaces => pure (m, halfedgeFaces)
  | _ :: rest, m, halfedgeFaces => do
    let (m, face) ← newFace m
    let index := m.m_debugFaceIndex + 1
    let m ← ({ m with m_debugFaceIndex := index } : Mesh K).updateFace face
      (fun f => { f with debugIndex := index })
    constructFaces rest m (halfedgeFaces ++ [face])

/-- The state threaded through the loops of lines 50-82. -/
structure BuildState (K : Type) where
  mesh : Mesh K
  halfedgeMap : List (Nat × Option Nat)
  halfedges : List (Option Nat)

/-- Lines 58-79 of the constructor: the body of the loop over `i`. -/
def constructHalfedge (makeHalfedgeKey : Nat → Nat → Nat)
    (halfedgeVertices halfedgeFaces : List (Option Nat)) (faceIndex : Nat)
    (indices : List Nat) (i : Nat) (s : BuildState K) : Except Fault (BuildState K) := do
  let j := (i + 1) % 3
  let first ← (match indices[i]? with
    | some x => pure x
    | none => Except.error Fault.outOfRange)
  let second ← (match indices[j]? with
    | some x => pure x
    | none => Except.error Fault.outOfRange)
  let vertex ← vectorAt halfedgeVertices first
  let (m, halfedge) := newHalfedge s.mesh
  let m ← m.updateHalfedge halfedge (fun h => { h with startVertex := vertex })
  let leftFace ← vectorAt halfedgeFaces faceIndex
  let m ← m.updateHalfedge halfedge (fun h => { h with leftFace := leftFace })
  let h ← m.halfedgeAt halfedge
  let f ← m.faceAt h.leftFace
  let m ← (if f.halfedge = none then
      m.updateFace h.leftFace (fun f => { f with halfedge := halfedge })
    else pure m)
  let v ← m.vertexAt vertex
  let m ← (if v.firstHalfedge = none then
      m.updateVertex vertex (fun v => { v with firstHalfedge := halfedge })
    else pure m)
  let halfedges := s.halfedges.set i halfedge
  let insertResult := mapInsert s.halfedgeMap (makeHalfedgeKey first second) halfedge
  pure { mesh := m, halfedgeMap := insertResult.1, halfedges := halfedges }

/-- Lines 51-81 of the constructor: the body of the loop over `faceIndex`. -/
def constructFace (makeHalfedgeKey : Nat → Nat → Nat)
    (halfedgeVertices halfedgeFaces : List (Option Nat)) (faceIndex : Nat)
    (indices : List Nat) (m : Mesh K) (halfedgeMap : List (Nat × Option Nat)) :
    Except Fault (Mesh K × List (Nat × Option Nat)) :=
  if 3 ≠ indices.length then pure (m, halfedgeMap)
  else do
    let s : BuildState K :=
      { mesh := m, halfedgeMap := halfedgeMap, halfedges := List.replicate indices.length none }
    let s ← constructHalfedge makeHalfedgeKey halfedgeVertices halfedgeFaces faceIndex indices 0 s
    let s ← constructHalfedge makeHalfedgeKey halfedgeVertices halfedgeFaces faceIndex indices 1 s
    let s ← constructHalfedge makeHalfedgeKey halfedgeVertices halfedgeFaces faceIndex indices 2 s
    let m ← linkFaceHalfedges s.mesh s.halfedges
    pure (m, s.halfedgeMap)

/-- Lines 50-82 of the constructor: the loop over `faceIndex`, from `faceIndex` on. -/
def constructFaceLoop (makeHalfedgeKey : Nat → Nat → Nat)
    (halfedgeVertices halfedgeFaces : List (Option Nat)) :
    List (List Nat) → Nat → Mesh K → List (Nat × Option Nat) →
      Except Fault (Mesh K × List (Nat × Option Nat))
  | [], _, m, halfedgeMap => pure (m, halfedgeMap)
  | indices :: rest, faceIndex, m, halfedgeMap => do
    let (m, halfedgeMap) ←
      constructFace makeHalfedgeKey halfedgeVertices halfedgeFaces faceIndex indices m halfedgeMap
    constructFaceLoop makeHalfedgeKey halfedgeVertices halfedgeFaces rest (faceIndex + 1) m
      halfedgeMap

/-- Lines 83-89 of the constructor: the pairing pass, visiting the entries `visit`
of `halfedgeMap` in the order given. -/
def pairOpposites (swapHalfedgeKey : Nat → Nat) (halfedgeMap : List (Nat × Option Nat)) :
    List (Nat × Option Nat) → Mesh K → Except Fault (Mesh K)
  | [], m => pure m
  | it :: rest, m =>
    match mapFind halfedgeMap (swapHalfedgeKey it.1) with
    | none => pairOpposites swapHalfedgeKey halfedgeMap rest m
    | some halfedgeIt => do
      let m ← m.updateHalfedge it.2 (fun h => { h with oppositeHalfedge := halfedgeIt.2 })
      let m ← m.updateHalfedge halfedgeIt.2 (fun h => { h with oppositeHalfedge := it.2 })
      pairOpposites swapHalfedgeKey halfedgeMap rest m

/-- `HalfedgeMesh::HalfedgeMesh` (lines 30-90).  `makeHalfedgeKey` and
`swapHalfedgeKey` are declared in the absent header and are parameters; so is the
order in which a range-for visits the entries of the `std::unordered_map`, which the
language leaves open. -/
def HalfedgeMesh [Zero K] (makeHalfedgeKey : Nat → Nat → Nat) (swapHalfedgeKey : Nat → Nat)
    (iterationOrder : List (Nat × Option Nat) → List (Nat × Option Nat))
    (vertices : List (Vector3 K)) (faces : List (List Nat)) : Except Fault (Mesh K) := do
  let (m, halfedgeVertices) ← constructVertices vertices (Mesh.empty K) []
  let (m, halfedgeFaces) ← constructFaces faces m []
  let (m, halfedgeMap) ←
    constructFaceLoop makeHalfedgeKey halfedgeVertices halfedgeFaces faces 0 m []
  pairOpposites swapHalfedgeKey halfedgeMap (iterationOrder halfedgeMap) m

end Construction

section Views

variable {K : Type}

/-- `h->nextHalfedge` as a function of the slot, `none` outside the store. -/
def Mesh.next (m : Mesh K) (h : Nat) : Option Nat := (m.halfedges[h]?).bind Halfedge.nextHalfedge

/-- `h->previousHalfedge` as a function of the slot. -/
def Mesh.prev (m : Mesh K) (h : Nat) : Option Nat :=
  (m.halfedges[h]?).bind Halfedge.previousHalfedge

/-- `h->oppositeHalfedge` as a function of the slot. -/
def Mesh.opp (m : Mesh K) (h : Nat) : Option Nat :=
  (m.halfedges[h]?).bind Halfedge.oppositeHalfedge

/-- `h->startVertex` as a function of the slot. -/
def Mesh.start (m : Mesh K) (h : Nat) : Option Nat := (m.halfedges[h]?).bind Halfedge.startVertex

/-- `h->leftFace` as a function of the slot. -/
def Mesh.left (m : Mesh K) (h : Nat) : Option Nat := (m.halfedges[h]?).bind Halfedge.leftFace

/-- `v->firstHalfedge` as a function of the slot. -/
def Mesh.first (m : Mesh K) (v : Nat) : Option Nat := (m.vertices[v]?).bind Vertex.firstHalfedge

/-- `f->halfedge` as a function of the slot. -/
def Mesh.rep (m : Mesh K) (f : Nat) : Option Nat := (m.faces[f]?).bind Face.halfedge

/-- `f->removed`, `none` outside the store. -/
def Mesh.faceRemoved (m : Mesh K) (f : Nat) : Option Bool := (m.faces[f]?).map Face.removed

/-- `v->removed`, `none` outside the store. -/
def Mesh.vertexRemoved (m : Mesh K) (v : Nat) : Option Bool := (m.vertices[v]?).map Vertex.removed

/-- `v->position`, `none` outside the store. -/
def Mesh.position (m : Mesh K) (v : Nat) : Option (Vector3 K) :=
  (m.vertices[v]?).map Vertex.position

/-- The end vertex of a half-edge: the start of its successor. -/
def Mesh.target (m : Mesh K) (h : Nat) : Option Nat := (m.next h).bind m.start

/-- What the data model asks of one half-edge: `next` moves, `next` and `previous` are
mutually inverse and close after three steps, the loop shares one allocated face, the start
vertex is allocated, and an opposite points back with the end points reversed. -/
def HalfedgeOk (m : Mesh K) (h : Nat) : Prop :=
  m.next h ≠ some h ∧
  (m.next h).bind m.prev = some h ∧
  (m.prev h).bind m.next = some h ∧
  ((m.next h).bind m.next).bind m.next = some h ∧
  (∃ f < m.faces.length, m.left h = some f) ∧
  (m.next h).bind m.left = m.left h ∧
  (∃ v < m.vertices.length, m.start h = some v) ∧
  ∀ g ∈ m.opp h, m.opp g = some h ∧ m.start g = m.target h ∧ m.start h = m.target g

/-- The invariants of the data model: every half-edge is in order, a vertex's
`firstHalfedge` starts at that vertex, a face's representative lies on that face,
and the tails of the allocation lists are allocated. -/
def WellFormed (m : Mesh K) : Prop :=
  (∀ h < m.halfedges.length, HalfedgeOk m h) ∧
  (∀ v < m.vertices.length, ∀ h ∈ m.first v, m.start h = some v) ∧
  (∀ f < m.faces.length, ∀ h ∈ m.rep f, m.left h = some f) ∧
  (∀ v ∈ m.m_lastVertex, v < m.vertices.length) ∧
  (∀ f ∈ m.m_lastFace, f < m.faces.length)

instance (m : Mesh K) (h : Nat) : Decidable (HalfedgeOk m h) := by
  unfold HalfedgeOk
  infer_instance

instance (m : Mesh K) : Decidable (WellFormed m) := by
  unfold WellFormed
  infer_instance

end Views

section Examples

instance instDecidableEqExcept {ε α : Type} [DecidableEq ε] [DecidableEq α] :
    DecidableEq (Except ε α)
  | .ok a, .ok b =>
    if h : a = b then isTrue (by rw [h]) else isFalse (fun hc => h (by cases hc; rfl))
  | .error a, .error b =>
    if h : a = b then isTrue (by rw [h]) else isFalse (fun hc => h (by cases hc; rfl))
  | .ok _, .error _ => isFalse (fun hc => by cases hc)
  | .error _, .ok _ => isFalse (fun hc => by cases hc)

/-- A key function of the kind the header declares: both indices packed into one
number, the first in the high half. -/
def packHalfedgeKey (first second : Nat) : Nat := first * 4294967296 + second

/-- The swap that goes with `packHalfedgeKey`: the two halves change places. -/
def swapPackedKey (key : Nat) : Nat := (key % 4294967296) * 4294967296 + key / 4294967296

/-- The mesh a run of the constructor produced, the empty mesh when it faulted. -/
def meshOf (r : Except Fault (Mesh ℚ)) : Mesh ℚ :=
  match r with
  | .ok m => m
  | .error _ => Mesh.empty ℚ

/-- The mesh after a run of `collapseEdge`, the empty mesh when it faulted. -/
def meshAfter (r : Except Fault (Bool × Mesh ℚ)) : Mesh ℚ :=
  match r with
  | .ok p => p.2
  | .error _ => Mesh.empty ℚ

/-- A tetrahedron: four triangles, closed and manifold. -/
def tetra : Mesh ℚ :=
  meshOf (HalfedgeMesh.HalfedgeMesh packHalfedgeKey swapPackedKey id
    [⟨0, 0, 0⟩, ⟨1, 0, 0⟩, ⟨0, 1, 0⟩, ⟨0, 0, 1⟩] [[0, 1, 2], [0, 3, 1], [0, 2, 3], [1, 3, 2]])

/-- The tetrahedron after collapsing its first half-edge under a generous bound. -/
def tetraCollapsed : Mesh ℚ := meshAfter (collapseEdge 10 tetra (some 0) 4)

end Examples

section Footprints

variable {K : Type}

/-- What `breakFace` leaves behind when it splits the face `L` at the half-edge `H`
with predecessor `p` and successor `nx`, `M` being the break point: three new
half-edges `n`, `n + 1`, `n + 2` (`n` the old size of the store) and one new face
`F` (the old number of faces).  The old face keeps the loop `p, H, n + 2`, the new
face gets the loop `n, n + 1, nx`. -/
structure BreakFacePost (m m' : Mesh K) (L H M p nx : Nat) : Prop where
  length_eq : m'.halfedges.length = m.halfedges.length + 3
  frame : ∀ j, j ≠ p → j ≠ H → j ≠ nx → j < m.halfedges.length →
    m'.halfedges[j]? = m.halfedges[j]?
  next_p : m'.next p = some H
  prev_p : m'.prev p = some (m.halfedges.length + 2)
  left_p : m'.left p = some L
  start_p : m'.start p = m.start p
  opp_p : m'.opp p = m.opp p
  next_H : m'.next H = some (m.halfedges.length + 2)
  prev_H : m'.prev H = some p
  left_H : m'.left H = some L
  start_H : m'.start H = m.start H
  opp_H : m'.opp H = m.opp H
  next_c : m'.next (m.halfedges.length + 2) = some p
  prev_c : m'.prev (m.halfedges.length + 2) = some H
  left_c : m'.left (m.halfedges.length + 2) = some L
  start_c : m'.start (m.halfedges.length + 2) = some M
  opp_c : m'.opp (m.halfedges.length + 2) = some m.halfedges.length
  next_a : m'.next m.halfedges.length = some (m.halfedges.length + 1)
  prev_a : m'.prev m.halfedges.length = some nx
  left_a : m'.left m.halfedges.length = some m.faces.length
  start_a : m'.start m.halfedges.length = m.start p
  opp_a : m'.opp m.halfedges.length = some (m.halfedges.length + 2)
  next_b : m'.next (m.halfedges.length + 1) = some nx
  prev_b : m'.prev (m.halfedges.length + 1) = some m.halfedges.length
  left_b : m'.left (m.halfedges.length + 1) = some m.faces.length
  start_b : m'.start (m.halfedges.length + 1) = some M
  opp_b : m'.opp (m.halfedges.length + 1) = none
  next_nx : m'.next nx = some m.halfedges.length
  prev_nx : m'.prev nx = some (m.halfedges.length + 1)
  left_nx : m'.left nx = some m.faces.length
  start_nx : m'.start nx = m.start nx
  opp_nx : m'.opp nx = m.opp nx
  reps : m'.faces.map Face.halfedge
    = (m.faces.map Face.halfedge).set L (some p) ++ [some nx]
  removed_eq : m'.faces.map Face.removed = m.faces.map Face.removed ++ [false]
  vertices_eq : m'.vertices
    = m.vertices.modify (fun v => { v with firstHalfedge := some (m.halfedges.length + 1) }) M
  lastVertex : m'.m_lastVertex = m.m_lastVertex
  lastFace : m'.m_lastFace = some m.faces.length

end Footprints

section EdgeFootprint

variable {K : Type}

/-- The opposite invariant of the data model: an opposite points back, and the two
half-edges of a pair run between the same vertices in reverse. -/
def OppositeInvariant (m : Mesh K) : Prop :=
  ∀ h g, m.opp h = some g →
    m.opp g = some h ∧ m.start g = m.target h ∧ m.start h = m.target g

/-- What `breakEdge` leaves behind at a half-edge `H` with opposite `O`, the loops
being `p, H, nx` on face `L` and `pO, O, nO` on face `R`: six new half-edges
`n .. n + 5`, two new faces `F`, `F + 1` and the new vertex `M` (`n`, `F`, `M` the old
sizes of the three stores), seen through start vertex, end vertex, opposite and face. -/
structure BreakEdgePost [Field K] (m m' : Mesh K) (H O p nx pO nO L R : Nat) : Prop where
  length_eq : m'.halfedges.length = m.halfedges.length + 6
  start_old : ∀ j, j < m.halfedges.length → m'.start j = m.start j
  opp_old : ∀ j, j < m.halfedges.length → j ≠ H → j ≠ O → m'.opp j = m.opp j
  target_old : ∀ j, j < m.halfedges.length → j ≠ H → j ≠ O → m'.target j = m.target j
  opp_H : m'.opp H = some (m.halfedges.length + 4)
  target_H : m'.target H = some m.vertices.length
  opp_O : m'.opp O = some (m.halfedges.length + 1)
  target_O : m'.target O = some m.vertices.length
  start_0 : m'.start m.halfedges.length = m.start p
  opp_0 : m'.opp m.halfedges.length = some (m.halfedges.length + 2)
  target_0 : m'.target m.halfedges.length = some m.vertices.length
  left_0 : m'.left m.halfedges.length = some m.faces.length
  start_1 : m'.start (m.halfedges.length + 1) = some m.vertices.length
  opp_1 : m'.opp (m.halfedges.length + 1) = some O
  target_1 : m'.target (m.halfedges.length + 1) = m.start nx
  left_1 : m'.left (m.halfedges.length + 1) = some m.faces.length
  start_2 : m'.start (m.halfedges.length + 2) = some m.vertices.length
  opp_2 : m'.opp (m.halfedges.length + 2) = some m.halfedges.length
  target_2 : m'.target (m.halfedges.length + 2) = m.start p
  left_2 : m'.left (m.halfedges.length + 2) = some L
  start_3 : m'.start (m.halfedges.length + 3) = m.start pO
  opp_3 : m'.opp (m.halfedges.length + 3) = some (m.halfedges.length + 5)
  target_3 : m'.target (m.halfedges.length + 3) = some m.vertices.length
  left_3 : m'.left (m.halfedges.length + 3) = some (m.faces.length + 1)
  start_4 : m'.start (m.halfedges.length + 4) = some m.vertices.length
  opp_4 : m'.opp (m.halfedges.length + 4) = some H
  target_4 : m'.target (m.halfedges.length + 4) = m.start nO
  left_4 : m'.left (m.halfedges.length + 4) = some (m.faces.length + 1)
  start_5 : m'.start (m.halfedges.length + 5) = some m.vertices.length
  opp_5 : m'.opp (m.halfedges.length + 5) = some (m.halfedges.length + 3)
  target_5 : m'.target (m.halfedges.length + 5) = m.start pO
  left_5 : m'.left (m.halfedges.length + 5) = some R
  first_new : m'.first m.vertices.length = some (m.halfedges.length + 4)
  removed_eq : m'.faces.map Face.removed = m.faces.map Face.removed ++ [false, false]
  positions : ∃ rA rB, (m.start H).bind m.position = some rA ∧
    (m.target H).bind m.position = some rB ∧
    m'.vertices.map Vertex.position
      = m.vertices.map Vertex.position ++ [(rA.add rB).scale (1 / 2)]
  vertex_flags : m'.vertices.map Vertex.removed = m.vertices.map Vertex.removed ++ [false]

end EdgeFootprint

section FailingInputs

/-- One degenerate triangle `(0, 0, 1)`: its first half-edge runs from vertex 0 to
vertex 0 and the constructor pairs it with itself. -/
def degenerate : Mesh ℚ :=
  meshOf (HalfedgeMesh.HalfedgeMesh packHalfedgeKey swapPackedKey id
    [⟨0, 0, 0⟩, ⟨1, 0, 0⟩] [[0, 0, 1]])

/-- The degenerate triangle after `breakEdge` at its self-opposite half-edge. -/
def degenerateSplit : Mesh ℚ := meshOf (breakEdge degenerate (some 0))

/-- A fan of three triangles around the boundary vertex 0 (`A`), with a fourth
triangle along the edge between vertices 1 and 2.  The triangle in the middle of the
fan comes first, so `A`'s `firstHalfedge` is half-edge 0, in the middle of the fan;
half-edge 5 runs from `A` to vertex 1 along the boundary and half-edge 6 from `A` to
the far-away vertex 3. -/
def fanMesh : Mesh ℚ :=
  meshOf (HalfedgeMesh.HalfedgeMesh packHalfedgeKey swapPackedKey id
    [⟨0, 0, 0⟩, ⟨2, 0, 0⟩, ⟨1, 1, 0⟩, ⟨-10, 1, 0⟩, ⟨-10, -1, 0⟩, ⟨2, 1, 0⟩]
    [[0, 2, 3], [1, 2, 0], [0, 3, 4], [2, 1, 5]])

/-- The fan after `collapseEdge` at half-edge 5 with bound 4. -/
def fanCollapsed : Mesh ℚ := meshAfter (collapseEdge 100 fanMesh (some 5) 4)

/-- A strip of three triangles; half-edge 3 runs from vertex 0 to vertex 1 along the
boundary and has no opposite, and vertex 1's `firstHalfedge` is half-edge 4, the
successor of half-edge 3 on the same face. -/
def strip : Mesh ℚ :=
  meshOf (HalfedgeMesh.HalfedgeMesh packHalfedgeKey swapPackedKey id
    [⟨0, 0, 0⟩, ⟨1, 0, 0⟩, ⟨1, 1, 0⟩, ⟨0, 1, 0⟩, ⟨2, 1, 0⟩] [[0, 2, 3], [0, 1, 2], [2, 1, 4]])

/-- The strip after `collapseEdge` at half-edge 3 with bound 4. -/
def stripCollapsed : Mesh ℚ := meshAfter (collapseEdge 10 strip (some 3) 4)

/-- Two vertices and one face with two indices: the constructor skips the face. -/
def twoGon : Mesh ℚ :=
  meshOf (HalfedgeMesh.HalfedgeMesh packHalfedgeKey swapPackedKey id
    [⟨0, 0, 0⟩, ⟨1, 0, 0⟩] [[0, 1]])

end FailingInputs

section Traversal

variable {K : Type}

/-- The `do ... while` loop of `averageEdgeLength` (lines 123-127).  The body never
assigns `halfedge`, so the recursive call passes it on as it is. `length` is
`Vector3::length()` of the absent header. -/
def averageEdgeLengthInner [Add K] [Sub K] (length : Vector3 K → K) (m : Mesh K)
    (startHalfedge : Option Nat) : Nat → Option Nat → K → Nat → Except Fault (K × Nat)
  | 0, _, _, _ => .error .outOfFuel
  | fuel + 1, halfedge, totalLength, halfedgeCount => do
    let h ← m.halfedgeAt halfedge
    let nextHalfedge := h.nextHalfedge
    let a ← m.vertexAt h.startVertex
    let n ← m.halfedgeAt nextHalfedge
    let b ← m.vertexAt n.startVertex
    let totalLength := totalLength + length (a.position.sub b.position)
    let halfedgeCount := halfedgeCount + 1
    if halfedge ≠ startHalfedge then
      averageEdgeLengthInner length m startHalfedge fuel halfedge totalLength halfedgeCount
    else pure (totalLength, halfedgeCount)

/-- The `for` loop of `averageEdgeLength` (lines 120-128), from `face` on. -/
def averageEdgeLengthLoop [Add K] [Sub K] (length : Vector3 K → K) (m : Mesh K) :
    Nat → Option Nat → K → Nat → Except Fault (K × Nat)
  | 0, _, _, _ => .error .outOfFuel
  | fuel + 1, face, totalLength, halfedgeCount =>
    if face = none then pure (totalLength, halfedgeCount)
    else do
      let f ← m.faceAt face
      let startHalfedge := f.halfedge
      let (totalLength, halfedgeCount) ←
        averageEdgeLengthInner length m startHalfedge (fuel + 1) startHalfedge totalLength
          halfedgeCount
      averageEdgeLengthLoop length m fuel f.nextFace totalLength halfedgeCount

/-- `HalfedgeMesh::averageEdgeLength` (lines 116-132). -/
def averageEdgeLength [DivisionRing K] (length : Vector3 K → K) (fuel : Nat) (m : Mesh K) :
    Except Fault K := do
  let (totalLength, halfedgeCount) ← averageEdgeLengthLoop length m fuel m.m_firstFace 0 0
  if 0 = halfedgeCount then pure 0
  else pure (totalLength / (halfedgeCount : K))

/-- The `do ... while` loop of `moveToNextFace` (lines 178-180). -/
def moveToNextFaceLoop (m : Mesh K) : Nat → Option Nat → Except Fault (Option Nat)
  | 0, _ => .error .outOfFuel
  | fuel + 1, face => do
    let f ← m.faceAt face
    let face := f.nextFace
    if face ≠ none then do
      let g ← m.faceAt face
      if g.removed then moveToNextFaceLoop m fuel face else pure face
    else pure face

/-- `HalfedgeMesh::moveToNextFace` (lines 169-182). -/
def moveToNextFace (fuel : Nat) (m : Mesh K) (face : Option Nat) : Except Fault (Option Nat) :=
  if face = none then
    let face := m.m_firstFace
    if face = none then pure none
    else do
      let f ← m.faceAt face
      if !f.removed then pure face
      else moveToNextFaceLoop m fuel face
  else moveToNextFaceLoop m fuel face

/-- The `do ... while` loop of `moveToNextVertex` (lines 193-195). -/
def moveToNextVertexLoop (m : Mesh K) : Nat → Option Nat → Except Fault (Option Nat)
  | 0, _ => .error .outOfFuel
  | fuel + 1, vertex => do
    let v ← m.vertexAt vertex
    let vertex := v.nextVertex
    if vertex ≠ none then do
      let w ← m.vertexAt vertex
      if w.removed then moveToNextVertexLoop m fuel vertex else pure vertex
    else pure vertex

/-- `HalfedgeMesh::moveToNextVertex` (lines 184-197). -/
def moveToNextVertex (fuel : Nat) (m : Mesh K) (vertex : Option Nat) :
    Except Fault (Option Nat) :=
  if vertex = none then
    let vertex := m.m_firstVertex
    if vertex = none then pure none
    else do
      let v ← m.vertexAt vertex
      if !v.removed then pure vertex
      else moveToNextVertexLoop m fuel vertex
  else moveToNextVertexLoop m fuel vertex

end Traversal

section MoreInputs

/-- A stand-in for `Vector3::length()` with rational values: the sum of the absolute
values of the coordinates.  It is a norm, so non-negative. -/
def taxicabLength (v : Vector3 ℚ) : ℚ :=
  (if v.x < 0 then -v.x else v.x) + (if v.y < 0 then -v.y else v.y) +
    (if v.z < 0 then -v.z else v.z)

/-- One triangle with corners `(0,0,0)`, `(3,0,0)`, `(3,4,0)`: half-edge 0 runs from
vertex 0 to vertex 1, half-edge 1 from vertex 1 to vertex 2, half-edge 2 from vertex 2
to vertex 0; none has an opposite. -/
def triangle : Mesh ℚ :=
  meshOf (HalfedgeMesh.HalfedgeMesh packHalfedgeKey swapPackedKey id
    [⟨0, 0, 0⟩, ⟨3, 0, 0⟩, ⟨3, 4, 0⟩] [[0, 1, 2]])

/-- A closed fan of `k` triangles around vertex 0: the rim vertices are `1 .. k` and
triangle `i` is `(0, i + 1, i + 2)`, the last one closing the rim. -/
def cone (k : Nat) : Mesh ℚ :=
  meshOf (HalfedgeMesh.HalfedgeMesh packHalfedgeKey swapPackedKey id
    ((List.range (k + 1)).map (fun i => ⟨(i : ℚ), 0, 0⟩))
    ((List.range k).map (fun i => [0, i + 1, (i + 1) % k + 1])))

/-- The tetrahedron with the removed flag of its first face set by hand. -/
def tetraMarked : Mesh ℚ :=
  { tetra with faces := tetra.faces.modify (fun f => { f with removed := true }) 0 }

end MoreInputs

section Fans

variable {K : Type}

/-- One step of the walk of lines 323-326: from a half-edge to the successor of its
opposite. -/
def Mesh.fanNext (m : Mesh K) (h : Nat) : Option Nat := (m.opp h).bind m.next

/-- The half-edge reached from `h` after `i` steps of the walk. -/
def Mesh.fanIter (m : Mesh K) (h : Nat) : Nat → Option Nat
  | 0 => some h
  | i + 1 => (m.fanIter h i).bind m.fanNext

/-- The fan walked from `h` is a closed cycle of length `k`: the walk is back at `h`
after `k` steps and not before. -/
def ClosedFan (m : Mesh K) (h k : Nat) : Prop :=
  0 < k ∧ m.fanIter h k = some h ∧ ∀ i < k, i = 0 ∨ m.fanIter h i ≠ some h

instance (m : Mesh K) (h k : Nat) : Decidable (ClosedFan m h k) := by
  unfold ClosedFan
  infer_instance

end Fans

section Chains

variable {K : Type}

/-- The allocation list of faces as `newFace` links it (lines 138-144): `m_firstFace`
is slot 0, `m_lastFace` the last slot, and the `nextFace` of slot `i` is slot `i + 1`,
the last slot having none. -/
def FaceChain (m : Mesh K) : Prop :=
  m.m_firstFace = (if m.faces.length = 0 then none else some 0) ∧
  m.m_lastFace = (if m.faces.length = 0 then none else some (m.faces.length - 1)) ∧
  ∀ i < m.faces.length, (m.faces[i]?).bind Face.nextFace
    = if i + 1 < m.faces.length then some (i + 1) else none

/-- The allocation list of vertices as `newVertex` links it (lines 152-158). -/
def VertexChain (m : Mesh K) : Prop :=
  m.m_firstVertex = (if m.vertices.length = 0 then none else some 0) ∧
  m.m_lastVertex = (if m.vertices.length = 0 then none else some (m.vertices.length - 1)) ∧
  ∀ i < m.vertices.length, (m.vertices[i]?).bind Vertex.nextVertex
    = if i + 1 < m.vertices.length then some (i + 1) else none

instance (m : Mesh K) : Decidable (FaceChain m) := by
  unfold FaceChain
  infer_instance

instance (m : Mesh K) : Decidable (VertexChain m) := by
  unfold VertexChain
  infer_instance

/-- The first face at or after slot `s`, in allocation order, whose removed flag is
false. -/
def firstLiveFace (m : Mesh K) (s : Nat) : Option Nat :=
  (List.range' s (m.faces.length - s)).find? (fun j => decide (m.faceRemoved j = some false))

/-- The faces at or after slot `s` whose removed flag is false, in allocation order. -/
def liveFacesFrom (m : Mesh K) (s : Nat) : List Nat :=
  (List.range' s (m.faces.length - s)).filter (fun j => decide (m.faceRemoved j = some false))

/-- The first vertex at or after slot `s`, in allocation order, whose removed flag is
false. -/
def firstLiveVertex (m : Mesh K) (s : Nat) : Option Nat :=
  (List.range' s (m.vertices.length - s)).find?
    (fun j => decide (m.vertexRemoved j = some false))

/-- The vertices at or after slot `s` whose removed flag is false, in allocation
order. -/
def liveVerticesFrom (m : Mesh K) (s : Nat) : List Nat :=
  (List.range' s (m.vertices.length - s)).filter
    (fun j => decide (m.vertexRemoved j = some false))

/-- Modelled from the spec: the iteration of a caller, which the source file does not
contain: start from `moveToNextFace(nullptr)` and call `moveToNextFace` on each face
returned until it returns `nullptr`, collecting the faces returned; `n` bounds the
number of calls. -/
def iterateFaces (fuel : Nat) (m : Mesh K) : Nat → Option Nat → Except Fault (List Nat)
  | 0, _ => .error .outOfFuel
  | n + 1, cursor => do
    let face ← moveToNextFace fuel m cursor
    match face with
    | none => pure []
    | some f => do
      let rest ← iterateFaces fuel m n (some f)
      pure (f :: rest)

/-- Modelled from the spec: the same iteration over vertices with
`moveToNextVertex`. -/
def iterateVertices (fuel : Nat) (m : Mesh K) : Nat → Option Nat → Except Fault (List Nat)
  | 0, _ => .error .outOfFuel
  | n + 1, cursor => do
    let vertex ← moveToNextVertex fuel m cursor
    match vertex with
    | none => pure []
    | some v => do
      let rest ← iterateVertices fuel m n (some v)
      pure (v :: rest)

end Chains

section BuildFootprint

variable {K : Type}

/-- The directed edges of the triangles of a face list, in the order in which the
constructor creates their half-edges; a face that is not a triangle contributes
none. -/
def edgesOf : List (List Nat) → List (Nat × Nat)
  | [] => []
  | [x, y, z] :: rest => (x, y) :: (y, z) :: (z, x) :: edgesOf rest
  | _ :: rest => edgesOf rest

/-- The three half-edges that lines 56-81 leave behind for the triangle `x, y, z` at
`faceIndex = F`, when `n` half-edges exist and the debug counter stands at `d`. -/
def triangleHalfedges (n F d x y z : Nat) : List Halfedge :=
  [{ startVertex := some x, leftFace := some F, previousHalfedge := some (n + 2),
     nextHalfedge := some (n + 1), oppositeHalfedge := none, debugIndex := d + 1 },
   { startVertex := some y, leftFace := some F, previousHalfedge := some n,
     nextHalfedge := some (n + 2), oppositeHalfedge := none, debugIndex := d + 2 },
   { startVertex := some z, leftFace := some F, previousHalfedge := some (n + 1),
     nextHalfedge := some n, oppositeHalfedge := none, debugIndex := d + 3 }]

/-- The half-edges that the loop of lines 50-82 appends for the faces from `faceIndex = F`
on. -/
def loopHalfedges : List (List Nat) → Nat → Nat → Nat → List Halfedge
  | [], _, _, _ => []
  | [x, y, z] :: rest, F, n, d =>
    triangleHalfedges n F d x y z ++ loopHalfedges rest (F + 1) (n + 3) (d + 3)
  | _ :: rest, F, n, d => loopHalfedges rest (F + 1) n d

/-- The three calls of `insert` of line 76 for the triangle `x, y, z`, `n` being the
number of half-edges before. -/
def insertTriangle (makeHalfedgeKey : Nat → Nat → Nat) (map : List (Nat × Option Nat))
    (n x y z : Nat) : List (Nat × Option Nat) :=
  (mapInsert (mapInsert (mapInsert map (makeHalfedgeKey x y) (some n)).1
    (makeHalfedgeKey y z) (some (n + 1))).1 (makeHalfedgeKey z x) (some (n + 2))).1

/-- The map that the loop of lines 50-82 builds for the faces given, from a map and `n`
half-edges. -/
def loopMap (makeHalfedgeKey : Nat → Nat → Nat) :
    List (List Nat) → Nat → List (Nat × Option Nat) → List (Nat × Option Nat)
  | [], _, map => map
  | [x, y, z] :: rest, n, map =>
    loopMap makeHalfedgeKey rest (n + 3) (insertTriangle makeHalfedgeKey map n x y z)
  | _ :: rest, n, map => loopMap makeHalfedgeKey rest n map

end BuildFootprint

section MapFootprint

/-- What the map of lines 49-80 holds once half-edge `i` has been made for the directed
edge `E[i]`, for each `i`: every entry stores the first half-edge made for its pair,
every pair met has an entry, and no key occurs twice. -/
def MapInv (makeHalfedgeKey : Nat → Nat → Nat) (E : List (Nat × Nat))
    (map : List (Nat × Option Nat)) : Prop :=
  (∀ e ∈ map, ∃ (i u v : Nat), e = (makeHalfedgeKey u v, some i) ∧ E[i]? = some (u, v) ∧
    ∀ j < i, E[j]? ≠ some (u, v)) ∧
  (∀ (i u v : Nat), E[i]? = some (u, v) → ∃ val, (makeHalfedgeKey u v, val) ∈ map) ∧
  (map.map Prod.fst).Nodup

/-- Two half-edges are partners in the map when one is stored under a key and the
other under the swapped key: the pairs that lines 83-89 link. -/
def Partners (swapHalfedgeKey : Nat → Nat) (map : List (Nat × Option Nat)) (h g : Nat) :
    Prop :=
  ∃ k, (k, some h) ∈ map ∧ (swapHalfedgeKey k, some g) ∈ map

end MapFootprint

section ConstructorFootprint

variable {K : Type}

/-- What the constructor leaves behind for a position list of length `n` and a face
list, `E` being the directed edges of the triangles in the order of creation: half-edge
`i` is the one made for `E[i]`; it runs from the first to the second index of its pair
on a closed loop of three half-edges of one face; its opposite is set exactly when it is
the first half-edge made for its pair and the reversed pair occurs, and then it is the
first half-edge made for the reversed pair; every face is live, a triangle has a
representative on its own loop and any other face has none. -/
structure ConstructorPost (n : Nat) (faces : List (List Nat)) (m : Mesh K) : Prop where
  halfedges_length : m.halfedges.length = (edgesOf faces).length
  faces_length : m.faces.length = faces.length
  vertices_length : m.vertices.length = n
  start_target : ∀ (i u v : Nat), (edgesOf faces)[i]? = some (u, v) →
    m.start i = some u ∧ m.target i = some v
  cycle : ∀ i < (edgesOf faces).length, ∃ a b lf, m.next i = some a ∧ m.next a = some b ∧
    m.next b = some i ∧ a ≠ i ∧ m.left i = some lf ∧ m.left a = some lf ∧ m.left b = some lf
  opp_iff : ∀ (i j : Nat), m.opp i = some j ↔ ∃ (u v : Nat),
    (edgesOf faces)[i]? = some (u, v) ∧ (∀ k < i, (edgesOf faces)[k]? ≠ some (u, v)) ∧
    (edgesOf faces)[j]? = some (v, u) ∧ (∀ k < j, (edgesOf faces)[k]? ≠ some (v, u))
  live : ∀ f < faces.length, m.faceRemoved f = some false
  rep_triangle : ∀ (f : Nat) (t : List Nat), faces[f]? = some t → t.length = 3 →
    ∃ h, m.rep f = some h ∧ m.left h = some f
  rep_other : ∀ (f : Nat) (t : List Nat), faces[f]? = some t → t.length ≠ 3 → m.rep f = none

end ConstructorFootprint

section ConstructorStages

variable {K : Type}

/-- Lines 33-82 of the constructor, up to the pairing pass: the local variable
`halfedgeMap` when the loop over the faces is done. -/
def halfedgeMapOf [Zero K] (makeHalfedgeKey : Nat → Nat → Nat) (vertices : List (Vector3 K))
    (faces : List (List Nat)) : Except Fault (List (Nat × Option Nat)) := do
  let (m, halfedgeVertices) ← constructVertices vertices (Mesh.empty K) []
  let (m, halfedgeFaces) ← constructFaces faces m []
  let (_, halfedgeMap) ←
    constructFaceLoop makeHalfedgeKey halfedgeVertices halfedgeFaces faces 0 m []
  pure halfedgeMap

/-- What the constructor leaves behind whatever the key functions are, for a position
list of length `n`: half-edge `i` is the one made for the directed edge `E[i]`, it runs
from the first to the second index of its pair on a closed loop of three half-edges of
one face; every face is live, a triangle has a representative on its own loop and any
other face has none. -/
structure FacesPost (n : Nat) (faces : List (List Nat)) (m : Mesh K) : Prop where
  halfedges_length : m.halfedges.length = (edgesOf faces).length
  faces_length : m.faces.length = faces.length
  vertices_length : m.vertices.length = n
  start_target : ∀ (i u v : Nat), (edgesOf faces)[i]? = some (u, v) →
    m.start i = some u ∧ m.target i = some v
  cycle : ∀ i < (edgesOf faces).length, ∃ a b lf, m.next i = some a ∧ m.next a = some b ∧
    m.next b = some i ∧ a ≠ i ∧ m.left i = some lf ∧ m.left a = some lf ∧ m.left b = some lf
  live : ∀ f < faces.length, m.faceRemoved f = some false
  rep_triangle : ∀ (f : Nat) (t : List Nat), faces[f]? = some t → t.length = 3 →
    ∃ h, m.rep f = some h ∧ m.left h = some f
  rep_other : ∀ (f : Nat) (t : List Nat), faces[f]? = some t → t.length ≠ 3 → m.rep f = none

end ConstructorStages

/-! ## Lemmas and theorems -/

section ExceptLemmas
variable {ε α β : Type}

theorem bind_eq_ok {x : Except ε α} {f : α → Except ε β} {b : β} :
    (x >>= f) = Except.ok b ↔ ∃ a, x = Except.ok a ∧ f a = Except.ok b := by
  cases x with
  | error e => simp [bind, Except.bind]
  | ok a => simp [bind, Except.bind]

@[simp] theorem ok_bind (a : α) (f : α → Except ε β) : (Except.ok a >>= f) = f a := rfl

@[simp] theorem error_bind (e : ε) (f : α → Except ε β) :
    (Except.error e >>= f) = Except.error e := rfl

@[simp] theorem pure_eq_ok (a : α) : (pure a : Except ε α) = Except.ok a := rfl

end ExceptLemmas

section HeapLemmas
variable {K : Type}

theorem halfedgeAt_eq_ok {m : Mesh K} {p : Option Nat} {e : Halfedge} :
    m.halfedgeAt p = Except.ok e ↔ ∃ i, p = some i ∧ m.halfedges[i]? = some e := by
  unfold Mesh.halfedgeAt
  cases p with
  | none => simp
  | some i =>
    cases h : m.halfedges[i]? <;> simp [h]

theorem vertexAt_eq_ok {m : Mesh K} {p : Option Nat} {e : Vertex K} :
    m.vertexAt p = Except.ok e ↔ ∃ i, p = some i ∧ m.vertices[i]? = some e := by
  unfold Mesh.vertexAt
  cases p with
  | none => simp
  | some i =>
    cases h : m.vertices[i]? <;> simp [h]

theorem faceAt_eq_ok {m : Mesh K} {p : Option Nat} {e : Face} :
    m.faceAt p = Except.ok e ↔ ∃ i, p = some i ∧ m.faces[i]? = some e := by
  unfold Mesh.faceAt
  cases p with
  | none => simp
  | some i =>
    cases h : m.faces[i]? <;> simp [h]

theorem updateHalfedge_eq_ok {m m' : Mesh K} {p : Option Nat} {f : Halfedge → Halfedge} :
    m.updateHalfedge p f = Except.ok m' ↔
      ∃ i e, p = some i ∧ m.halfedges[i]? = some e ∧
        m' = { m with halfedges := m.halfedges.set i (f e) } := by
  unfold Mesh.updateHalfedge
  cases p with
  | none => simp
  | some i =>
    constructor
    · intro h1
      cases h : m.halfedges[i]? with
      | none => simp [h] at h1
      | some v =>
        simp only [h, Except.ok.injEq] at h1
        exact ⟨i, v, rfl, h, h1.symm⟩
    · rintro ⟨j, e, hj, he, h1⟩
      cases hj
      simp [he, h1]

theorem updateVertex_eq_ok {m m' : Mesh K} {p : Option Nat} {f : Vertex K → Vertex K} :
    m.updateVertex p f = Except.ok m' ↔
      ∃ i e, p = some i ∧ m.vertices[i]? = some e ∧
        m' = { m with vertices := m.vertices.set i (f e) } := by
  unfold Mesh.updateVertex
  cases p with
  | none => simp
  | some i =>
    constructor
    · intro h1
      cases h : m.vertices[i]? with
      | none => simp [h] at h1
      | some v =>
        simp only [h, Except.ok.injEq] at h1
        exact ⟨i, v, rfl, h, h1.symm⟩
    · rintro ⟨j, e, hj, he, h1⟩
      cases hj
      simp [he, h1]

theorem updateFace_eq_ok {m m' : Mesh K} {p : Option Nat} {f : Face → Face} :
    m.updateFace p f = Except.ok m' ↔
      ∃ i e, p = some i ∧ m.faces[i]? = some e ∧
        m' = { m with faces := m.faces.set i (f e) } := by
  unfold Mesh.updateFace
  cases p with
  | none => simp
  | some i =>
    constructor
    · intro h1
      cases h : m.faces[i]? with
      | none => simp [h] at h1
      | some v =>
        simp only [h, Except.ok.injEq] at h1
        exact ⟨i, v, rfl, h, h1.symm⟩
    · rintro ⟨j, e, hj, he, h1⟩
      cases hj
      simp [he, h1]

/-- Overwriting a slot with a record that agrees on `g` leaves the `g`-view alone. -/
theorem map_set_of_eq {α β : Type} (g : α → β) (l : List α) (i : Nat) (a b : α)
    (h : l[i]? = some a) (hg : g b = g a) : (l.set i b).map g = l.map g := by
  apply List.ext_getElem?
  intro j
  simp only [List.getElem?_map, List.getElem?_set]
  by_cases hij : i = j
  · subst hij
    have hlt : i < l.length := by
      rcases Nat.lt_or_ge i l.length with h1 | h1
      · exact h1
      · rw [List.getElem?_eq_none h1] at h; cases h
    simp [hlt, h, hg]
  · simp [hij]

end HeapLemmas

section Frames
variable {K : Type}

theorem getElem?_of_map_eq {α β : Type} {g : α → β} {l l' : List α}
    (h : l'.map g = l.map g) (i : Nat) : (l'[i]?).map g = (l[i]?).map g := by
  have := congrArg (fun x => x[i]?) h
  simpa [List.getElem?_map] using this

theorem changeVertexStartHalfedgeFrom_frame {m m' : Mesh K} {vertex halfedge : Option Nat}
    (h : changeVertexStartHalfedgeFrom m vertex halfedge = Except.ok m') :
    m'.faces = m.faces ∧ m'.halfedges = m.halfedges ∧
      ∀ {β : Type} (g : Vertex K → β), (∀ v x, g { v with firstHalfedge := x } = g v) →
        m'.vertices.map g = m.vertices.map g := by
  unfold changeVertexStartHalfedgeFrom at h
  simp only [bind_eq_ok] at h
  obtain ⟨e, -, p, -, m1, h1, v, -, h⟩ := h
  obtain ⟨i, w, -, hw, rfl⟩ := updateVertex_eq_ok.1 h1
  have base : ∀ {β : Type} (g : Vertex K → β), (∀ v x, g { v with firstHalfedge := x } = g v) →
      (m.vertices.set i { w with firstHalfedge := p.oppositeHalfedge }).map g
        = m.vertices.map g :=
    fun g hg => map_set_of_eq g _ _ _ _ hw (hg _ _)
  split at h
  · cases h
    exact ⟨rfl, rfl, base⟩
  · simp only [bind_eq_ok] at h
    obtain ⟨e2, -, h⟩ := h
    split at h
    · cases h
      exact ⟨rfl, rfl, base⟩
    · simp only [bind_eq_ok] at h
      obtain ⟨o, -, h⟩ := h
      obtain ⟨j, w2, -, hw2, rfl⟩ := updateVertex_eq_ok.1 h
      refine ⟨rfl, rfl, fun g hg => ?_⟩
      rw [← base g hg]
      exact map_set_of_eq g _ _ _ _ hw2 (hg _ _)

theorem repairPreviousStart_frame {m m' : Mesh K} {halfedge : Option Nat}
    (h : repairPreviousStart m halfedge = Except.ok m') :
    m'.faces = m.faces ∧ m'.halfedges = m.halfedges ∧
      ∀ {β : Type} (g : Vertex K → β), (∀ v x, g { v with firstHalfedge := x } = g v) →
        m'.vertices.map g = m.vertices.map g := by
  unfold repairPreviousStart at h
  simp only [bind_eq_ok] at h
  obtain ⟨e, -, p, -, c, -, h⟩ := h
  split at h
  · exact changeVertexStartHalfedgeFrom_frame h
  · cases h
    exact ⟨rfl, rfl, fun _ _ => rfl⟩

theorem pointerVertexLoopOpposite_frame (replacement startHalfedge : Option Nat) :
    ∀ (fuel : Nat) (m m' : Mesh K) (loopHalfedge : Option Nat) (count : Nat),
      pointerVertexLoopOpposite replacement startHalfedge fuel m loopHalfedge count
        = Except.ok m' →
      m'.faces = m.faces ∧ m'.vertices = m.vertices ∧
        ∀ {β : Type} (g : Halfedge → β), (∀ e x, g { e with startVertex := x } = g e) →
          m'.halfedges.map g = m.halfedges.map g := by
  intro fuel
  induction fuel with
  | zero => intro m m' l c h; simp [pointerVertexLoopOpposite] at h
  | succ n ih =>
    intro m m' l c h
    unfold pointerVertexLoopOpposite at h
    simp only [bind_eq_ok] at h
    obtain ⟨m1, h1, e, -, h⟩ := h
    obtain ⟨i, w, -, hw, rfl⟩ := updateHalfedge_eq_ok.1 h1
    have base : ∀ {β : Type} (g : Halfedge → β), (∀ e x, g { e with startVertex := x } = g e) →
        (m.halfedges.set i { w with startVertex := replacement }).map g = m.halfedges.map g :=
      fun g hg => map_set_of_eq g _ _ _ _ hw (hg _ _)
    split at h
    · cases h
      exact ⟨rfl, rfl, base⟩
    · simp only [bind_eq_ok] at h
      obtain ⟨o, -, h⟩ := h
      split at h
      · cases h
      · split at h
        · obtain ⟨hf, hv, hg⟩ := ih _ _ _ _ h
          exact ⟨hf, hv, fun g hgg => (hg g hgg).trans (base g hgg)⟩
        · cases h
          exact ⟨rfl, rfl, base⟩

theorem pointerVertexLoopPrevious_frame (replacement startHalfedge : Option Nat) :
    ∀ (fuel : Nat) (m m' : Mesh K) (loopHalfedge : Option Nat),
      pointerVertexLoopPrevious replacement startHalfedge fuel m loopHalfedge
        = Except.ok m' →
      m'.faces = m.faces ∧ m'.vertices = m.vertices ∧
        ∀ {β : Type} (g : Halfedge → β), (∀ e x, g { e with startVertex := x } = g e) →
          m'.halfedges.map g = m.halfedges.map g := by
  intro fuel
  induction fuel with
  | zero => intro m m' l h; simp [pointerVertexLoopPrevious] at h
  | succ n ih =>
    intro m m' l h
    unfold pointerVertexLoopPrevious at h
    simp only [bind_eq_ok] at h
    obtain ⟨m1, h1, e, -, h⟩ := h
    obtain ⟨i, w, -, hw, rfl⟩ := updateHalfedge_eq_ok.1 h1
    have base : ∀ {β : Type} (g : Halfedge → β), (∀ e x, g { e with startVertex := x } = g e) →
        (m.halfedges.set i { w with startVertex := replacement }).map g = m.halfedges.map g :=
      fun g hg => map_set_of_eq g _ _ _ _ hw (hg _ _)
    split at h
    · cases h
      exact ⟨rfl, rfl, base⟩
    · simp only [bind_eq_ok] at h
      obtain ⟨o, -, h⟩ := h
      split at h
      · obtain ⟨hf, hv, hg⟩ := ih _ _ _ h
        exact ⟨hf, hv, fun g hgg => (hg g hgg).trans (base g hgg)⟩
      · cases h
        exact ⟨rfl, rfl, base⟩

theorem pointerVertexToNewVertex_frame {fuel : Nat} {m m' : Mesh K}
    {vertex replacement : Option Nat}
    (h : pointerVertexToNewVertex fuel m vertex replacement = Except.ok m') :
    m'.faces = m.faces ∧ m'.vertices = m.vertices ∧
      ∀ {β : Type} (g : Halfedge → β), (∀ e x, g { e with startVertex := x } = g e) →
        m'.halfedges.map g = m.halfedges.map g := by
  unfold pointerVertexToNewVertex at h
  simp only [bind_eq_ok] at h
  obtain ⟨v, -, l, -, h⟩ := h
  split at h
  · exact pointerVertexLoopOpposite_frame _ _ _ _ _ _ _ h
  · exact pointerVertexLoopPrevious_frame _ _ _ _ _ _ h

theorem linkHalfedgePair_frame {m m' : Mesh K} {first second : Option Nat}
    (h : linkHalfedgePair m first second = Except.ok m') :
    m'.faces = m.faces ∧ m'.vertices = m.vertices ∧
      (∀ {β : Type} (g : Halfedge → β), (∀ e x, g { e with oppositeHalfedge := x } = g e) →
        m'.halfedges.map g = m.halfedges.map g) ∧
      ∀ i, some i ≠ first → some i ≠ second → m'.halfedges[i]? = m.halfedges[i]? := by
  unfold linkHalfedgePair at h
  simp only [bind_eq_ok] at h
  obtain ⟨m1, h1, h⟩ := h
  have s1 : m1.faces = m.faces ∧ m1.vertices = m.vertices ∧
      (∀ {β : Type} (g : Halfedge → β), (∀ e x, g { e with oppositeHalfedge := x } = g e) →
        m1.halfedges.map g = m.halfedges.map g) ∧
      ∀ i, some i ≠ first → m1.halfedges[i]? = m.halfedges[i]? := by
    split at h1
    · obtain ⟨i, w, rfl, hw, rfl⟩ := updateHalfedge_eq_ok.1 h1
      refine ⟨rfl, rfl, fun g hg => map_set_of_eq g _ _ _ _ hw (hg _ _), fun j hj => ?_⟩
      have : i ≠ j := fun hij => hj (by rw [hij])
      simp [List.getElem?_set, this]
    · cases h1
      exact ⟨rfl, rfl, fun _ _ => rfl, fun _ _ => rfl⟩
  obtain ⟨f1, v1, g1, e1⟩ := s1
  split at h
  · obtain ⟨i, w, rfl, hw, rfl⟩ := updateHalfedge_eq_ok.1 h
    refine ⟨f1, v1, fun g hg => ?_, fun j hj1 hj2 => ?_⟩
    · rw [← g1 g hg]
      exact map_set_of_eq g _ _ _ _ hw (hg _ _)
    · have : i ≠ j := fun hij => hj2 (by rw [hij])
      simp only [List.getElem?_set, this, if_false]
      exact e1 j hj1
  · cases h
    exact ⟨f1, v1, g1, fun j hj1 _ => e1 j hj1⟩

end Frames

section C7
variable {K : Type}

theorem getElem?_lt {α : Type} {l : List α} {i : Nat} {a : α} (h : l[i]? = some a) :
    i < l.length := by
  rcases Nat.lt_or_ge i l.length with h1 | h1
  · exact h1
  · rw [List.getElem?_eq_none h1] at h; cases h

/-- Marking one more live face removed adds one to the count of removed faces. -/
theorem countP_set_removed (l : List Face) (i : Nat) (f : Face) (h : l[i]? = some f)
    (hf : f.removed = false) :
    (l.set i { f with removed := true }).countP (fun x => x.removed)
      = l.countP (fun x => x.removed) + 1 := by
  induction l generalizing i with
  | nil => simp at h
  | cons a t ih =>
    cases i with
    | zero =>
      simp only [List.getElem?_cons_zero, Option.some.injEq] at h
      subst h
      simp [List.countP_cons, hf]
    | succ j =>
      simp only [List.getElem?_cons_succ] at h
      simp only [List.set_cons_succ, List.countP_cons, ih j h]
      omega

theorem collapseEdgeMutate_flags {fuel : Nat} {m m' : Mesh K} {H : Nat} {c : Vector3 K}
    {e : Halfedge} (he : m.halfedges[H]? = some e)
    (hprev : ∀ p ∈ m.prev H, m.opp p ≠ some H)
    (hnext : ∀ n ∈ m.next H, m.opp n ≠ some H)
    (h : collapseEdgeMutate fuel m (some H) c = Except.ok m') :
    m'.vertices.map Vertex.removed = m.vertices.map Vertex.removed ∧
    ∃ L fL, e.leftFace = some L ∧ m.faces[L]? = some fL ∧
      (e.oppositeHalfedge = none →
        m'.faces = m.faces.set L { fL with removed := true }) ∧
      (∀ O, e.oppositeHalfedge = some O →
        ∃ eo R fR, m.halfedges[O]? = some eo ∧ eo.leftFace = some R ∧
          (m.faces.set L { fL with removed := true })[R]? = some fR ∧
          m'.faces = (m.faces.set L { fL with removed := true }).set R
            { fR with removed := true }) := by
  unfold collapseEdgeMutate at h
  simp only [bind_eq_ok] at h
  obtain ⟨h0, hh0, hn0, hhn0, m1, hm1, m2, hm2, h2, hh2, m3, hm3, h3, hh3, hn3, hhn3,
    m4, hm4, h4, hh4, hp4, hhp4, hn4, hhn4, m5, hm5, h5, hh5, rest⟩ := h
  -- stage 1: the position write
  obtain ⟨iB, vB, -, hvB, rfl⟩ := updateVertex_eq_ok.1 hm1
  have v1 : (m.vertices.set iB { vB with position := c }).map Vertex.removed
      = m.vertices.map Vertex.removed := map_set_of_eq _ _ _ _ _ hvB rfl
  -- stage 2: the first repair
  obtain ⟨f2, e2, v2⟩ := repairPreviousStart_frame hm2
  simp only at f2 e2
  have v2' := (v2 Vertex.removed (fun _ _ => rfl)).trans v1
  -- stage 3: the first face is marked
  obtain ⟨i, hi, hh2'⟩ := halfedgeAt_eq_ok.1 hh2
  cases hi
  rw [e2, he] at hh2'
  cases hh2'
  obtain ⟨L, fL, hL, hfL, rfl⟩ := updateFace_eq_ok.1 hm3
  rw [f2] at hfL
  -- stage 4: the fan is re-pointed
  obtain ⟨f4, vv4, g4⟩ := pointerVertexToNewVertex_frame hm4
  simp only at f4 vv4 g4
  -- stage 5: the first pair is linked
  obtain ⟨f5, vv5, g5, k5⟩ := linkHalfedgePair_frame hm5
  -- the half-edge itself at stage 4 and stage 5
  obtain ⟨i, hi, hh4'⟩ := halfedgeAt_eq_ok.1 hh4
  cases hi
  obtain ⟨ip, hip, hhp4'⟩ := halfedgeAt_eq_ok.1 hhp4
  obtain ⟨inx, hinx, hhn4'⟩ := halfedgeAt_eq_ok.1 hhn4
  have hprev4 : h4.previousHalfedge = e.previousHalfedge := by
    have := getElem?_of_map_eq (g4 Halfedge.previousHalfedge (fun _ _ => rfl)) H
    rw [hh4', e2, he] at this
    simpa using this
  have hnext4 : h4.nextHalfedge = e.nextHalfedge := by
    have := getElem?_of_map_eq (g4 Halfedge.nextHalfedge (fun _ _ => rfl)) H
    rw [hh4', e2, he] at this
    simpa using this
  have hopp4 : h4.oppositeHalfedge = e.oppositeHalfedge := by
    have := getElem?_of_map_eq (g4 Halfedge.oppositeHalfedge (fun _ _ => rfl)) H
    rw [hh4', e2, he] at this
    simpa using this
  have hpo : hp4.oppositeHalfedge ≠ some H := by
    have := getElem?_of_map_eq (g4 Halfedge.oppositeHalfedge (fun _ _ => rfl)) ip
    rw [hhp4', e2] at this
    have hp : m.prev H = some ip := by
      simp [Mesh.prev, he, ← hprev4, hip]
    have := hprev ip hp
    intro hc
    apply this
    simp only [Option.map_some'] at *
    rename_i h6
    rw [hc] at h6
    simp only [Mesh.opp]
    cases hx : m.halfedges[ip]? with
    | none => rw [hx] at h6; simp at h6
    | some x => rw [hx] at h6; simp at h6; simp [← h6]
  have hno : hn4.oppositeHalfedge ≠ some H := by
    have := getElem?_of_map_eq (g4 Halfedge.oppositeHalfedge (fun _ _ => rfl)) inx
    rw [hhn4', e2] at this
    have hp : m.next H = some inx := by
      simp [Mesh.next, he, ← hnext4, hinx]
    have := hnext inx hp
    intro hc
    apply this
    simp only [Option.map_some'] at *
    rename_i h6
    rw [hc] at h6
    simp only [Mesh.opp]
    cases hx : m.halfedges[inx]? with
    | none => rw [hx] at h6; simp at h6
    | some x => rw [hx] at h6; simp at h6; simp [← h6]
  obtain ⟨i, hi, hh5'⟩ := halfedgeAt_eq_ok.1 hh5
  cases hi
  have h54 : h5 = h4 := by
    have := k5 H (fun hc => hpo hc.symm) (fun hc => hno hc.symm)
    rw [hh5', hh4'] at this
    simpa using this
  have lf5 : m5.halfedges.map Halfedge.leftFace = m.halfedges.map Halfedge.leftFace := by
    rw [g5 Halfedge.leftFace (fun _ _ => rfl), g4 Halfedge.leftFace (fun _ _ => rfl), e2]
  have faces5 : m5.faces = m.faces.set L { fL with removed := true } := by
    rw [f5, f4, f2]
  have verts5 : m5.vertices.map Vertex.removed = m.vertices.map Vertex.removed := by
    rw [vv5, vv4]; exact v2'
  subst h54
  split at rest
  · -- the half-edge has an opposite
    rename_i hne
    simp only [bind_eq_ok] at rest
    obtain ⟨m6, hm6, o6, ho6, m7, hm7, o7, ho7, m8, hm8, o8, ho8, op8, hop8, on8, hon8, rest⟩ :=
      rest
    obtain ⟨f6, e6, v6⟩ := repairPreviousStart_frame hm6
    obtain ⟨f7, e7, v7⟩ := changeVertexStartHalfedgeFrom_frame hm7
    obtain ⟨f9, vv9, -, -⟩ := linkHalfedgePair_frame rest
    obtain ⟨O, hO, ho7'⟩ := halfedgeAt_eq_ok.1 ho7
    obtain ⟨R, fR, hR, hfR, rfl⟩ := updateFace_eq_ok.1 hm8
    simp only at f9 vv9
    rw [e7, e6] at ho7'
    rw [f7, f6, faces5] at hfR
    refine ⟨?_, L, fL, hL, hfL, ?_, ?_⟩
    · rw [vv9, v7 Vertex.removed (fun _ _ => rfl), v6 Vertex.removed (fun _ _ => rfl)]
      exact verts5
    · intro hc
      rw [← hopp4] at hc
      exact absurd hc hne
    · intro O' hO'
      rw [← hopp4, hO] at hO'
      cases hO'
      have := getElem?_of_map_eq lf5 O
      rw [ho7'] at this
      cases hx : m.halfedges[O]? with
      | none => rw [hx] at this; simp at this
      | some eo =>
        rw [hx] at this
        simp only [Option.map_some', Option.some.injEq] at this
        refine ⟨eo, R, fR, rfl, ?_, hfR, ?_⟩
        · rw [← this]; exact hR
        · rw [f9, f7, f6, faces5]
  · rename_i hne
    simp only [ne_eq, not_not] at hne
    cases rest
    refine ⟨verts5, L, fL, hL, hfL, fun _ => faces5, ?_⟩
    intro O hO
    rw [← hopp4, hne] at hO
    cases hO

theorem lt_of_left {m : Mesh K} {h f : Nat} (hl : m.left h = some f) :
    h < m.halfedges.length := by
  unfold Mesh.left at hl
  cases hx : m.halfedges[h]? with
  | none => rw [hx] at hl; simp at hl
  | some e => exact getElem?_lt hx

theorem lt_of_opp {m : Mesh K} {h g : Nat} (hl : m.opp h = some g) :
    h < m.halfedges.length := by
  unfold Mesh.opp at hl
  cases hx : m.halfedges[h]? with
  | none => rw [hx] at hl; simp at hl
  | some e => exact getElem?_lt hx

/-- C7: on a well-formed mesh, for a half-edge whose face is live and whose opposite,
if any, lies on another live face, a successful `collapseEdge` changes no vertex's
`removed` flag and sets to true exactly the `removed` flags of the face of the
half-edge and of the face of its opposite; so the number of removed faces grows by
two when there is an opposite and by one when there is none. -/
theorem collapseEdge_removed_flags [LinearOrderedField K] (fuel : Nat) (m m' : Mesh K)
    (H L : Nat) (t : K) (wf : WellFormed m)
    (hL : m.left H = some L) (hlive : m.faceRemoved L = some false)
    (hR : ∀ O ∈ m.opp H, ∃ R, m.left O = some R ∧ R ≠ L ∧ m.faceRemoved R = some false)
    (h : collapseEdge fuel m (some H) t = Except.ok (true, m')) :
    (∀ v, m'.vertexRemoved v = m.vertexRemoved v) ∧
    (∀ f, m'.faceRemoved f =
      if m.left H = some f ∨ (m.opp H).bind m.left = some f then some true
      else m.faceRemoved f) ∧
    m'.faces.countP (fun f => f.removed) =
      m.faces.countP (fun f => f.removed) + (if (m.opp H).isSome then 2 else 1) := by
  have hHlt := lt_of_left hL
  obtain ⟨-, hnp, hpn, -, -, hln, -, hopp⟩ := wf.1 H hHlt
  -- the run reached the mutation
  have hmut : ∃ c, collapseEdgeMutate fuel m (some H) c = Except.ok m' := by
    unfold collapseEdge at h
    simp only [bind_eq_ok] at h
    obtain ⟨e, -, a, -, en, -, b, -, t1, -, h⟩ := h
    cases t1 with
    | true => simp at h
    | false =>
      simp only [Bool.false_eq_true, if_false, bind_eq_ok] at h
      obtain ⟨t2, -, h⟩ := h
      cases t2 with
      | true => simp at h
      | false =>
        simp only [Bool.false_eq_true, if_false, bind_eq_ok] at h
        obtain ⟨m2, h2, h⟩ := h
        simp only [pure_eq_ok, Except.ok.injEq, Prod.mk.injEq, true_and] at h
        subst h
        exact ⟨_, h2⟩
  obtain ⟨c, hmut⟩ := hmut
  cases he : m.halfedges[H]? with
  | none => simp [Mesh.left, he] at hL
  | some e =>
  have heL : e.leftFace = some L := by simpa [Mesh.left, he] using hL
  have hprev : ∀ p ∈ m.prev H, m.opp p ≠ some H := by
    intro p hp hc
    have hp' : m.prev H = some p := hp
    obtain ⟨-, -, -, -, -, hlnp, -, hoppp⟩ := wf.1 p (lt_of_opp hc)
    have h1 := (hoppp H hc).1
    obtain ⟨R, hR1, hR2, -⟩ := hR p h1
    rw [hp'] at hpn
    simp only [Option.some_bind] at hpn
    rw [hpn] at hlnp
    simp only [Option.some_bind] at hlnp
    rw [hL, hR1] at hlnp
    exact hR2 (Option.some.inj hlnp).symm
  have hnext : ∀ n ∈ m.next H, m.opp n ≠ some H := by
    intro n hn hc
    have hn' : m.next H = some n := hn
    obtain ⟨-, -, -, -, -, -, -, hoppn⟩ := wf.1 n (lt_of_opp hc)
    have h1 := (hoppn H hc).1
    obtain ⟨R, hR1, hR2, -⟩ := hR n h1
    rw [hn'] at hln
    simp only [Option.some_bind] at hln
    rw [hL, hR1] at hln
    exact hR2 (Option.some.inj hln)
  obtain ⟨hv, L', fL, hL', hfL, hnone, hsome⟩ :=
    collapseEdgeMutate_flags he hprev hnext hmut
  rw [heL] at hL'
  cases hL'
  have hfLr : fL.removed = false := by
    simpa [Mesh.faceRemoved, hfL] using hlive
  have hLlt := getElem?_lt hfL
  refine ⟨fun v => ?_, ?_⟩
  · have := getElem?_of_map_eq hv v
    simpa [Mesh.vertexRemoved] using this
  · cases ho : e.oppositeHalfedge with
    | none =>
      have hopn : m.opp H = none := by simp [Mesh.opp, he, ho]
      have hfaces := hnone ho
      refine ⟨fun f => ?_, ?_⟩
      · simp only [Mesh.faceRemoved, hfaces, hL, hopn, Option.none_bind, or_false,
          List.getElem?_set, Option.some.injEq]
        by_cases hf : L = f
        · subst hf; simp [hLlt]
        · simp [hf]
      · rw [hfaces, countP_set_removed _ _ _ hfL hfLr]
        simp [hopn]
    | some O =>
      have hops : m.opp H = some O := by simp [Mesh.opp, he, ho]
      obtain ⟨eo, R, fR, heo, heoR, hfR, hfaces⟩ := hsome O ho
      have hlO : m.left O = some R := by simp [Mesh.left, heo, heoR]
      obtain ⟨R', hR1, hR2, hR3⟩ := hR O hops
      rw [hlO] at hR1
      cases hR1
      have hfR' : m.faces[R]? = some fR := by
        rw [List.getElem?_set] at hfR
        simpa [Ne.symm hR2] using hfR
      have hfRr : fR.removed = false := by
        simpa [Mesh.faceRemoved, hfR'] using hR3
      have hRlt := getElem?_lt hfR'
      refine ⟨fun f => ?_, ?_⟩
      · simp only [Mesh.faceRemoved, hfaces, hL, hops, Option.some_bind, hlO,
          List.getElem?_set, Option.some.injEq, List.length_set]
        by_cases hf : R = f
        · subst hf; simp [hRlt]
        · by_cases hf2 : L = f
          · subst hf2; simp [hf, hLlt]
          · simp [hf, hf2]
      · rw [hfaces, countP_set_removed _ _ _ hfR hfRr, countP_set_removed _ _ _ hfL hfLr]
        simp [hops]

end C7

section BreakFace
variable {K : Type}

theorem updateHalfedge_of_get {m : Mesh K} {i : Nat} {e : Halfedge} (f : Halfedge → Halfedge)
    (h : m.halfedges[i]? = some e) :
    m.updateHalfedge (some i) f = Except.ok { m with halfedges := m.halfedges.set i (f e) } := by
  simp [Mesh.updateHalfedge, h]

theorem updateFace_of_get {m : Mesh K} {i : Nat} {e : Face} (f : Face → Face)
    (h : m.faces[i]? = some e) :
    m.updateFace (some i) f = Except.ok { m with faces := m.faces.set i (f e) } := by
  simp [Mesh.updateFace, h]

theorem updateVertex_of_get {m : Mesh K} {i : Nat} {e : Vertex K} (f : Vertex K → Vertex K)
    (h : m.vertices[i]? = some e) :
    m.updateVertex (some i) f = Except.ok { m with vertices := m.vertices.set i (f e) } := by
  simp [Mesh.updateVertex, h]

theorem halfedgeAt_of_get {m : Mesh K} {i : Nat} {e : Halfedge}
    (h : m.halfedges[i]? = some e) : m.halfedgeAt (some i) = Except.ok e := by
  simp [Mesh.halfedgeAt, h]

theorem set_map_self {α β : Type} (g : α → β) (l : List α) (i : Nat) (h : i < l.length) :
    (l.map g).set i (g l[i]) = l.map g := by
  apply List.ext_getElem?
  intro j
  simp only [List.getElem?_set, List.length_map, List.getElem?_map]
  by_cases hij : i = j
  · subst hij
    simp [h]
  · simp [hij]

/-- What `newFace` does, as far as the splitting code can see. -/
theorem newFace_spec (m : Mesh K) (hlast : ∀ f ∈ m.m_lastFace, f < m.faces.length) :
    ∃ m1 fNew, newFace m = Except.ok (m1, some m.faces.length) ∧
      m1.halfedges = m.halfedges ∧ m1.vertices = m.vertices ∧
      m1.m_lastVertex = m.m_lastVertex ∧ m1.m_lastFace = some m.faces.length ∧
      m1.faces.length = m.faces.length + 1 ∧
      m1.faces[m.faces.length]? = some fNew ∧ fNew.halfedge = none ∧ fNew.removed = false ∧
      m1.faces.map (fun f => (f.halfedge, f.removed))
        = m.faces.map (fun f => (f.halfedge, f.removed)) ++ [(none, false)] := by
  unfold newFace
  cases hl : m.m_lastFace with
  | none =>
    simp
  | some last =>
    have hlt : last < m.faces.length := hlast last hl
    have hne : last ≠ m.faces.length := Nat.ne_of_lt hlt
    simp [Mesh.updateFace, hlt, List.getElem?_append_left, List.getElem?_set, hne,
      List.set_append_left, hne.symm]
    exact set_map_self (fun f => (f.halfedge, f.removed)) m.faces last hlt

/-- What `newVertex` does, as far as the splitting code can see. -/
theorem newVertex_spec [Zero K] (m : Mesh K) (hlast : ∀ v ∈ m.m_lastVertex, v < m.vertices.length) :
    ∃ m1 vNew, newVertex m = Except.ok (m1, some m.vertices.length) ∧
      m1.halfedges = m.halfedges ∧ m1.faces = m.faces ∧
      m1.m_lastFace = m.m_lastFace ∧ m1.m_lastVertex = some m.vertices.length ∧
      m1.vertices.length = m.vertices.length + 1 ∧
      m1.vertices[m.vertices.length]? = some vNew ∧ vNew.firstHalfedge = none ∧
      vNew.removed = false ∧
      m1.vertices.map (fun v => (v.position, v.firstHalfedge, v.removed))
        = m.vertices.map (fun v => (v.position, v.firstHalfedge, v.removed))
          ++ [(Vector3.zero, none, false)] := by
  unfold newVertex
  cases hl : m.m_lastVertex with
  | none =>
    simp
  | some last =>
    have hlt : last < m.vertices.length := hlast last hl
    have hne : last ≠ m.vertices.length := Nat.ne_of_lt hlt
    simp [Mesh.updateVertex, hlt, List.getElem?_append_left, List.getElem?_set, hne,
      List.set_append_left, hne.symm]
    exact set_map_self (fun v => (v.position, v.firstHalfedge, v.removed)) m.vertices last hlt

theorem updateHalfedge_modify {m : Mesh K} {i : Nat} (f : Halfedge → Halfedge)
    (h : i < m.halfedges.length) :
    m.updateHalfedge (some i) f = Except.ok { m with halfedges := m.halfedges.modify f i } := by
  have h2 : m.halfedges[i]? = some m.halfedges[i] := List.getElem?_eq_getElem h
  rw [updateHalfedge_of_get f h2]
  congr 2
  apply List.ext_getElem?
  intro j
  rw [List.getElem?_set, List.getElem?_modify]
  by_cases hij : i = j
  · subst hij; simp [h]
  · simp [hij]

theorem updateFace_modify {m : Mesh K} {i : Nat} (f : Face → Face)
    (h : i < m.faces.length) :
    m.updateFace (some i) f = Except.ok { m with faces := m.faces.modify f i } := by
  have h2 : m.faces[i]? = some m.faces[i] := List.getElem?_eq_getElem h
  rw [updateFace_of_get f h2]
  congr 2
  apply List.ext_getElem?
  intro j
  rw [List.getElem?_set, List.getElem?_modify]
  by_cases hij : i = j
  · subst hij; simp [h]
  · simp [hij]

theorem updateVertex_modify {m : Mesh K} {i : Nat} (f : Vertex K → Vertex K)
    (h : i < m.vertices.length) :
    m.updateVertex (some i) f = Except.ok { m with vertices := m.vertices.modify f i } := by
  have h2 : m.vertices[i]? = some m.vertices[i] := List.getElem?_eq_getElem h
  rw [updateVertex_of_get f h2]
  congr 2
  apply List.ext_getElem?
  intro j
  rw [List.getElem?_set, List.getElem?_modify]
  by_cases hij : i = j
  · subst hij; simp [h]
  · simp [hij]

theorem linkFaceHalfedges_three (m : Mesh K) (x y z : Nat)
    (hx : x < m.halfedges.length) (hy : y < m.halfedges.length) (hz : z < m.halfedges.length) :
    linkFaceHalfedges m [some x, some y, some z] = Except.ok
      { m with halfedges :=
          ((((((m.halfedges.modify (fun h => { h with nextHalfedge := some y }) x).modify
            (fun h => { h with previousHalfedge := some x }) y).modify
            (fun h => { h with nextHalfedge := some z }) y).modify
            (fun h => { h with previousHalfedge := some y }) z).modify
            (fun h => { h with nextHalfedge := some x }) z).modify
            (fun h => { h with previousHalfedge := some z }) x) } := by
  simp only [linkFaceHalfedges, linkFaceHalfedgesLoop, List.length_cons, List.length_nil,
    List.getElem?_cons_zero, List.getElem?_cons_succ, pure_eq_ok, ok_bind, Nat.reduceAdd,
    Nat.reduceMod, Nat.zero_add]
  rw [updateHalfedge_modify _ hx]
  simp only [ok_bind]
  rw [updateHalfedge_modify _ (by simpa using hy)]
  simp only [ok_bind]
  rw [updateHalfedge_modify _ (by simpa using hy)]
  simp only [ok_bind]
  rw [updateHalfedge_modify _ (by simpa using hz)]
  simp only [ok_bind]
  rw [updateHalfedge_modify _ (by simpa using hz)]
  simp only [ok_bind]
  rw [updateHalfedge_modify _ (by simpa using hx)]
  simp only [ok_bind]

theorem updateFaceHalfedgesLeftFace_three (m : Mesh K) (x y z : Nat) (f : Option Nat)
    (hx : x < m.halfedges.length) (hy : y < m.halfedges.length) (hz : z < m.halfedges.length) :
    updateFaceHalfedgesLeftFace m [some x, some y, some z] f = Except.ok
      { m with halfedges :=
          (((m.halfedges.modify (fun h => { h with leftFace := f }) x).modify
            (fun h => { h with leftFace := f }) y).modify
            (fun h => { h with leftFace := f }) z) } := by
  simp only [updateFaceHalfedgesLeftFace]
  rw [updateHalfedge_modify _ hx]
  simp only [ok_bind]
  rw [updateHalfedge_modify _ (by simpa using hy)]
  simp only [ok_bind]
  rw [updateHalfedge_modify _ (by simpa using hz)]
  simp only [ok_bind, pure_eq_ok]

theorem linkHalfedgePair_some (m : Mesh K) (x y : Nat)
    (hx : x < m.halfedges.length) (hy : y < m.halfedges.length) :
    linkHalfedgePair m (some x) (some y) = Except.ok
      { m with halfedges :=
          ((m.halfedges.modify (fun h => { h with oppositeHalfedge := some y }) x).modify
            (fun h => { h with oppositeHalfedge := some x }) y) } := by
  simp only [linkHalfedgePair, ne_eq, not_false_eq_true, if_true, reduceCtorEq]
  rw [updateHalfedge_modify _ hx]
  simp only [ok_bind]
  rw [updateHalfedge_modify _ (by simpa using hy)]

theorem map_modify_of_eq {α β : Type} (g : α → β) (f : α → α) (hg : ∀ a, g (f a) = g a)
    (l : List α) (i : Nat) : (l.modify f i).map g = l.map g := by
  apply List.ext_getElem?
  intro j
  simp only [List.getElem?_map, List.getElem?_modify]
  cases l[j]? with
  | none => rfl
  | some a =>
    simp only [Option.map_eq_map, Option.map_some', Option.some.injEq]
    split_ifs
    · exact hg a
    · rfl

theorem map_modify_set {α β : Type} (g : α → β) (f : α → α) (b : β) (hg : ∀ a, g (f a) = b)
    (l : List α) (i : Nat) : (l.modify f i).map g = (l.map g).set i b := by
  apply List.ext_getElem?
  intro j
  simp only [List.getElem?_map, List.getElem?_modify, List.getElem?_set, List.length_map]
  by_cases hij : i = j
  · subst hij
    cases hx : l[i]? with
    | none =>
      have : ¬ i < l.length := fun hlt => by
        rw [List.getElem?_eq_getElem hlt] at hx; cases hx
      simp [this]
    | some a =>
      have := getElem?_lt hx
      simp [this, hg]
  · cases l[j]? <;> simp [hij]

theorem breakFace_run (m : Mesh K) (L H M p nx : Nat) (e ep en : Halfedge)
    (hlast : ∀ f ∈ m.m_lastFace, f < m.faces.length)
    (hH : m.halfedges[H]? = some e) (hp : m.halfedges[p]? = some ep)
    (hnx : m.halfedges[nx]? = some en)
    (hep : e.previousHalfedge = some p) (hen : e.nextHalfedge = some nx)
    (hpn : p ≠ nx) (hpH : p ≠ H) (hHn : H ≠ nx)
    (hLl : L < m.faces.length) (hMl : M < m.vertices.length) :
    ∃ m', breakFace m (some L) (some H) (some M) [] []
        = Except.ok (m', [some m.halfedges.length, some (m.halfedges.length + 1), some nx],
            [some p, some H, some (m.halfedges.length + 2)]) ∧
      BreakFacePost m m' L H M p nx := by
  obtain ⟨m1, fNew, hnew, hhe, hve, hlv, hlf, hfl, hfN, hfNh, hfNr, hfm⟩ := newFace_spec m hlast
  have hHl := getElem?_lt hH
  have hpl := getElem?_lt hp
  have hnl := getElem?_lt hnx
  refine ⟨?w, ?run, ?table⟩
  case run =>
    unfold breakFace
    rw [halfedgeAt_of_get hH]
    simp only [ok_bind]
    rw [hnew]
    simp only [ok_bind, vectorAt, List.getElem?_cons_zero, List.getElem?_cons_succ, pure_eq_ok,
      hen, hep]
    rw [updateFace_modify _ (by omega)]
    simp only [ok_bind]
    rw [updateHalfedge_modify _ (by simpa [hhe] using hnl)]
    simp only [ok_bind, newHalfedge, List.nil_append, List.cons_append, List.length_append,
      List.length_modify, List.length_cons, List.length_nil, hhe]
    rw [linkFaceHalfedges_three _ _ _ _ (by simp only [List.length_append, List.length_modify, List.length_cons, List.length_nil]; omega) (by simp only [List.length_append, List.length_modify, List.length_cons, List.length_nil]; omega) (by simp only [List.length_append, List.length_modify, List.length_cons, List.length_nil]; omega)]
    simp only [ok_bind, List.getElem?_cons_zero, List.getElem?_cons_succ, List.length_append,
      List.length_modify, List.length_cons, List.length_nil, Nat.zero_add]
    rw [updateFaceHalfedgesLeftFace_three _ _ _ _ _ (by simp only [List.length_append, List.length_modify, List.length_cons, List.length_nil]; omega) (by simp only [List.length_append, List.length_modify, List.length_cons, List.length_nil]; omega) (by simp only [List.length_append, List.length_modify, List.length_cons, List.length_nil]; omega)]
    simp only [ok_bind, List.getElem?_cons_zero, List.getElem?_cons_succ, List.length_append,
      List.length_modify, List.length_cons, List.length_nil, Nat.zero_add]
    rw [halfedgeAt_of_get (e := ep) (by
      simp (disch := first | omega | (simp only [List.length_modify, List.length_append,
        List.length_cons, List.length_nil]; omega)) only [List.getElem?_modify_ne,
        List.getElem?_append_left, hp])]
    simp only [ok_bind, List.getElem?_cons_zero, List.getElem?_cons_succ, List.length_append,
      List.length_modify, List.length_cons, List.length_nil, Nat.zero_add]
    rw [updateHalfedge_modify _ (by simp only [List.length_append, List.length_modify, List.length_cons, List.length_nil]; omega)]
    simp only [ok_bind, List.getElem?_cons_zero, List.getElem?_cons_succ, List.length_append,
      List.length_modify, List.length_cons, List.length_nil, Nat.zero_add]
    rw [updateHalfedge_modify _ (by simp only [List.length_append, List.length_modify, List.length_cons, List.length_nil]; omega)]
    simp only [ok_bind, List.getElem?_cons_zero, List.getElem?_cons_succ, List.length_append,
      List.length_modify, List.length_cons, List.length_nil, Nat.zero_add]
    rw [linkFaceHalfedges_three _ _ _ _ (by simp only [List.length_append, List.length_modify, List.length_cons, List.length_nil]; omega) (by simp only [List.length_append, List.length_modify, List.length_cons, List.length_nil]; omega) (by simp only [List.length_append, List.length_modify, List.length_cons, List.length_nil]; omega)]
    simp only [ok_bind, List.getElem?_cons_zero, List.getElem?_cons_succ, List.length_append,
      List.length_modify, List.length_cons, List.length_nil, Nat.zero_add]
    rw [updateFaceHalfedgesLeftFace_three _ _ _ _ _ (by simp only [List.length_append, List.length_modify, List.length_cons, List.length_nil]; omega) (by simp only [List.length_append, List.length_modify, List.length_cons, List.length_nil]; omega) (by simp only [List.length_append, List.length_modify, List.length_cons, List.length_nil]; omega)]
    simp only [ok_bind, List.getElem?_cons_zero, List.getElem?_cons_succ, List.length_append,
      List.length_modify, List.length_cons, List.length_nil, Nat.zero_add]
    rw [updateHalfedge_modify _ (by simp only [List.length_append, List.length_modify, List.length_cons, List.length_nil]; omega)]
    simp only [ok_bind, List.getElem?_cons_zero, List.getElem?_cons_succ, List.length_append,
      List.length_modify, List.length_cons, List.length_nil, Nat.zero_add]
    rw [updateVertex_modify _ (by simpa [hve] using hMl)]
    simp only [ok_bind, List.getElem?_cons_zero, List.getElem?_cons_succ, List.length_append,
      List.length_modify, List.length_cons, List.length_nil, Nat.zero_add]
    rw [linkHalfedgePair_some _ _ _ (by simp only [List.length_append, List.length_modify, List.length_cons, List.length_nil]; omega) (by simp only [List.length_append, List.length_modify, List.length_cons, List.length_nil]; omega)]
    simp only [ok_bind, List.getElem?_cons_zero, List.getElem?_cons_succ, List.length_append,
      List.length_modify, List.length_cons, List.length_nil, Nat.zero_add]
    rw [updateFace_modify _ (by simp only [List.length_modify]; omega)]
    simp only [ok_bind, List.getElem?_cons_zero, List.getElem?_cons_succ, List.length_append,
      List.length_modify, List.length_cons, List.length_nil, Nat.zero_add]
    exact rfl
  case table =>
    have hLF : L ≠ m.faces.length := Nat.ne_of_lt hLl
    have hfmh : m1.faces.map Face.halfedge = m.faces.map Face.halfedge ++ [none] := by
      have := congrArg (List.map Prod.fst) hfm
      simpa [List.map_map, Function.comp_def] using this
    have hfmr : m1.faces.map Face.removed = m.faces.map Face.removed ++ [false] := by
      have := congrArg (List.map Prod.snd) hfm
      simpa [List.map_map, Function.comp_def] using this
    refine
      { length_eq := ?length_eq, frame := ?frame, reps := ?reps, removed_eq := ?removed_eq,
        vertices_eq := ?vertices_eq,
        lastVertex := hlv, lastFace := hlf,
        next_p := ?next_p,
        prev_p := ?prev_p,
        left_p := ?left_p,
        start_p := ?start_p,
        opp_p := ?opp_p,
        next_H := ?next_H,
        prev_H := ?prev_H,
        left_H := ?left_H,
        start_H := ?start_H,
        opp_H := ?opp_H,
        next_c := ?next_c,
        prev_c := ?prev_c,
        left_c := ?left_c,
        start_c := ?start_c,
        opp_c := ?opp_c,
        next_a := ?next_a,
        prev_a := ?prev_a,
        left_a := ?left_a,
        start_a := ?start_a,
        opp_a := ?opp_a,
        next_b := ?next_b,
        prev_b := ?prev_b,
        left_b := ?left_b,
        start_b := ?start_b,
        opp_b := ?opp_b,
        next_nx := ?next_nx,
        prev_nx := ?prev_nx,
        left_nx := ?left_nx,
        start_nx := ?start_nx,
        opp_nx := ?opp_nx }
    case length_eq =>
      simp only [List.length_modify, List.length_append, List.length_cons, List.length_nil]
    case frame =>
      intro j h1 h2 h3 h4
      simp (disch := first | omega | (simp only [List.length_modify, List.length_append,
        List.length_cons, List.length_nil]; omega)) only [List.getElem?_modify_ne,
        List.getElem?_append_left]
    case reps =>
      dsimp only
      rw [map_modify_set Face.halfedge _ (some p) (fun _ => rfl),
        map_modify_set Face.halfedge _ (some nx) (fun _ => rfl), hfmh]
      rw [List.set_comm _ _ _ hLF.symm]
      rw [List.set_append_left _ _ (by simpa using hLl)]
      rw [List.set_append_right _ _ (by simp)]
      simp
    case removed_eq =>
      dsimp only
      rw [map_modify_of_eq Face.removed, map_modify_of_eq Face.removed, hfmr]
      · intro a; rfl
      · intro a; rfl
    case vertices_eq =>
      simp only [hve]
    case next_p =>
      simp (disch := first | omega | (simp only [List.length_modify, List.length_append,
        List.length_cons, List.length_nil]; omega)) only [Mesh.next, Mesh.prev, Mesh.left,
        Mesh.start, Mesh.opp, List.getElem?_modify_ne, List.getElem?_modify_eq,
        List.getElem?_append_left, List.getElem?_append_right, hH, hp, hnx, hhe,
        List.length_modify, List.length_append, List.length_cons, List.length_nil,
        Nat.sub_self, Nat.add_sub_cancel_left, List.getElem?_cons_zero,
        Option.map_eq_map, Option.map_some', Option.some_bind, Option.none_bind]
    case prev_p =>
      simp (disch := first | omega | (simp only [List.length_modify, List.length_append,
        List.length_cons, List.length_nil]; omega)) only [Mesh.next, Mesh.prev, Mesh.left,
        Mesh.start, Mesh.opp, List.getElem?_modify_ne, List.getElem?_modify_eq,
        List.getElem?_append_left, List.getElem?_append_right, hH, hp, hnx, hhe,
        List.length_modify, List.length_append, List.length_cons, List.length_nil,
        Nat.sub_self, Nat.add_sub_cancel_left, List.getElem?_cons_zero,
        Option.map_eq_map, Option.map_some', Option.some_bind, Option.none_bind]
    case left_p =>
      simp (disch := first | omega | (simp only [List.length_modify, List.length_append,
        List.length_cons, List.length_nil]; omega)) only [Mesh.next, Mesh.prev, Mesh.left,
        Mesh.start, Mesh.opp, List.getElem?_modify_ne, List.getElem?_modify_eq,
        List.getElem?_append_left, List.getElem?_append_right, hH, hp, hnx, hhe,
        List.length_modify, List.length_append, List.length_cons, List.length_nil,
        Nat.sub_self, Nat.add_sub_cancel_left, List.getElem?_cons_zero,
        Option.map_eq_map, Option.map_some', Option.some_bind, Option.none_bind]
    case start_p =>
      simp (disch := first | omega | (simp only [List.length_modify, List.length_append,
        List.length_cons, List.length_nil]; omega)) only [Mesh.next, Mesh.prev, Mesh.left,
        Mesh.start, Mesh.opp, List.getElem?_modify_ne, List.getElem?_modify_eq,
        List.getElem?_append_left, List.getElem?_append_right, hH, hp, hnx, hhe,
        List.length_modify, List.length_append, List.length_cons, List.length_nil,
        Nat.sub_self, Nat.add_sub_cancel_left, List.getElem?_cons_zero,
        Option.map_eq_map, Option.map_some', Option.some_bind, Option.none_bind]
    case opp_p =>
      simp (disch := first | omega | (simp only [List.length_modify, List.length_append,
        List.length_cons, List.length_nil]; omega)) only [Mesh.next, Mesh.prev, Mesh.left,
        Mesh.start, Mesh.opp, List.getElem?_modify_ne, List.getElem?_modify_eq,
        List.getElem?_append_left, List.getElem?_append_right, hH, hp, hnx, hhe,
        List.length_modify, List.length_append, List.length_cons, List.length_nil,
        Nat.sub_self, Nat.add_sub_cancel_left, List.getElem?_cons_zero,
        Option.map_eq_map, Option.map_some', Option.some_bind, Option.none_bind]
    case next_H =>
      simp (disch := first | omega | (simp only [List.length_modify, List.length_append,
        List.length_cons, List.length_nil]; omega)) only [Mesh.next, Mesh.prev, Mesh.left,
        Mesh.start, Mesh.opp, List.getElem?_modify_ne, List.getElem?_modify_eq,
        List.getElem?_append_left, List.getElem?_append_right, hH, hp, hnx, hhe,
        List.length_modify, List.length_append, List.length_cons, List.length_nil,
        Nat.sub_self, Nat.add_sub_cancel_left, List.getElem?_cons_zero,
        Option.map_eq_map, Option.map_some', Option.some_bind, Option.none_bind]
    case prev_H =>
      simp (disch := first | omega | (simp only [List.length_modify, List.length_append,
        List.length_cons, List.length_nil]; omega)) only [Mesh.next, Mesh.prev, Mesh.left,
        Mesh.start, Mesh.opp, List.getElem?_modify_ne, List.getElem?_modify_eq,
        List.getElem?_append_left, List.getElem?_append_right, hH, hp, hnx, hhe,
        List.length_modify, List.length_append, List.length_cons, List.length_nil,
        Nat.sub_self, Nat.add_sub_cancel_left, List.getElem?_cons_zero,
        Option.map_eq_map, Option.map_some', Option.some_bind, Option.none_bind]
    case left_H =>
      simp (disch := first | omega | (simp only [List.length_modify, List.length_append,
        List.length_cons, List.length_nil]; omega)) only [Mesh.next, Mesh.prev, Mesh.left,
        Mesh.start, Mesh.opp, List.getElem?_modify_ne, List.getElem?_modify_eq,
        List.getElem?_append_left, List.getElem?_append_right, hH, hp, hnx, hhe,
        List.length_modify, List.length_append, List.length_cons, List.length_nil,
        Nat.sub_self, Nat.add_sub_cancel_left, List.getElem?_cons_zero,
        Option.map_eq_map, Option.map_some', Option.some_bind, Option.none_bind]
    case start_H =>
      simp (disch := first | omega | (simp only [List.length_modify, List.length_append,
        List.length_cons, List.length_nil]; omega)) only [Mesh.next, Mesh.prev, Mesh.left,
        Mesh.start, Mesh.opp, List.getElem?_modify_ne, List.getElem?_modify_eq,
        List.getElem?_append_left, List.getElem?_append_right, hH, hp, hnx, hhe,
        List.length_modify, List.length_append, List.length_cons, List.length_nil,
        Nat.sub_self, Nat.add_sub_cancel_left, List.getElem?_cons_zero,
        Option.map_eq_map, Option.map_some', Option.some_bind, Option.none_bind]
    case opp_H =>
      simp (disch := first | omega | (simp only [List.length_modify, List.length_append,
        List.length_cons, List.length_nil]; omega)) only [Mesh.next, Mesh.prev, Mesh.left,
        Mesh.start, Mesh.opp, List.getElem?_modify_ne, List.getElem?_modify_eq,
        List.getElem?_append_left, List.getElem?_append_right, hH, hp, hnx, hhe,
        List.length_modify, List.length_append, List.length_cons, List.length_nil,
        Nat.sub_self, Nat.add_sub_cancel_left, List.getElem?_cons_zero,
        Option.map_eq_map, Option.map_some', Option.some_bind, Option.none_bind]
    case next_c =>
      simp (disch := first | omega | (simp only [List.length_modify, List.length_append,
        List.length_cons, List.length_nil]; omega)) only [Mesh.next, Mesh.prev, Mesh.left,
        Mesh.start, Mesh.opp, List.getElem?_modify_ne, List.getElem?_modify_eq,
        List.getElem?_append_left, List.getElem?_append_right, hH, hp, hnx, hhe,
        List.length_modify, List.length_append, List.length_cons, List.length_nil,
        Nat.sub_self, Nat.add_sub_cancel_left, List.getElem?_cons_zero,
        Option.map_eq_map, Option.map_some', Option.some_bind, Option.none_bind]
    case prev_c =>
      simp (disch := first | omega | (simp only [List.length_modify, List.length_append,
        List.length_cons, List.length_nil]; omega)) only [Mesh.next, Mesh.prev, Mesh.left,
        Mesh.start, Mesh.opp, List.getElem?_modify_ne, List.getElem?_modify_eq,
        List.getElem?_append_left, List.getElem?_append_right, hH, hp, hnx, hhe,
        List.length_modify, List.length_append, List.length_cons, List.length_nil,
        Nat.sub_self, Nat.add_sub_cancel_left, List.getElem?_cons_zero,
        Option.map_eq_map, Option.map_some', Option.some_bind, Option.none_bind]
    case left_c =>
      simp (disch := first | omega | (simp only [List.length_modify, List.length_append,
        List.length_cons, List.length_nil]; omega)) only [Mesh.next, Mesh.prev, Mesh.left,
        Mesh.start, Mesh.opp, List.getElem?_modify_ne, List.getElem?_modify_eq,
        List.getElem?_append_left, List.getElem?_append_right, hH, hp, hnx, hhe,
        List.length_modify, List.length_append, List.length_cons, List.length_nil,
        Nat.sub_self, Nat.add_sub_cancel_left, List.getElem?_cons_zero,
        Option.map_eq_map, Option.map_some', Option.some_bind, Option.none_bind]
    case start_c =>
      simp (disch := first | omega | (simp only [List.length_modify, List.length_append,
        List.length_cons, List.length_nil]; omega)) only [Mesh.next, Mesh.prev, Mesh.left,
        Mesh.start, Mesh.opp, List.getElem?_modify_ne, List.getElem?_modify_eq,
        List.getElem?_append_left, List.getElem?_append_right, hH, hp, hnx, hhe,
        List.length_modify, List.length_append, List.length_cons, List.length_nil,
        Nat.sub_self, Nat.add_sub_cancel_left, List.getElem?_cons_zero,
        Option.map_eq_map, Option.map_some', Option.some_bind, Option.none_bind]
    case opp_c =>
      simp (disch := first | omega | (simp only [List.length_modify, List.length_append,
        List.length_cons, List.length_nil]; omega)) only [Mesh.next, Mesh.prev, Mesh.left,
        Mesh.start, Mesh.opp, List.getElem?_modify_ne, List.getElem?_modify_eq,
        List.getElem?_append_left, List.getElem?_append_right, hH, hp, hnx, hhe,
        List.length_modify, List.length_append, List.length_cons, List.length_nil,
        Nat.sub_self, Nat.add_sub_cancel_left, List.getElem?_cons_zero,
        Option.map_eq_map, Option.map_some', Option.some_bind, Option.none_bind]
    case next_a =>
      simp (disch := first | omega | (simp only [List.length_modify, List.length_append,
        List.length_cons, List.length_nil]; omega)) only [Mesh.next, Mesh.prev, Mesh.left,
        Mesh.start, Mesh.opp, List.getElem?_modify_ne, List.getElem?_modify_eq,
        List.getElem?_append_left, List.getElem?_append_right, hH, hp, hnx, hhe,
        List.length_modify, List.length_append, List.length_cons, List.length_nil,
        Nat.sub_self, Nat.add_sub_cancel_left, List.getElem?_cons_zero,
        Option.map_eq_map, Option.map_some', Option.some_bind, Option.none_bind]
    case prev_a =>
      simp (disch := first | omega | (simp only [List.length_modify, List.length_append,
        List.length_cons, List.length_nil]; omega)) only [Mesh.next, Mesh.prev, Mesh.left,
        Mesh.start, Mesh.opp, List.getElem?_modify_ne, List.getElem?_modify_eq,
        List.getElem?_append_left, List.getElem?_append_right, hH, hp, hnx, hhe,
        List.length_modify, List.length_append, List.length_cons, List.length_nil,
        Nat.sub_self, Nat.add_sub_cancel_left, List.getElem?_cons_zero,
        Option.map_eq_map, Option.map_some', Option.some_bind, Option.none_bind]
    case left_a =>
      simp (disch := first | omega | (simp only [List.length_modify, List.length_append,
        List.length_cons, List.length_nil]; omega)) only [Mesh.next, Mesh.prev, Mesh.left,
        Mesh.start, Mesh.opp, List.getElem?_modify_ne, List.getElem?_modify_eq,
        List.getElem?_append_left, List.getElem?_append_right, hH, hp, hnx, hhe,
        List.length_modify, List.length_append, List.length_cons, List.length_nil,
        Nat.sub_self, Nat.add_sub_cancel_left, List.getElem?_cons_zero,
        Option.map_eq_map, Option.map_some', Option.some_bind, Option.none_bind]
    case start_a =>
      simp (disch := first | omega | (simp only [List.length_modify, List.length_append,
        List.length_cons, List.length_nil]; omega)) only [Mesh.next, Mesh.prev, Mesh.left,
        Mesh.start, Mesh.opp, List.getElem?_modify_ne, List.getElem?_modify_eq,
        List.getElem?_append_left, List.getElem?_append_right, hH, hp, hnx, hhe,
        List.length_modify, List.length_append, List.length_cons, List.length_nil,
        Nat.sub_self, Nat.add_sub_cancel_left, List.getElem?_cons_zero,
        Option.map_eq_map, Option.map_some', Option.some_bind, Option.none_bind]
    case opp_a =>
      simp (disch := first | omega | (simp only [List.length_modify, List.length_append,
        List.length_cons, List.length_nil]; omega)) only [Mesh.next, Mesh.prev, Mesh.left,
        Mesh.start, Mesh.opp, List.getElem?_modify_ne, List.getElem?_modify_eq,
        List.getElem?_append_left, List.getElem?_append_right, hH, hp, hnx, hhe,
        List.length_modify, List.length_append, List.length_cons, List.length_nil,
        Nat.sub_self, Nat.add_sub_cancel_left, List.getElem?_cons_zero,
        Option.map_eq_map, Option.map_some', Option.some_bind, Option.none_bind]
    case next_b =>
      simp (disch := first | omega | (simp only [List.length_modify, List.length_append,
        List.length_cons, List.length_nil]; omega)) only [Mesh.next, Mesh.prev, Mesh.left,
        Mesh.start, Mesh.opp, List.getElem?_modify_ne, List.getElem?_modify_eq,
        List.getElem?_append_left, List.getElem?_append_right, hH, hp, hnx, hhe,
        List.length_modify, List.length_append, List.length_cons, List.length_nil,
        Nat.sub_self, Nat.add_sub_cancel_left, List.getElem?_cons_zero,
        Option.map_eq_map, Option.map_some', Option.some_bind, Option.none_bind]
    case prev_b =>
      simp (disch := first | omega | (simp only [List.length_modify, List.length_append,
        List.length_cons, List.length_nil]; omega)) only [Mesh.next, Mesh.prev, Mesh.left,
        Mesh.start, Mesh.opp, List.getElem?_modify_ne, List.getElem?_modify_eq,
        List.getElem?_append_left, List.getElem?_append_right, hH, hp, hnx, hhe,
        List.length_modify, List.length_append, List.length_cons, List.length_nil,
        Nat.sub_self, Nat.add_sub_cancel_left, List.getElem?_cons_zero,
        Option.map_eq_map, Option.map_some', Option.some_bind, Option.none_bind]
    case left_b =>
      simp (disch := first | omega | (simp only [List.length_modify, List.length_append,
        List.length_cons, List.length_nil]; omega)) only [Mesh.next, Mesh.prev, Mesh.left,
        Mesh.start, Mesh.opp, List.getElem?_modify_ne, List.getElem?_modify_eq,
        List.getElem?_append_left, List.getElem?_append_right, hH, hp, hnx, hhe,
        List.length_modify, List.length_append, List.length_cons, List.length_nil,
        Nat.sub_self, Nat.add_sub_cancel_left, List.getElem?_cons_zero,
        Option.map_eq_map, Option.map_some', Option.some_bind, Option.none_bind]
    case start_b =>
      simp (disch := first | omega | (simp only [List.length_modify, List.length_append,
        List.length_cons, List.length_nil]; omega)) only [Mesh.next, Mesh.prev, Mesh.left,
        Mesh.start, Mesh.opp, List.getElem?_modify_ne, List.getElem?_modify_eq,
        List.getElem?_append_left, List.getElem?_append_right, hH, hp, hnx, hhe,
        List.length_modify, List.length_append, List.length_cons, List.length_nil,
        Nat.sub_self, Nat.add_sub_cancel_left, List.getElem?_cons_zero,
        Option.map_eq_map, Option.map_some', Option.some_bind, Option.none_bind]
    case opp_b =>
      simp (disch := first | omega | (simp only [List.length_modify, List.length_append,
        List.length_cons, List.length_nil]; omega)) only [Mesh.next, Mesh.prev, Mesh.left,
        Mesh.start, Mesh.opp, List.getElem?_modify_ne, List.getElem?_modify_eq,
        List.getElem?_append_left, List.getElem?_append_right, hH, hp, hnx, hhe,
        List.length_modify, List.length_append, List.length_cons, List.length_nil,
        Nat.sub_self, Nat.add_sub_cancel_left, List.getElem?_cons_zero,
        Option.map_eq_map, Option.map_some', Option.some_bind, Option.none_bind]
    case next_nx =>
      simp (disch := first | omega | (simp only [List.length_modify, List.length_append,
        List.length_cons, List.length_nil]; omega)) only [Mesh.next, Mesh.prev, Mesh.left,
        Mesh.start, Mesh.opp, List.getElem?_modify_ne, List.getElem?_modify_eq,
        List.getElem?_append_left, List.getElem?_append_right, hH, hp, hnx, hhe,
        List.length_modify, List.length_append, List.length_cons, List.length_nil,
        Nat.sub_self, Nat.add_sub_cancel_left, List.getElem?_cons_zero,
        Option.map_eq_map, Option.map_some', Option.some_bind, Option.none_bind]
    case prev_nx =>
      simp (disch := first | omega | (simp only [List.length_modify, List.length_append,
        List.length_cons, List.length_nil]; omega)) only [Mesh.next, Mesh.prev, Mesh.left,
        Mesh.start, Mesh.opp, List.getElem?_modify_ne, List.getElem?_modify_eq,
        List.getElem?_append_left, List.getElem?_append_right, hH, hp, hnx, hhe,
        List.length_modify, List.length_append, List.length_cons, List.length_nil,
        Nat.sub_self, Nat.add_sub_cancel_left, List.getElem?_cons_zero,
        Option.map_eq_map, Option.map_some', Option.some_bind, Option.none_bind]
    case left_nx =>
      simp (disch := first | omega | (simp only [List.length_modify, List.length_append,
        List.length_cons, List.length_nil]; omega)) only [Mesh.next, Mesh.prev, Mesh.left,
        Mesh.start, Mesh.opp, List.getElem?_modify_ne, List.getElem?_modify_eq,
        List.getElem?_append_left, List.getElem?_append_right, hH, hp, hnx, hhe,
        List.length_modify, List.length_append, List.length_cons, List.length_nil,
        Nat.sub_self, Nat.add_sub_cancel_left, List.getElem?_cons_zero,
        Option.map_eq_map, Option.map_some', Option.some_bind, Option.none_bind]
    case start_nx =>
      simp (disch := first | omega | (simp only [List.length_modify, List.length_append,
        List.length_cons, List.length_nil]; omega)) only [Mesh.next, Mesh.prev, Mesh.left,
        Mesh.start, Mesh.opp, List.getElem?_modify_ne, List.getElem?_modify_eq,
        List.getElem?_append_left, List.getElem?_append_right, hH, hp, hnx, hhe,
        List.length_modify, List.length_append, List.length_cons, List.length_nil,
        Nat.sub_self, Nat.add_sub_cancel_left, List.getElem?_cons_zero,
        Option.map_eq_map, Option.map_some', Option.some_bind, Option.none_bind]
    case opp_nx =>
      simp (disch := first | omega | (simp only [List.length_modify, List.length_append,
        List.length_cons, List.length_nil]; omega)) only [Mesh.next, Mesh.prev, Mesh.left,
        Mesh.start, Mesh.opp, List.getElem?_modify_ne, List.getElem?_modify_eq,
        List.getElem?_append_left, List.getElem?_append_right, hH, hp, hnx, hhe,
        List.length_modify, List.length_append, List.length_cons, List.length_nil,
        Nat.sub_self, Nat.add_sub_cancel_left, List.getElem?_cons_zero,
        Option.map_eq_map, Option.map_some', Option.some_bind, Option.none_bind]

end BreakFace

section BreakEdge
variable {K : Type}

theorem vertexAt_of_get {m : Mesh K} {i : Nat} {v : Vertex K}
    (h : m.vertices[i]? = some v) : m.vertexAt (some i) = Except.ok v := by
  simp [Mesh.vertexAt, h]

/-- The mesh handed to the first `breakFace` by `breakEdge`: one more vertex, placed
at the midpoint, nothing else touched. -/
theorem breakEdge_run_boundary [Field K] (m : Mesh K) (H L p nx vA vB : Nat)
    (e ep en : Halfedge) (rA rB : Vertex K)
    (hlastV : ∀ v ∈ m.m_lastVertex, v < m.vertices.length)
    (hlastF : ∀ f ∈ m.m_lastFace, f < m.faces.length)
    (hH : m.halfedges[H]? = some e) (hp : m.halfedges[p]? = some ep)
    (hnx : m.halfedges[nx]? = some en)
    (hep : e.previousHalfedge = some p) (hen : e.nextHalfedge = some nx)
    (hel : e.leftFace = some L) (heo : e.oppositeHalfedge = none)
    (hes : e.startVertex = some vA) (hens : en.startVertex = some vB)
    (hA : m.vertices[vA]? = some rA) (hB : m.vertices[vB]? = some rB)
    (hpn : p ≠ nx) (hpH : p ≠ H) (hHn : H ≠ nx)
    (hLl : L < m.faces.length) :
    ∃ m2 m', breakEdge m (some H) = Except.ok m' ∧
      m2.halfedges = m.halfedges ∧ m2.faces = m.faces ∧
      m2.vertices.map Vertex.position = m.vertices.map Vertex.position
        ++ [(rA.position.add rB.position).scale (1 / 2)] ∧
      m2.vertices.map (fun v => (v.firstHalfedge, v.removed))
        = m.vertices.map (fun v => (v.firstHalfedge, v.removed)) ++ [(none, false)] ∧
      BreakFacePost m2 m' L H m.vertices.length p nx := by
  obtain ⟨m1, vNew, hnew, hhe, hfa, hlf, hlv, hvl, hvN, hvNf, hvNr, hvm⟩ :=
    newVertex_spec m hlastV
  have hAl := getElem?_lt hA
  have hBl := getElem?_lt hB
  have hvmp : m1.vertices.map Vertex.position
      = m.vertices.map Vertex.position ++ [Vector3.zero] := by
    have := congrArg (List.map Prod.fst) hvm
    simpa [List.map_map, Function.comp_def] using this
  have hvmf : m1.vertices.map (fun v => (v.firstHalfedge, v.removed))
      = m.vertices.map (fun v => (v.firstHalfedge, v.removed)) ++ [(none, false)] := by
    have := congrArg (List.map Prod.snd) hvm
    simpa [List.map_map, Function.comp_def] using this
  have look : ∀ (i : Nat) (r : Vertex K), m.vertices[i]? = some r →
      ∃ r1 : Vertex K, m1.vertices[i]? = some r1 ∧ r1.position = r.position := by
    intro i r hr
    have hil := getElem?_lt hr
    have h1 := congrArg (fun l => l[i]?) hvmp
    simp only [List.getElem?_map] at h1
    rw [List.getElem?_append_left (by simpa using hil), List.getElem?_map, hr] at h1
    cases hx : m1.vertices[i]? with
    | none => rw [hx] at h1; simp at h1
    | some r1 =>
      rw [hx] at h1
      simp only [Option.map_some', Option.some.injEq] at h1
      exact ⟨r1, rfl, h1⟩
  obtain ⟨rA1, hA1, hA1p⟩ := look vA rA hA
  obtain ⟨rB1, hB1, hB1p⟩ := look vB rB hB
  have hm2v : (m1.vertices.modify (fun v : Vertex K =>
      { v with position := (rA1.position.add rB1.position).scale (1 / 2) })
      m.vertices.length).map Vertex.position
      = m.vertices.map Vertex.position ++ [(rA.position.add rB.position).scale (1 / 2)] := by
    rw [map_modify_set Vertex.position _ ((rA1.position.add rB1.position).scale (1 / 2))
      (fun _ => rfl), hvmp, hA1p, hB1p]
    rw [List.set_append_right _ _ (by simp)]
    simp
  have hm2f : (m1.vertices.modify (fun v : Vertex K =>
      { v with position := (rA1.position.add rB1.position).scale (1 / 2) })
      m.vertices.length).map (fun v => (v.firstHalfedge, v.removed))
      = m.vertices.map (fun v => (v.firstHalfedge, v.removed)) ++ [(none, false)] := by
    rw [map_modify_of_eq (fun v : Vertex K => (v.firstHalfedge, v.removed)), hvmf]
    intro a; rfl
  obtain ⟨m2, hm2⟩ : ∃ m2 : Mesh K, m2 = { m1 with vertices := (m1.vertices.modify
      (fun v : Vertex K => { v with position := (rA1.position.add rB1.position).scale (1 / 2) })
      m.vertices.length) } := ⟨_, rfl⟩
  have h2he : m2.halfedges = m.halfedges := by rw [hm2]; exact hhe
  have h2fa : m2.faces = m.faces := by rw [hm2]; exact hfa
  have h2lf : m2.m_lastFace = m.m_lastFace := by rw [hm2]; exact hlf
  have h2vl : m2.vertices.length = m.vertices.length + 1 := by
    rw [hm2]; simp [hvl]
  have h2vp : m2.vertices.map Vertex.position = m.vertices.map Vertex.position
      ++ [(rA.position.add rB.position).scale (1 / 2)] := by rw [hm2]; exact hm2v
  have h2vf : m2.vertices.map (fun v => (v.firstHalfedge, v.removed))
      = m.vertices.map (fun v => (v.firstHalfedge, v.removed)) ++ [(none, false)] := by
    rw [hm2]; exact hm2f
  obtain ⟨m3, hrun3, post3⟩ := breakFace_run m2 L H m.vertices.length p nx e ep en
    (by rw [h2lf, h2fa]; exact hlastF) (by rw [h2he]; exact hH) (by rw [h2he]; exact hp)
    (by rw [h2he]; exact hnx) hep hen hpn hpH hHn (by rw [h2fa]; exact hLl)
    (by omega)
  rw [h2he] at hrun3
  refine ⟨m2, m3, ?_, h2he, h2fa, h2vp, h2vf, post3⟩
  · unfold breakEdge
    rw [halfedgeAt_of_get hH]
    simp only [ok_bind, heo, ne_eq, not_true_eq_false, if_false, pure_eq_ok]
    rw [hnew]
    simp only [ok_bind]
    rw [halfedgeAt_of_get (by rw [hhe]; exact hH)]
    simp only [ok_bind, hes, hen]
    rw [vertexAt_of_get hA1]
    simp only [ok_bind]
    rw [halfedgeAt_of_get (by rw [hhe]; exact hnx)]
    simp only [ok_bind, hens]
    rw [vertexAt_of_get hB1]
    simp only [ok_bind]
    rw [updateVertex_modify _ (by omega)]
    simp only [ok_bind, hel]
    rw [← hm2, hrun3]
    simp only [ok_bind]

/-- The run of `breakEdge` at a half-edge with an opposite: two runs of `breakFace`
and the two cross links. -/
theorem breakEdge_run_opposite [Field K] (m : Mesh K) (H L p nx vA vB : Nat)
    (O R pO nO : Nat) (e ep en eo epo eno : Halfedge) (rA rB : Vertex K)
    (hlastV : ∀ v ∈ m.m_lastVertex, v < m.vertices.length)
    (hlastF : ∀ f ∈ m.m_lastFace, f < m.faces.length)
    (hH : m.halfedges[H]? = some e) (hp : m.halfedges[p]? = some ep)
    (hnx : m.halfedges[nx]? = some en)
    (hep : e.previousHalfedge = some p) (hen : e.nextHalfedge = some nx)
    (hel : e.leftFace = some L) (heo : e.oppositeHalfedge = some O)
    (hO : m.halfedges[O]? = some eo) (hpO : m.halfedges[pO]? = some epo)
    (hnO : m.halfedges[nO]? = some eno)
    (heop : eo.previousHalfedge = some pO) (heon : eo.nextHalfedge = some nO)
    (heol : eo.leftFace = some R) (hRl : R < m.faces.length)
    (hd : [p, H, nx, pO, O, nO].Nodup)
    (hes : e.startVertex = some vA) (hens : en.startVertex = some vB)
    (hA : m.vertices[vA]? = some rA) (hB : m.vertices[vB]? = some rB)
    (hpn : p ≠ nx) (hpH : p ≠ H) (hHn : H ≠ nx)
    (hLl : L < m.faces.length) :
    ∃ m2 m3 m4 m', breakEdge m (some H) = Except.ok m' ∧
      m2.halfedges = m.halfedges ∧ m2.faces = m.faces ∧
      m2.vertices.map Vertex.position = m.vertices.map Vertex.position
        ++ [(rA.position.add rB.position).scale (1 / 2)] ∧
      m2.vertices.map (fun v => (v.firstHalfedge, v.removed))
        = m.vertices.map (fun v => (v.firstHalfedge, v.removed)) ++ [(none, false)] ∧
      BreakFacePost m2 m3 L H m.vertices.length p nx ∧
      BreakFacePost m3 m4 R O m.vertices.length pO nO ∧
      m'.vertices = m4.vertices ∧ m'.faces = m4.faces ∧
      m'.halfedges = (((m4.halfedges.modify
        (fun h => { h with oppositeHalfedge := some (m.halfedges.length + 4) }) H).modify
        (fun h => { h with oppositeHalfedge := some H }) (m.halfedges.length + 4)).modify
        (fun h => { h with oppositeHalfedge := some O }) (m.halfedges.length + 1)).modify
        (fun h => { h with oppositeHalfedge := some (m.halfedges.length + 1) }) O := by
  obtain ⟨m1, vNew, hnew, hhe, hfa, hlf, hlv, hvl, hvN, hvNf, hvNr, hvm⟩ :=
    newVertex_spec m hlastV
  have hAl := getElem?_lt hA
  have hBl := getElem?_lt hB
  have hvmp : m1.vertices.map Vertex.position
      = m.vertices.map Vertex.position ++ [Vector3.zero] := by
    have := congrArg (List.map Prod.fst) hvm
    simpa [List.map_map, Function.comp_def] using this
  have hvmf : m1.vertices.map (fun v => (v.firstHalfedge, v.removed))
      = m.vertices.map (fun v => (v.firstHalfedge, v.removed)) ++ [(none, false)] := by
    have := congrArg (List.map Prod.snd) hvm
    simpa [List.map_map, Function.comp_def] using this
  have look : ∀ (i : Nat) (r : Vertex K), m.vertices[i]? = some r →
      ∃ r1 : Vertex K, m1.vertices[i]? = some r1 ∧ r1.position = r.position := by
    intro i r hr
    have hil := getElem?_lt hr
    have h1 := congrArg (fun l => l[i]?) hvmp
    simp only [List.getElem?_map] at h1
    rw [List.getElem?_append_left (by simpa using hil), List.getElem?_map, hr] at h1
    cases hx : m1.vertices[i]? with
    | none => rw [hx] at h1; simp at h1
    | some r1 =>
      rw [hx] at h1
      simp only [Option.map_some', Option.some.injEq] at h1
      exact ⟨r1, rfl, h1⟩
  obtain ⟨rA1, hA1, hA1p⟩ := look vA rA hA
  obtain ⟨rB1, hB1, hB1p⟩ := look vB rB hB
  have hm2v : (m1.vertices.modify (fun v : Vertex K =>
      { v with position := (rA1.position.add rB1.position).scale (1 / 2) })
      m.vertices.length).map Vertex.position
      = m.vertices.map Vertex.position ++ [(rA.position.add rB.position).scale (1 / 2)] := by
    rw [map_modify_set Vertex.position _ ((rA1.position.add rB1.position).scale (1 / 2))
      (fun _ => rfl), hvmp, hA1p, hB1p]
    rw [List.set_append_right _ _ (by simp)]
    simp
  have hm2f : (m1.vertices.modify (fun v : Vertex K =>
      { v with position := (rA1.position.add rB1.position).scale (1 / 2) })
      m.vertices.length).map (fun v => (v.firstHalfedge, v.removed))
      = m.vertices.map (fun v => (v.firstHalfedge, v.removed)) ++ [(none, false)] := by
    rw [map_modify_of_eq (fun v : Vertex K => (v.firstHalfedge, v.removed)), hvmf]
    intro a; rfl
  obtain ⟨m2, hm2⟩ : ∃ m2 : Mesh K, m2 = { m1 with vertices := (m1.vertices.modify
      (fun v : Vertex K => { v with position := (rA1.position.add rB1.position).scale (1 / 2) })
      m.vertices.length) } := ⟨_, rfl⟩
  have h2he : m2.halfedges = m.halfedges := by rw [hm2]; exact hhe
  have h2fa : m2.faces = m.faces := by rw [hm2]; exact hfa
  have h2lf : m2.m_lastFace = m.m_lastFace := by rw [hm2]; exact hlf
  have h2vl : m2.vertices.length = m.vertices.length + 1 := by
    rw [hm2]; simp [hvl]
  have h2vp : m2.vertices.map Vertex.position = m.vertices.map Vertex.position
      ++ [(rA.position.add rB.position).scale (1 / 2)] := by rw [hm2]; exact hm2v
  have h2vf : m2.vertices.map (fun v => (v.firstHalfedge, v.removed))
      = m.vertices.map (fun v => (v.firstHalfedge, v.removed)) ++ [(none, false)] := by
    rw [hm2]; exact hm2f
  obtain ⟨m3, hrun3, post3⟩ := breakFace_run m2 L H m.vertices.length p nx e ep en
    (by rw [h2lf, h2fa]; exact hlastF) (by rw [h2he]; exact hH) (by rw [h2he]; exact hp)
    (by rw [h2he]; exact hnx) hep hen hpn hpH hHn (by rw [h2fa]; exact hLl)
    (by omega)
  rw [h2he] at hrun3
  simp only [List.nodup_cons, List.mem_cons, List.mem_singleton, not_or, List.not_mem_nil,
    not_false_eq_true, List.nodup_nil, and_true] at hd
  have hOl := getElem?_lt hO
  have hpOl := getElem?_lt hpO
  have hnOl := getElem?_lt hnO
  have hlen3 : m3.halfedges.length = m.halfedges.length + 3 := by
    rw [post3.length_eq, h2he]
  have hfl3 : m3.faces.length = m.faces.length + 1 := by
    have := congrArg List.length post3.removed_eq
    simpa [h2fa] using this
  have hvl3 : m3.vertices.length = m.vertices.length + 1 := by
    rw [post3.vertices_eq]
    simp [h2vl]
  obtain ⟨m4, hrun4, post4⟩ := breakFace_run m3 R O m.vertices.length pO nO eo epo eno
    (by rw [post3.lastFace, h2fa]; intro f hf; cases hf; omega)
    (by rw [post3.frame O (by omega) (by omega) (by omega) (by rw [h2he]; exact hOl), h2he]
        exact hO)
    (by rw [post3.frame pO (by omega) (by omega) (by omega) (by rw [h2he]; exact hpOl), h2he]
        exact hpO)
    (by rw [post3.frame nO (by omega) (by omega) (by omega) (by rw [h2he]; exact hnOl), h2he]
        exact hnO)
    heop heon (by omega) (by omega) (by omega) (by omega) (by omega)
  have hlen4 : m4.halfedges.length = m.halfedges.length + 6 := by
    rw [post4.length_eq, hlen3]
  have hHl := getElem?_lt hH
  rw [hlen3] at hrun4
  refine ⟨m2, m3, m4, ?w, ?run, h2he, h2fa, h2vp, h2vf, post3, post4, ?verts, ?fcs, ?hes⟩
  case run =>
    unfold breakEdge
    rw [halfedgeAt_of_get hH]
    simp only [ok_bind, heo, ne_eq, not_false_eq_true, if_true, pure_eq_ok, reduceCtorEq]
    rw [halfedgeAt_of_get hO]
    simp only [ok_bind]
    rw [hnew]
    simp only [ok_bind]
    rw [halfedgeAt_of_get (by rw [hhe]; exact hH)]
    simp only [ok_bind, hes, hen]
    rw [vertexAt_of_get hA1]
    simp only [ok_bind]
    rw [halfedgeAt_of_get (by rw [hhe]; exact hnx)]
    simp only [ok_bind, hens]
    rw [vertexAt_of_get hB1]
    simp only [ok_bind]
    rw [updateVertex_modify _ (by omega)]
    simp only [ok_bind, hel]
    rw [← hm2, hrun3]
    simp only [ok_bind, heol, ne_eq, not_false_eq_true, if_true, reduceCtorEq]
    rw [hrun4]
    simp only [ok_bind, vectorAt, List.getElem?_cons_zero, List.getElem?_cons_succ, pure_eq_ok]
    rw [linkHalfedgePair_some _ _ _ (by omega) (by omega)]
    simp only [ok_bind]
    rw [linkHalfedgePair_some _ _ _ (by simp only [List.length_modify]; omega)
      (by simp only [List.length_modify]; omega)]
    exact rfl
  case verts => rfl
  case fcs => rfl
  case hes => rfl

end BreakEdge

section Transfer
variable {K : Type} {m m' : Mesh K} {L H M p nx : Nat}

theorem BreakFacePost.start_old (post : BreakFacePost m m' L H M p nx) (j : Nat)
    (hj : j < m.halfedges.length) : m'.start j = m.start j := by
  by_cases h1 : j = p
  · rw [h1]; exact post.start_p
  by_cases h2 : j = H
  · rw [h2]; exact post.start_H
  by_cases h3 : j = nx
  · rw [h3]; exact post.start_nx
  simp only [Mesh.start, post.frame j h1 h2 h3 hj]

theorem BreakFacePost.opp_old (post : BreakFacePost m m' L H M p nx) (j : Nat)
    (hj : j < m.halfedges.length) : m'.opp j = m.opp j := by
  by_cases h1 : j = p
  · rw [h1]; exact post.opp_p
  by_cases h2 : j = H
  · rw [h2]; exact post.opp_H
  by_cases h3 : j = nx
  · rw [h3]; exact post.opp_nx
  simp only [Mesh.opp, post.frame j h1 h2 h3 hj]

theorem BreakFacePost.next_frame (post : BreakFacePost m m' L H M p nx) (j : Nat)
    (h1 : j ≠ p) (h2 : j ≠ H) (h3 : j ≠ nx) (hj : j < m.halfedges.length) :
    m'.next j = m.next j := by
  simp only [Mesh.next, post.frame j h1 h2 h3 hj]

theorem BreakFacePost.prev_frame (post : BreakFacePost m m' L H M p nx) (j : Nat)
    (h1 : j ≠ p) (h2 : j ≠ H) (h3 : j ≠ nx) (hj : j < m.halfedges.length) :
    m'.prev j = m.prev j := by
  simp only [Mesh.prev, post.frame j h1 h2 h3 hj]

theorem BreakFacePost.left_frame (post : BreakFacePost m m' L H M p nx) (j : Nat)
    (h1 : j ≠ p) (h2 : j ≠ H) (h3 : j ≠ nx) (hj : j < m.halfedges.length) :
    m'.left j = m.left j := by
  simp only [Mesh.left, post.frame j h1 h2 h3 hj]

theorem opp_eq_none_of_le {m : Mesh K} {j : Nat} (h : m.halfedges.length ≤ j) :
    m.opp j = none := by
  simp [Mesh.opp, List.getElem?_eq_none h]

theorem start_eq_none_of_le {m : Mesh K} {j : Nat} (h : m.halfedges.length ≤ j) :
    m.start j = none := by
  simp [Mesh.start, List.getElem?_eq_none h]

theorem lt_of_next {m : Mesh K} {h g : Nat} (hl : m.next h = some g) :
    h < m.halfedges.length := by
  unfold Mesh.next at hl
  cases hx : m.halfedges[h]? with
  | none => rw [hx] at hl; simp at hl
  | some e => exact getElem?_lt hx

theorem lt_of_start {m : Mesh K} {h g : Nat} (hl : m.start h = some g) :
    h < m.halfedges.length := by
  unfold Mesh.start at hl
  cases hx : m.halfedges[h]? with
  | none => rw [hx] at hl; simp at hl
  | some e => exact getElem?_lt hx

theorem lt_of_prev {m : Mesh K} {h g : Nat} (hl : m.prev h = some g) :
    h < m.halfedges.length := by
  unfold Mesh.prev at hl
  cases hx : m.halfedges[h]? with
  | none => rw [hx] at hl; simp at hl
  | some e => exact getElem?_lt hx

/-- Splitting a face moves the end of `H` only: every other old half-edge keeps
its end vertex. -/
theorem BreakFacePost.target_old (post : BreakFacePost m m' L H M p nx)
    (hcp : m.next p = some H) (hcn : m.next nx = some p)
    (hvalid : ∀ j k, m.next j = some k → k < m.halfedges.length)
    (j : Nat) (hj : j < m.halfedges.length) (hjH : j ≠ H) : m'.target j = m.target j := by
  unfold Mesh.target
  by_cases h1 : j = p
  · rw [h1, post.next_p, hcp]
    simp only [Option.some_bind]
    exact post.start_H
  by_cases h3 : j = nx
  · rw [h3, post.next_nx, hcn]
    simp only [Option.some_bind]
    exact post.start_a
  rw [post.next_frame j h1 hjH h3 hj]
  cases hk : m.next j with
  | none => rfl
  | some k =>
    simp only [Option.some_bind]
    exact post.start_old k (hvalid j k hk)

theorem BreakFacePost.target_H (post : BreakFacePost m m' L H M p nx) :
    m'.target H = some M := by
  unfold Mesh.target
  rw [post.next_H]
  exact post.start_c

theorem BreakFacePost.target_a (post : BreakFacePost m m' L H M p nx) :
    m'.target m.halfedges.length = some M := by
  unfold Mesh.target
  rw [post.next_a]
  exact post.start_b

theorem BreakFacePost.target_b (post : BreakFacePost m m' L H M p nx) :
    m'.target (m.halfedges.length + 1) = m.start nx := by
  unfold Mesh.target
  rw [post.next_b]
  exact post.start_nx

theorem BreakFacePost.target_c (post : BreakFacePost m m' L H M p nx) :
    m'.target (m.halfedges.length + 2) = m.start p := by
  unfold Mesh.target
  rw [post.next_c]
  exact post.start_p

/-- After a split every `next` pointer is allocated, provided it was before. -/
theorem BreakFacePost.next_valid (post : BreakFacePost m m' L H M p nx)
    (hp : p < m.halfedges.length) (hH : H < m.halfedges.length) (hnx : nx < m.halfedges.length)
    (hvalid : ∀ j k, m.next j = some k → k < m.halfedges.length) :
    ∀ j k, m'.next j = some k → k < m'.halfedges.length := by
  intro j k hjk
  rw [post.length_eq]
  have hjl := lt_of_next hjk
  rw [post.length_eq] at hjl
  by_cases h1 : j = p
  · rw [h1, post.next_p] at hjk; cases hjk; omega
  by_cases h2 : j = H
  · rw [h2, post.next_H] at hjk; cases hjk; omega
  by_cases h3 : j = nx
  · rw [h3, post.next_nx] at hjk; cases hjk; omega
  by_cases h4 : j = m.halfedges.length
  · rw [h4, post.next_a] at hjk; cases hjk; omega
  by_cases h5 : j = m.halfedges.length + 1
  · rw [h5, post.next_b] at hjk; cases hjk; omega
  by_cases h6 : j = m.halfedges.length + 2
  · rw [h6, post.next_c] at hjk; cases hjk; omega
  have hj : j < m.halfedges.length := by omega
  rw [post.next_frame j h1 h2 h3 hj] at hjk
  have := hvalid j k hjk
  omega

end Transfer

section WF
variable {K : Type} {m : Mesh K}

theorem next_of_getElem? {j : Nat} {e : Halfedge} (h : m.halfedges[j]? = some e) :
    m.next j = e.nextHalfedge := by simp [Mesh.next, h]

theorem prev_of_getElem? {j : Nat} {e : Halfedge} (h : m.halfedges[j]? = some e) :
    m.prev j = e.previousHalfedge := by simp [Mesh.prev, h]

theorem opp_of_getElem? {j : Nat} {e : Halfedge} (h : m.halfedges[j]? = some e) :
    m.opp j = e.oppositeHalfedge := by simp [Mesh.opp, h]

theorem start_of_getElem? {j : Nat} {e : Halfedge} (h : m.halfedges[j]? = some e) :
    m.start j = e.startVertex := by simp [Mesh.start, h]

theorem left_of_getElem? {j : Nat} {e : Halfedge} (h : m.halfedges[j]? = some e) :
    m.left j = e.leftFace := by simp [Mesh.left, h]

/-- In a well-formed mesh every `next` pointer is allocated. -/
theorem WellFormed.next_in_store (wf : WellFormed m) :
    ∀ j k, m.next j = some k → k < m.halfedges.length := by
  intro j k hjk
  obtain ⟨-, h2, -⟩ := wf.1 j (lt_of_next hjk)
  rw [hjk] at h2
  exact lt_of_prev h2

/-- The face loop through a half-edge of a well-formed mesh: predecessor, successor,
their records, and the fact that the three are distinct and closed under `next`. -/
theorem WellFormed.loop (wf : WellFormed m) {H : Nat} (hH : H < m.halfedges.length) :
    ∃ p nx L vA vB e ep en rA rB,
      m.halfedges[H]? = some e ∧ m.halfedges[p]? = some ep ∧ m.halfedges[nx]? = some en ∧
      e.previousHalfedge = some p ∧ e.nextHalfedge = some nx ∧ e.leftFace = some L ∧
      e.startVertex = some vA ∧ en.startVertex = some vB ∧
      m.vertices[vA]? = some rA ∧ m.vertices[vB]? = some rB ∧
      p ≠ nx ∧ p ≠ H ∧ H ≠ nx ∧ L < m.faces.length ∧
      m.next p = some H ∧ m.next nx = some p ∧ m.left p = some L ∧ m.left nx = some L := by
  obtain ⟨h1, h2, h3, h4, ⟨L, hLl, hL⟩, h6, ⟨vA, hvAl, hvA⟩, -⟩ := wf.1 H hH
  have he : m.halfedges[H]? = some m.halfedges[H] := List.getElem?_eq_getElem hH
  cases hn : m.next H with
  | none => rw [hn] at h2; simp at h2
  | some nx =>
  cases hp : m.prev H with
  | none => rw [hp] at h3; simp at h3
  | some p =>
  rw [hn] at h2 h4 h6 h1
  rw [hp] at h3
  simp only [Option.some_bind] at h2 h3 h4 h6
  have hnxl := lt_of_prev h2
  have hpl := lt_of_next h3
  have hen : m.halfedges[nx]? = some m.halfedges[nx] := List.getElem?_eq_getElem hnxl
  have hep : m.halfedges[p]? = some m.halfedges[p] := List.getElem?_eq_getElem hpl
  obtain ⟨-, -, -, -, -, -, ⟨vB, hvBl, hvB⟩, -⟩ := wf.1 nx hnxl
  have hHn : H ≠ nx := fun hc => h1 (by rw [← hc])
  have hpH : p ≠ H := by
    intro hc
    rw [hc, hn] at h3
    exact hHn (Option.some.inj h3).symm
  -- the successor of the successor is the predecessor
  cases hq : m.next nx with
  | none => rw [hq] at h4; simp at h4
  | some q =>
  rw [hq] at h4
  simp only [Option.some_bind] at h4
  obtain ⟨-, hq2, -⟩ := wf.1 q (lt_of_next h4)
  rw [h4] at hq2
  simp only [Option.some_bind] at hq2
  rw [hp] at hq2
  have hqp : q = p := (Option.some.inj hq2).symm
  subst hqp
  have hpn : q ≠ nx := by
    intro hc
    obtain ⟨hne, -⟩ := wf.1 nx hnxl
    rw [hc] at hq
    exact hne hq
  obtain ⟨-, -, -, -, -, hlq, -⟩ := wf.1 q hpl
  rw [h3] at hlq
  simp only [Option.some_bind] at hlq
  refine ⟨q, nx, L, vA, vB, m.halfedges[H], m.halfedges[q], m.halfedges[nx],
    m.vertices[vA], m.vertices[vB], he, hep, hen, ?_, ?_, ?_, ?_, ?_,
    List.getElem?_eq_getElem hvAl, List.getElem?_eq_getElem hvBl, hpn, hpH, hHn, hLl,
    h3, hq, ?_, ?_⟩
  · rw [← prev_of_getElem? he]; exact hp
  · rw [← next_of_getElem? he]; exact hn
  · rw [← left_of_getElem? he]; exact hL
  · rw [← start_of_getElem? he]; exact hvA
  · rw [← start_of_getElem? hen]; exact hvB
  · rw [← hlq]; exact hL
  · rw [h6]; exact hL

end WF

section EdgePost
variable {K : Type}

theorem bind_getElem?_of_map_eq {α β : Type} {g : α → Option β} {l l' : List α}
    (h : l'.map g = l.map g) (i : Nat) : (l'[i]?).bind g = (l[i]?).bind g := by
  have h1 := getElem?_of_map_eq h i
  cases h2 : l'[i]? <;> cases h3 : l[i]? <;> simp_all

/-- The four writes of the two cross links of `breakEdge` touch `oppositeHalfedge`
only. -/
theorem crossLinks_views (l : List Halfedge) (a b c d : Nat) (x y z w : Option Nat)
    (g : Halfedge → Option Nat) (hg : ∀ e v, g { e with oppositeHalfedge := v } = g e) (j : Nat) :
    (((((l.modify (fun h => { h with oppositeHalfedge := x }) a).modify
      (fun h => { h with oppositeHalfedge := y }) b).modify
      (fun h => { h with oppositeHalfedge := z }) c).modify
      (fun h => { h with oppositeHalfedge := w }) d)[j]?).bind g = (l[j]?).bind g := by
  apply bind_getElem?_of_map_eq
  rw [map_modify_of_eq g, map_modify_of_eq g, map_modify_of_eq g, map_modify_of_eq g]
  · intro e; exact hg e _
  · intro e; exact hg e _
  · intro e; exact hg e _
  · intro e; exact hg e _

theorem crossLinks_opp (l : List Halfedge) (H O n1 n4 : Nat)
    (hH : H < l.length) (hO : O < l.length) (h1 : n1 < l.length) (h4 : n4 < l.length)
    (d1 : H ≠ O) (d2 : H ≠ n1) (d3 : H ≠ n4) (d4 : O ≠ n1) (d5 : O ≠ n4) (d6 : n1 ≠ n4)
    (j : Nat) :
    (((((l.modify (fun h => { h with oppositeHalfedge := some n4 }) H).modify
      (fun h => { h with oppositeHalfedge := some H }) n4).modify
      (fun h => { h with oppositeHalfedge := some O }) n1).modify
      (fun h => { h with oppositeHalfedge := some n1 }) O)[j]?).bind Halfedge.oppositeHalfedge
      = if j = H then some n4 else if j = n4 then some H else if j = n1 then some O
        else if j = O then some n1 else (l[j]?).bind Halfedge.oppositeHalfedge := by
  by_cases c1 : j = H
  · subst c1
    simp (disch := omega) only [List.getElem?_modify_ne, List.getElem?_modify_eq,
      List.getElem?_eq_getElem hH, Option.map_eq_map, Option.map_some', Option.some_bind,
      if_true]
  by_cases c2 : j = n4
  · subst c2
    simp (disch := omega) only [List.getElem?_modify_ne, List.getElem?_modify_eq,
      List.getElem?_eq_getElem h4, Option.map_eq_map, Option.map_some', Option.some_bind,
      if_true, c1, if_false]
  by_cases c3 : j = n1
  · subst c3
    simp (disch := omega) only [List.getElem?_modify_ne, List.getElem?_modify_eq,
      List.getElem?_eq_getElem h1, Option.map_eq_map, Option.map_some', Option.some_bind,
      if_true, c1, c2, if_false]
  by_cases c4 : j = O
  · subst c4
    simp (disch := omega) only [List.getElem?_modify_ne, List.getElem?_modify_eq,
      List.getElem?_eq_getElem hO, Option.map_eq_map, Option.map_some', Option.some_bind,
      if_true, c1, c2, c3, if_false]
  simp (disch := omega) only [List.getElem?_modify_ne, c1, c2, c3, c4, if_false]

theorem views_of_halfedges_eq {m m2 : Mesh K} (h : m2.halfedges = m.halfedges) :
    (∀ j, m2.start j = m.start j) ∧ (∀ j, m2.next j = m.next j) ∧
    (∀ j, m2.prev j = m.prev j) ∧ (∀ j, m2.opp j = m.opp j) ∧ (∀ j, m2.left j = m.left j) ∧
    (∀ j, m2.target j = m.target j) := by
  refine ⟨?_, ?_, ?_, ?_, ?_, ?_⟩ <;> intro j <;>
    simp only [Mesh.start, Mesh.next, Mesh.prev, Mesh.opp, Mesh.left, Mesh.target, h]

/-- The footprint of `breakEdge`, put together from the footprints of its two runs of
`breakFace` and the two cross links. -/
theorem breakEdgePost_of_splits [Field K] (m m2 m3 m4 m' : Mesh K)
    (H O p nx pO nO L R vA vB : Nat) (e en : Halfedge) (rA rB : Vertex K)
    (hval : ∀ j k, m.next j = some k → k < m.halfedges.length)
    (he : m.halfedges[H]? = some e) (hen : m.halfedges[nx]? = some en)
    (henx : e.nextHalfedge = some nx)
    (hes : e.startVertex = some vA) (hens : en.startVertex = some vB)
    (hrA : m.vertices[vA]? = some rA) (hrB : m.vertices[vB]? = some rB)
    (hH : H < m.halfedges.length) (hOl : O < m.halfedges.length)
    (hpl : p < m.halfedges.length) (hnl : nx < m.halfedges.length)
    (hpOl : pO < m.halfedges.length) (hnOl : nO < m.halfedges.length)
    (hcp : m.next p = some H) (hcn : m.next nx = some p)
    (hcpO : m.next pO = some O) (hcnO : m.next nO = some pO)
    (hOH : O ≠ H) (c1 : O ≠ nx) (c2 : O ≠ p) (c3 : pO ≠ p) (c4 : pO ≠ H) (c5 : pO ≠ nx)
    (c6 : nO ≠ p) (c7 : nO ≠ H) (c8 : nO ≠ nx)
    (h2he : m2.halfedges = m.halfedges) (h2fa : m2.faces = m.faces)
    (h2vp : m2.vertices.map Vertex.position = m.vertices.map Vertex.position
        ++ [(rA.position.add rB.position).scale (1 / 2)])
    (h2vf : m2.vertices.map (fun v => (v.firstHalfedge, v.removed))
        = m.vertices.map (fun v => (v.firstHalfedge, v.removed)) ++ [(none, false)])
    (post3 : BreakFacePost m2 m3 L H m.vertices.length p nx)
    (post4 : BreakFacePost m3 m4 R O m.vertices.length pO nO)
    (hvs : m'.vertices = m4.vertices) (hfs : m'.faces = m4.faces)
    (hhs : m'.halfedges = (((m4.halfedges.modify
        (fun h => { h with oppositeHalfedge := some (m.halfedges.length + 4) }) H).modify
        (fun h => { h with oppositeHalfedge := some H }) (m.halfedges.length + 4)).modify
        (fun h => { h with oppositeHalfedge := some O }) (m.halfedges.length + 1)).modify
        (fun h => { h with oppositeHalfedge := some (m.halfedges.length + 1) }) O) :
    BreakEdgePost m m' H O p nx pO nO L R := by
  obtain ⟨v2s, v2n, v2p, v2o, v2l, v2t⟩ := views_of_halfedges_eq h2he
  have hlen3 : m3.halfedges.length = m.halfedges.length + 3 := by
    rw [post3.length_eq, h2he]
  have hlen4 : m4.halfedges.length = m.halfedges.length + 6 := by
    rw [post4.length_eq, hlen3]
  have hfl3 : m3.faces.length = m.faces.length + 1 := by
    have := congrArg List.length post3.removed_eq
    simpa [h2fa] using this
  have e2 : m2.halfedges.length = m.halfedges.length := by rw [h2he]
  -- the views of the result in terms of the mesh after the second split
  have hS : ∀ j, m'.start j = m4.start j := fun j => by
    simp only [Mesh.start, hhs]
    exact crossLinks_views _ _ _ _ _ _ _ _ _ Halfedge.startVertex (fun _ _ => rfl) j
  have hN : ∀ j, m'.next j = m4.next j := fun j => by
    simp only [Mesh.next, hhs]
    exact crossLinks_views _ _ _ _ _ _ _ _ _ Halfedge.nextHalfedge (fun _ _ => rfl) j
  have hLf : ∀ j, m'.left j = m4.left j := fun j => by
    simp only [Mesh.left, hhs]
    exact crossLinks_views _ _ _ _ _ _ _ _ _ Halfedge.leftFace (fun _ _ => rfl) j
  have hT : ∀ j, m'.target j = m4.target j := fun j => by
    simp only [Mesh.target, hN j]
    cases m4.next j with
    | none => rfl
    | some k => exact hS k
  have hOp' : ∀ j, m'.opp j = if j = H then some (m.halfedges.length + 4)
      else if j = m.halfedges.length + 4 then some H
      else if j = m.halfedges.length + 1 then some O
      else if j = O then some (m.halfedges.length + 1) else m4.opp j := fun j => by
    simp only [Mesh.opp, hhs]
    exact crossLinks_opp _ _ _ _ _ (by omega) (by omega) (by omega) (by omega) (by omega)
      (by omega) (by omega) (by omega) (by omega) (by omega) j
  -- the loop of the opposite, as the second split finds it
  have hcpO3 : m3.next pO = some O := by
    rw [post3.next_frame pO c3 c4 c5 (by rw [e2]; exact hpOl), v2n]; exact hcpO
  have hcnO3 : m3.next nO = some pO := by
    rw [post3.next_frame nO c6 c7 c8 (by rw [e2]; exact hnOl), v2n]; exact hcnO
  have hval2 : ∀ j k, m2.next j = some k → k < m.halfedges.length := fun j k h => by
    rw [v2n] at h; exact hval j k h
  have hval3 : ∀ j k, m3.next j = some k → k < m3.halfedges.length := by
    have := post3.next_valid (m := m2) (by rw [h2he]; exact hpl) (by rw [h2he]; exact hH)
      (by rw [h2he]; exact hnl) (by rw [h2he]; exact hval2)
    exact this
  have hfl3' : m3.faces.length = m.faces.length + 1 := hfl3
  have hvl3 : m3.vertices.length = m.vertices.length + 1 := by
    have := congrArg List.length h2vp
    rw [post3.vertices_eq]
    simpa using this
  -- the mesh after the first split, in terms of the mesh before
  have s3_old : ∀ j, j < m.halfedges.length → m3.start j = m.start j := fun j hj => by
    rw [post3.start_old j (by rw [e2]; exact hj), v2s]
  have o3_old : ∀ j, j < m.halfedges.length → m3.opp j = m.opp j := fun j hj => by
    rw [post3.opp_old j (by rw [e2]; exact hj), v2o]
  have t3_old : ∀ j, j < m.halfedges.length → j ≠ H → m3.target j = m.target j :=
    fun j hj hjH => by
      rw [post3.target_old (by rw [v2n]; exact hcp) (by rw [v2n]; exact hcn)
        (by rw [e2]; exact hval2) j (by rw [e2]; exact hj) hjH, v2t]
  -- the mesh after the second split, in terms of the mesh after the first
  have s4_old : ∀ j, j < m.halfedges.length + 3 → m4.start j = m3.start j := fun j hj =>
    post4.start_old j (by rw [hlen3]; exact hj)
  have o4_old : ∀ j, j < m.halfedges.length + 3 → m4.opp j = m3.opp j := fun j hj =>
    post4.opp_old j (by rw [hlen3]; exact hj)
  have t4_old : ∀ j, j < m.halfedges.length + 3 → j ≠ O → m4.target j = m3.target j :=
    fun j hj hjO => post4.target_old hcpO3 hcnO3 hval3 j (by rw [hlen3]; exact hj) hjO
  have l4_old : ∀ j, j < m.halfedges.length + 3 → j ≠ pO → j ≠ O → j ≠ nO →
      m4.left j = m3.left j := fun j hj h1 h2 h3 =>
    post4.left_frame j h1 h2 h3 (by rw [hlen3]; exact hj)
  have a3s := post3.start_a
  have a3o := post3.opp_a
  have a3t := post3.target_a
  have a3l := post3.left_a
  have b3s := post3.start_b
  have b3t := post3.target_b
  have b3l := post3.left_b
  have c3s := post3.start_c
  have c3o := post3.opp_c
  have c3t := post3.target_c
  have c3l := post3.left_c
  have H3t := post3.target_H
  rw [e2] at a3s a3o a3t a3l b3s b3t b3l c3s c3o c3t c3l
  rw [v2s] at a3s b3t c3t
  rw [h2fa] at a3l b3l
  have a4s := post4.start_a
  have a4o := post4.opp_a
  have a4t := post4.target_a
  have a4l := post4.left_a
  have b4s := post4.start_b
  have b4t := post4.target_b
  have b4l := post4.left_b
  have c4s := post4.start_c
  have c4o := post4.opp_c
  have c4t := post4.target_c
  have c4l := post4.left_c
  have O4t := post4.target_H
  rw [hlen3] at a4s a4o a4t a4l b4s b4t b4l c4s c4o c4t c4l
  rw [s3_old pO hpOl] at a4s c4t
  rw [s3_old nO hnOl] at b4t
  rw [hfl3] at a4l b4l
  simp only [Nat.add_assoc, Nat.reduceAdd] at a4s a4o a4t a4l b4s b4t b4l c4s c4o c4t c4l
  refine
    { length_eq := ?length_eq, start_old := ?start_old, opp_old := ?opp_old,
      target_old := ?target_old, opp_H := ?opp_H, target_H := ?target_H, opp_O := ?opp_O,
      target_O := ?target_O,
      start_0 := ?start_0, opp_0 := ?opp_0, target_0 := ?target_0, left_0 := ?left_0,
      start_1 := ?start_1, opp_1 := ?opp_1, target_1 := ?target_1, left_1 := ?left_1,
      start_2 := ?start_2, opp_2 := ?opp_2, target_2 := ?target_2, left_2 := ?left_2,
      start_3 := ?start_3, opp_3 := ?opp_3, target_3 := ?target_3, left_3 := ?left_3,
      start_4 := ?start_4, opp_4 := ?opp_4, target_4 := ?target_4, left_4 := ?left_4,
      start_5 := ?start_5, opp_5 := ?opp_5, target_5 := ?target_5, left_5 := ?left_5,
      first_new := ?first_new, removed_eq := ?removed_eq, positions := ?positions,
      vertex_flags := ?vertex_flags }
  case length_eq =>
    rw [hhs]
    simp only [List.length_modify]
    exact hlen4
  case start_old =>
    intro j hj
    rw [hS, s4_old j (by omega), s3_old j hj]
  case opp_old =>
    intro j hj h1 h2
    rw [hOp', if_neg h1, if_neg (by omega), if_neg (by omega), if_neg h2,
      o4_old j (by omega), o3_old j hj]
  case target_old =>
    intro j hj h1 h2
    rw [hT, t4_old j (by omega) h2, t3_old j hj h1]
  case opp_H => rw [hOp', if_pos rfl]
  case target_H => rw [hT, t4_old H (by omega) (Ne.symm hOH)]; exact H3t
  case opp_O =>
    rw [hOp', if_neg hOH, if_neg (by omega), if_neg (by omega), if_pos rfl]
  case target_O => rw [hT]; exact O4t
  case start_0 => rw [hS, s4_old _ (by omega)]; exact a3s
  case opp_0 =>
    rw [hOp', if_neg (by omega), if_neg (by omega), if_neg (by omega), if_neg (by omega),
      o4_old _ (by omega)]
    exact a3o
  case target_0 => rw [hT, t4_old _ (by omega) (by omega)]; exact a3t
  case left_0 =>
    rw [hLf, l4_old _ (by omega) (by omega) (by omega) (by omega)]; exact a3l
  case start_1 => rw [hS, s4_old _ (by omega)]; exact b3s
  case opp_1 => rw [hOp', if_neg (by omega), if_neg (by omega), if_pos rfl]
  case target_1 => rw [hT, t4_old _ (by omega) (by omega)]; exact b3t
  case left_1 =>
    rw [hLf, l4_old _ (by omega) (by omega) (by omega) (by omega)]; exact b3l
  case start_2 => rw [hS, s4_old _ (by omega)]; exact c3s
  case opp_2 =>
    rw [hOp', if_neg (by omega), if_neg (by omega), if_neg (by omega), if_neg (by omega),
      o4_old _ (by omega)]
    exact c3o
  case target_2 => rw [hT, t4_old _ (by omega) (by omega)]; exact c3t
  case left_2 =>
    rw [hLf, l4_old _ (by omega) (by omega) (by omega) (by omega)]; exact c3l
  case start_3 => rw [hS]; exact a4s
  case opp_3 =>
    rw [hOp', if_neg (by omega), if_neg (by omega), if_neg (by omega), if_neg (by omega)]
    exact a4o
  case target_3 => rw [hT]; exact a4t
  case left_3 => rw [hLf]; exact a4l
  case start_4 => rw [hS]; exact b4s
  case opp_4 => rw [hOp', if_neg (by omega), if_pos rfl]
  case target_4 => rw [hT]; exact b4t
  case left_4 => rw [hLf]; exact b4l
  case start_5 => rw [hS]; exact c4s
  case opp_5 =>
    rw [hOp', if_neg (by omega), if_neg (by omega), if_neg (by omega), if_neg (by omega)]
    exact c4o
  case target_5 => rw [hT]; exact c4t
  case left_5 => rw [hLf]; exact c4l
  case first_new =>
    simp only [Mesh.first, hvs, post4.vertices_eq, List.getElem?_modify_eq,
      List.getElem?_eq_getElem (by omega : m.vertices.length < m3.vertices.length),
      Option.map_eq_map, Option.map_some', Option.some_bind, hlen3, Nat.add_assoc,
      Nat.reduceAdd]
  case removed_eq =>
    rw [hfs, post4.removed_eq, post3.removed_eq, h2fa]
    simp
  case positions =>
    refine ⟨rA.position, rB.position, ?_, ?_, ?_⟩
    · simp [Mesh.start, Mesh.position, he, hes, hrA]
    · simp [Mesh.target, Mesh.next, Mesh.start, Mesh.position, he, henx, hen, hens, hrB]
    · rw [hvs, post4.vertices_eq, map_modify_of_eq Vertex.position, post3.vertices_eq,
        map_modify_of_eq Vertex.position, h2vp]
      · intro a; rfl
      · intro a; rfl
  case vertex_flags =>
    rw [hvs, post4.vertices_eq, map_modify_of_eq Vertex.removed, post3.vertices_eq,
      map_modify_of_eq Vertex.removed]
    · have := congrArg (List.map Prod.snd) h2vf
      simpa [List.map_map, Function.comp_def] using this
    · intro a; rfl
    · intro a; rfl

/-- The footprint of `breakEdge` at a half-edge with an opposite outside its own loop. -/
theorem breakEdge_opposite_post [Field K] (m : Mesh K) (H O : Nat) (wf : WellFormed m)
    (hO : m.opp H = some O)
    (hOH : O ≠ H) (hOn : m.next H ≠ some O) (hOp : m.prev H ≠ some O) :
    ∃ m' p nx pO nO L R, breakEdge m (some H) = Except.ok m' ∧
      m.prev H = some p ∧ m.next H = some nx ∧ m.prev O = some pO ∧ m.next O = some nO ∧
      m.left H = some L ∧ m.left O = some R ∧
      BreakEdgePost m m' H O p nx pO nO L R := by
  have hH := lt_of_opp hO
  obtain ⟨-, -, -, -, -, -, -, hinv⟩ := wf.1 H hH
  obtain ⟨hOpp, hOs, hHs⟩ := hinv O hO
  have hOl := lt_of_opp hOpp
  obtain ⟨p, nx, L, vA, vB, e, ep, en, rA, rB, he, hep, hen, hepv, henx, hel, hes, hens,
    hrA, hrB, hpn, hpH, hHn, hLl, hcp, hcn, hlp, hln⟩ := wf.loop hH
  obtain ⟨pO, nO, R, vA', vB', eo, epo, eno, rA', rB', heo, hepo, heno, heopv, heonx, heol,
    -, -, -, -, hpnO, hpOO, hOnO, hRl, hcpO, hcnO, hlpO, hlnO⟩ := wf.loop hOl
  have hnH : m.next H = some nx := by rw [next_of_getElem? he]; exact henx
  have hpHv : m.prev H = some p := by rw [prev_of_getElem? he]; exact hepv
  have hnO : m.next O = some nO := by rw [next_of_getElem? heo]; exact heonx
  have hpOv : m.prev O = some pO := by rw [prev_of_getElem? heo]; exact heopv
  have heopp : e.oppositeHalfedge = some O := by rw [← opp_of_getElem? he]; exact hO
  -- the two loops are disjoint
  have c1 : O ≠ nx := fun hc => hOn (by rw [hnH, hc])
  have c2 : O ≠ p := fun hc => hOp (by rw [hpHv, hc])
  have c3 : pO ≠ p := fun hc => hOH (by
    rw [hc, hcp] at hcpO; exact (Option.some.inj hcpO).symm)
  have c4 : pO ≠ H := fun hc => c1 (by
    rw [hc, hnH] at hcpO; exact (Option.some.inj hcpO).symm)
  have c5 : pO ≠ nx := fun hc => c2 (by
    rw [hc, hcn] at hcpO; exact (Option.some.inj hcpO).symm)
  have c6 : nO ≠ p := fun hc => c4 (by
    rw [hc, hcp] at hcnO; exact (Option.some.inj hcnO).symm)
  have c7 : nO ≠ H := fun hc => c5 (by
    rw [hc, hnH] at hcnO; exact (Option.some.inj hcnO).symm)
  have c8 : nO ≠ nx := fun hc => c3 (by
    rw [hc, hcn] at hcnO; exact (Option.some.inj hcnO).symm)
  have hpl := getElem?_lt hep
  have hnl := getElem?_lt hen
  have hpOl := getElem?_lt hepo
  have hnOl := getElem?_lt heno
  obtain ⟨m2, m3, m4, m', hrun, h2he, h2fa, h2vp, h2vf, post3, post4, hvs, hfs, hhs⟩ :=
    breakEdge_run_opposite m H L p nx vA vB O R pO nO e ep en eo epo eno rA rB
      wf.2.2.2.1 wf.2.2.2.2 he hep hen hepv henx hel heopp
      heo hepo heno heopv heonx heol hRl (by
        simp only [List.nodup_cons, List.mem_cons, List.mem_singleton, not_or,
          List.not_mem_nil, not_false_eq_true, List.nodup_nil, and_true]
        exact ⟨⟨hpH, hpn, Ne.symm c3, Ne.symm c2, Ne.symm c6⟩,
          ⟨hHn, Ne.symm c4, Ne.symm hOH, Ne.symm c7⟩,
          ⟨Ne.symm c5, Ne.symm c1, Ne.symm c8⟩, ⟨hpOO, hpnO⟩, hOnO⟩) hes hens hrA hrB hpn hpH hHn hLl
  refine ⟨m', p, nx, pO, nO, L, R, hrun, hpHv, hnH, hpOv, hnO, ?_, ?_, ?_⟩
  · rw [left_of_getElem? he]; exact hel
  · rw [left_of_getElem? heo]; exact heol
  exact breakEdgePost_of_splits m m2 m3 m4 m' H O p nx pO nO L R vA vB e en rA rB
    wf.next_in_store he hen henx hes hens hrA hrB hH hOl hpl hnl hpOl hnOl hcp hcn hcpO hcnO
    hOH c1 c2 c3 c4 c5 c6 c7 c8 h2he h2fa h2vp h2vf post3 post4 hvs hfs hhs

end EdgePost

section C9
variable {K : Type}

theorem faceRemoved_of_map {m m' : Mesh K} {extra : List Bool}
    (h : m'.faces.map Face.removed = m.faces.map Face.removed ++ extra) (j : Nat) :
    m'.faceRemoved j = (m.faces.map Face.removed ++ extra)[j]? := by
  have := congrArg (fun l => l[j]?) h
  simpa [Mesh.faceRemoved, List.getElem?_map] using this

theorem countP_range_zero (p : Nat → Bool) (n : Nat) (h : ∀ j, j < n → p j = false) :
    (List.range n).countP p = 0 := by
  rw [List.countP_eq_zero]
  intro j hj
  rw [List.mem_range] at hj
  simp [h j hj]

/-- C9: on a well-formed mesh, splitting a half-edge `H` whose opposite lies on another
face, both faces live, succeeds; afterwards the new vertex `M` is the start of exactly
the four half-edges `n + 1`, `n + 2`, `n + 4`, `n + 5`, they lie on the four pairwise
distinct live faces `F`, `L`, `F + 1`, `R`, and `M`'s `firstHalfedge` is the third of
them (`n`, `F`, `M` are the sizes of the stores before the call). -/
theorem breakEdge_new_vertex_fan [Field K] (m : Mesh K) (H O L R : Nat) (wf : WellFormed m)
    (hO : m.opp H = some O) (hL : m.left H = some L) (hR : m.left O = some R) (hLR : L ≠ R)
    (hLlive : m.faceRemoved L = some false) (hRlive : m.faceRemoved R = some false) :
    ∃ m', breakEdge m (some H) = Except.ok m' ∧
      (∀ j, m'.start j = some m.vertices.length ↔
        j = m.halfedges.length + 1 ∨ j = m.halfedges.length + 2 ∨
        j = m.halfedges.length + 4 ∨ j = m.halfedges.length + 5) ∧
      (List.range m'.halfedges.length).countP
        (fun j => decide (m'.start j = some m.vertices.length)) = 4 ∧
      m'.left (m.halfedges.length + 1) = some m.faces.length ∧
      m'.left (m.halfedges.length + 2) = some L ∧
      m'.left (m.halfedges.length + 4) = some (m.faces.length + 1) ∧
      m'.left (m.halfedges.length + 5) = some R ∧
      [m.faces.length, L, m.faces.length + 1, R].Nodup ∧
      m'.faceRemoved m.faces.length = some false ∧ m'.faceRemoved L = some false ∧
      m'.faceRemoved (m.faces.length + 1) = some false ∧ m'.faceRemoved R = some false ∧
      m'.first m.vertices.length = some (m.halfedges.length + 4) := by
  have hH := lt_of_opp hO
  obtain ⟨p0, nx0, L0, vA, vB, e, ep, en, rA, rB, he, hep, hen, hepv, henx, hel, hes, hens,
    hrA, hrB, hpn, hpH, hHn, hLl, hcp, hcn, hlp, hln⟩ := wf.loop hH
  have hL0 : L0 = L := by
    rw [left_of_getElem? he, hel] at hL; exact Option.some.inj hL
  subst hL0
  have hnH : m.next H = some nx0 := by rw [next_of_getElem? he]; exact henx
  have hpHv : m.prev H = some p0 := by rw [prev_of_getElem? he]; exact hepv
  have hOH : O ≠ H := fun hc => hLR (by
    rw [hc, hL] at hR; exact Option.some.inj hR)
  have hOn : m.next H ≠ some O := fun hc => hLR (by
    rw [hnH] at hc; rw [← Option.some.inj hc, hln] at hR; exact Option.some.inj hR)
  have hOp : m.prev H ≠ some O := fun hc => hLR (by
    rw [hpHv] at hc; rw [← Option.some.inj hc, hlp] at hR; exact Option.some.inj hR)
  obtain ⟨m', p, nx, pO, nO, L', R', hrun, hp, hn, hpO, hnO, hL', hR', post⟩ :=
    breakEdge_opposite_post m H O wf hO hOH hOn hOp
  rw [hL] at hL'
  rw [hR] at hR'
  cases hL'
  cases hR'
  have hRl : R < m.faces.length := by
    obtain ⟨-, -, -, -, ⟨f, hf, hfl⟩, -⟩ := wf.1 O (lt_of_left hR)
    rw [hR] at hfl; cases hfl; exact hf
  have hpl := lt_of_next (show m.next p = some H by
    rw [hpHv] at hp; cases hp; exact hcp)
  have hOl := lt_of_left hR
  obtain ⟨-, -, hpOn, -⟩ := wf.1 O hOl
  rw [hpO] at hpOn
  have hpOl := lt_of_next hpOn
  have old_ne : ∀ j, j < m.halfedges.length → m.start j ≠ some m.vertices.length := by
    intro j hj hc
    obtain ⟨-, -, -, -, -, -, ⟨v, hv, hvs⟩, -⟩ := wf.1 j hj
    rw [hvs] at hc
    cases hc
    exact Nat.lt_irrefl _ hv
  have hiff : ∀ j, m'.start j = some m.vertices.length ↔
      j = m.halfedges.length + 1 ∨ j = m.halfedges.length + 2 ∨
      j = m.halfedges.length + 4 ∨ j = m.halfedges.length + 5 := by
    intro j
    constructor
    · intro hj
      by_contra hc
      simp only [not_or] at hc
      have hjl := lt_of_start hj
      rw [post.length_eq] at hjl
      rcases Nat.lt_or_ge j m.halfedges.length with h1 | h1
      · rw [post.start_old j h1] at hj
        exact old_ne j h1 hj
      · have : j = m.halfedges.length ∨ j = m.halfedges.length + 3 := by omega
        rcases this with h2 | h2
        · rw [h2, post.start_0] at hj
          exact old_ne p hpl hj
        · rw [h2, post.start_3] at hj
          exact old_ne pO hpOl hj
    · rintro (h | h | h | h) <;> subst h
      · exact post.start_1
      · exact post.start_2
      · exact post.start_4
      · exact post.start_5
  refine ⟨m', hrun, hiff, ?_, post.left_1, post.left_2, post.left_4, post.left_5, ?_, ?_, ?_,
    ?_, ?_, post.first_new⟩
  · rw [post.length_eq]
    simp only [List.range_succ, List.countP_append, List.countP_cons, List.countP_nil]
    rw [countP_range_zero]
    · have e0 : ¬ m'.start m.halfedges.length = some m.vertices.length := fun hc => by
        have := (hiff _).1 hc; omega
      have e3 : ¬ m'.start (m.halfedges.length + 3) = some m.vertices.length := fun hc => by
        have := (hiff _).1 hc; omega
      simp [e0, e3, post.start_1, post.start_2, post.start_4, post.start_5]
    · intro j hj
      have : ¬ m'.start j = some m.vertices.length := fun hc => by
        have := (hiff _).1 hc; omega
      simp [this]
  · simp only [List.nodup_cons, List.mem_cons, List.mem_singleton, not_or, List.not_mem_nil,
      not_false_eq_true, List.nodup_nil, and_true]
    omega
  · rw [faceRemoved_of_map post.removed_eq, List.getElem?_append_right (by simp)]
    simp
  · rw [faceRemoved_of_map post.removed_eq,
      List.getElem?_append_left (by simpa using hLl)]
    simpa [Mesh.faceRemoved] using hLlive
  · rw [faceRemoved_of_map post.removed_eq, List.getElem?_append_right (by simp)]
    simp
  · rw [faceRemoved_of_map post.removed_eq,
      List.getElem?_append_left (by simpa using hRl)]
    simpa [Mesh.faceRemoved] using hRlive

end C9

section C10
variable {K : Type}

theorem WellFormed.oppositeInvariant {m : Mesh K} (wf : WellFormed m) : OppositeInvariant m := by
  intro h g hg
  obtain ⟨-, -, -, -, -, -, -, hinv⟩ := wf.1 h (lt_of_opp hg)
  exact hinv g hg

/-- The opposite invariant survives the split of an edge with an opposite outside the
loop of the split half-edge. -/
theorem BreakEdgePost.opposite_kept [Field K] {m m' : Mesh K}
    {H O p nx pO nO L R : Nat} (post : BreakEdgePost m m' H O p nx pO nO L R)
    (inv : OppositeInvariant m) (hO : m.opp H = some O)
    (hn : m.next H = some nx) (hnO : m.next O = some nO) :
    OppositeInvariant m' := by
  obtain ⟨hOH, hsO, hsH⟩ := inv H O hO
  have hHl := lt_of_opp hO
  have hOl := lt_of_opp hOH
  have tH : m.target H = m.start nx := by simp [Mesh.target, hn]
  have tO : m.target O = m.start nO := by simp [Mesh.target, hnO]
  have key : ∀ h g, m'.opp h = some g → m'.opp g = some h ∧ m'.start g = m'.target h := by
    intro h g hg
    have hl := lt_of_opp hg
    rw [post.length_eq] at hl
    by_cases c1 : h = H
    · subst c1
      rw [post.opp_H] at hg; cases hg
      refine ⟨post.opp_4, ?_⟩
      rw [post.start_4, post.target_H]
    by_cases c2 : h = O
    · subst c2
      rw [post.opp_O] at hg; cases hg
      refine ⟨post.opp_1, ?_⟩
      rw [post.start_1, post.target_O]
    rcases Nat.lt_or_ge h m.halfedges.length with c3 | c3
    · rw [post.opp_old h c3 c1 c2] at hg
      obtain ⟨i1, i2, i3⟩ := inv h g hg
      have hgl := lt_of_opp i1
      have g1 : g ≠ H := fun hc => c2 (by
        rw [hc, hO] at i1; exact (Option.some.inj i1).symm)
      have g2 : g ≠ O := fun hc => c1 (by
        rw [hc, hOH] at i1; exact (Option.some.inj i1).symm)
      refine ⟨?_, ?_⟩
      · rw [post.opp_old g hgl g1 g2]; exact i1
      · rw [post.start_old g hgl, post.target_old h c3 c1 c2]; exact i2
    · have : h = m.halfedges.length ∨ h = m.halfedges.length + 1 ∨
          h = m.halfedges.length + 2 ∨ h = m.halfedges.length + 3 ∨
          h = m.halfedges.length + 4 ∨ h = m.halfedges.length + 5 := by omega
      rcases this with c | c | c | c | c | c <;> subst c
      · rw [post.opp_0] at hg; cases hg
        exact ⟨post.opp_2, by rw [post.start_2, post.target_0]⟩
      · rw [post.opp_1] at hg; cases hg
        refine ⟨post.opp_O, ?_⟩
        rw [post.start_old O hOl, post.target_1, hsO, tH]
      · rw [post.opp_2] at hg; cases hg
        exact ⟨post.opp_0, by rw [post.start_0, post.target_2]⟩
      · rw [post.opp_3] at hg; cases hg
        exact ⟨post.opp_5, by rw [post.start_5, post.target_3]⟩
      · rw [post.opp_4] at hg; cases hg
        refine ⟨post.opp_H, ?_⟩
        rw [post.start_old H hHl, post.target_4, hsH, tO]
      · rw [post.opp_5] at hg; cases hg
        exact ⟨post.opp_3, by rw [post.start_3, post.target_5]⟩
  intro h g hg
  obtain ⟨k1, k2⟩ := key h g hg
  obtain ⟨-, k3⟩ := key g h k1
  exact ⟨k1, k2, k3⟩

/-- The opposite invariant survives the split of a face at a half-edge without an
opposite. -/
theorem BreakFacePost.opposite_kept_boundary {m m' : Mesh K} {L H M p nx : Nat}
    (post : BreakFacePost m m' L H M p nx) (inv : OppositeInvariant m)
    (hO : m.opp H = none) (hcp : m.next p = some H) (hcn : m.next nx = some p)
    (hval : ∀ j k, m.next j = some k → k < m.halfedges.length) :
    OppositeInvariant m' := by
  have key : ∀ h g, m'.opp h = some g → m'.opp g = some h ∧ m'.start g = m'.target h := by
    intro h g hg
    have hl := lt_of_opp hg
    rw [post.length_eq] at hl
    rcases Nat.lt_or_ge h m.halfedges.length with c3 | c3
    · rw [post.opp_old h c3] at hg
      have c1 : h ≠ H := fun hc => by rw [hc, hO] at hg; cases hg
      obtain ⟨i1, i2, i3⟩ := inv h g hg
      have hgl := lt_of_opp i1
      refine ⟨?_, ?_⟩
      · rw [post.opp_old g hgl]; exact i1
      · rw [post.start_old g hgl, post.target_old hcp hcn hval h c3 c1]; exact i2
    · have : h = m.halfedges.length ∨ h = m.halfedges.length + 1 ∨
          h = m.halfedges.length + 2 := by omega
      rcases this with c | c | c <;> subst c
      · rw [post.opp_a] at hg; cases hg
        exact ⟨post.opp_c, by rw [post.start_c, post.target_a]⟩
      · rw [post.opp_b] at hg; cases hg
      · rw [post.opp_c] at hg; cases hg
        exact ⟨post.opp_a, by rw [post.start_a, post.target_c]⟩
  intro h g hg
  obtain ⟨k1, k2⟩ := key h g hg
  obtain ⟨-, k3⟩ := key g h k1
  exact ⟨k1, k2, k3⟩

theorem oppositeInvariant_of_halfedges_eq {m m2 : Mesh K} (h : m2.halfedges = m.halfedges)
    (inv : OppositeInvariant m) : OppositeInvariant m2 := by
  obtain ⟨v2s, v2n, v2p, v2o, v2l, v2t⟩ := views_of_halfedges_eq h
  intro a b hab
  rw [v2o] at hab
  obtain ⟨i1, i2, i3⟩ := inv a b hab
  rw [v2o, v2s, v2s, v2t, v2t]
  exact ⟨i1, i2, i3⟩

end C10

section C11
variable {K : Type}

theorem rep_of_reps {m m' : Mesh K} {L p nx : Nat} (hL : L < m.faces.length)
    (h : m'.faces.map Face.halfedge = (m.faces.map Face.halfedge).set L (some p) ++ [some nx]) :
    m'.rep L = some p ∧ m'.rep m.faces.length = some nx := by
  have key : ∀ i, m'.rep i = ((m'.faces.map Face.halfedge)[i]?).bind id := by
    intro i
    simp only [Mesh.rep, List.getElem?_map]
    cases m'.faces[i]? <;> rfl
  constructor
  · rw [key, h, List.getElem?_append_left (by simpa using hL)]
    simp [List.getElem?_set_eq, hL]
  · rw [key, h, List.getElem?_append_right (by simp)]
    simp

/-- C11: `breakFace` at a half-edge `H` with predecessor `p` (from `C` to `A`) and
successor `nx` (from `B` to `C`) on face `L`, with break point `M`, succeeds; the old
face `L` keeps the loop `p, H, n + 2` with representative `p`, the new face `F` gets the
loop `n, n + 1, nx`; on each loop the three half-edges have the loop's face as
`leftFace` and `next`, `previous` are mutually inverse 3-cycles; the start vertices
along the old loop are `C, A, M` and along the new loop `C, M, B` (`n` and `F` are the
numbers of half-edges and faces before the call). -/
theorem breakFace_loops (m : Mesh K) (L H M p nx A B C : Nat)
    (hlast : ∀ f ∈ m.m_lastFace, f < m.faces.length)
    (hp : m.prev H = some p) (hn : m.next H = some nx)
    (hpl : p < m.halfedges.length) (hnl : nx < m.halfedges.length)
    (hpn : p ≠ nx) (hpH : p ≠ H) (hHn : H ≠ nx)
    (hA : m.start H = some A) (hB : m.start nx = some B) (hC : m.start p = some C)
    (hLl : L < m.faces.length) (hMl : M < m.vertices.length) :
    ∃ m', breakFace m (some L) (some H) (some M) [] []
        = Except.ok (m', [some m.halfedges.length, some (m.halfedges.length + 1), some nx],
            [some p, some H, some (m.halfedges.length + 2)]) ∧
      m'.faces.length = m.faces.length + 1 ∧
      m'.halfedges.length = m.halfedges.length + 3 ∧
      (m'.next p = some H ∧ m'.next H = some (m.halfedges.length + 2) ∧
        m'.next (m.halfedges.length + 2) = some p) ∧
      (m'.prev p = some (m.halfedges.length + 2) ∧ m'.prev H = some p ∧
        m'.prev (m.halfedges.length + 2) = some H) ∧
      (m'.left p = some L ∧ m'.left H = some L ∧ m'.left (m.halfedges.length + 2) = some L) ∧
      m'.rep L = some p ∧
      (m'.next m.halfedges.length = some (m.halfedges.length + 1) ∧
        m'.next (m.halfedges.length + 1) = some nx ∧ m'.next nx = some m.halfedges.length) ∧
      (m'.prev m.halfedges.length = some nx ∧
        m'.prev (m.halfedges.length + 1) = some m.halfedges.length ∧
        m'.prev nx = some (m.halfedges.length + 1)) ∧
      (m'.left m.halfedges.length = some m.faces.length ∧
        m'.left (m.halfedges.length + 1) = some m.faces.length ∧
        m'.left nx = some m.faces.length) ∧
      m'.rep m.faces.length = some nx ∧
      (m'.start p = some C ∧ m'.start H = some A ∧
        m'.start (m.halfedges.length + 2) = some M) ∧
      (m'.start m.halfedges.length = some C ∧ m'.start (m.halfedges.length + 1) = some M ∧
        m'.start nx = some B) := by
  have hHl : H < m.halfedges.length := lt_of_next hn
  have he : m.halfedges[H]? = some m.halfedges[H] := List.getElem?_eq_getElem hHl
  have hep : m.halfedges[p]? = some m.halfedges[p] := List.getElem?_eq_getElem hpl
  have hen : m.halfedges[nx]? = some m.halfedges[nx] := List.getElem?_eq_getElem hnl
  obtain ⟨m', hrun, post⟩ := breakFace_run m L H M p nx _ _ _ hlast he hep hen
    (by rw [← prev_of_getElem? he]; exact hp) (by rw [← next_of_getElem? he]; exact hn)
    hpn hpH hHn hLl hMl
  obtain ⟨r1, r2⟩ := rep_of_reps hLl post.reps
  have hfl : m'.faces.length = m.faces.length + 1 := by
    have := congrArg List.length post.removed_eq
    simpa using this
  exact ⟨m', hrun, hfl, post.length_eq,
    ⟨post.next_p, post.next_H, post.next_c⟩, ⟨post.prev_p, post.prev_H, post.prev_c⟩,
    ⟨post.left_p, post.left_H, post.left_c⟩, r1,
    ⟨post.next_a, post.next_b, post.next_nx⟩, ⟨post.prev_a, post.prev_b, post.prev_nx⟩,
    ⟨post.left_a, post.left_b, post.left_nx⟩, r2,
    ⟨post.start_p.trans hC, post.start_H.trans hA, post.start_c⟩,
    ⟨post.start_a.trans hC, post.start_b, post.start_nx.trans hB⟩⟩

end C11

/-- C11, at the first face of the tetrahedron with vertex 3 as break point. -/
theorem breakFace_loops_witness :
    tetra.prev 0 = some 2 ∧ tetra.next 0 = some 1 ∧
    ∃ m', breakFace tetra (some 0) (some 0) (some 3) [] []
        = Except.ok (m', [some 12, some 13, some 1], [some 2, some 0, some 14]) ∧
      m'.rep 0 = some 2 ∧ m'.rep 4 = some 1 ∧ m'.start 14 = some 3 :=
  ⟨by decide!, by decide!, by
    obtain ⟨m', h1, -, -, -, -, -, h2, -, -, -, h3, ⟨-, -, h4⟩, -⟩ :=
      breakFace_loops tetra 0 0 3 2 1 0 1 2 (by decide!) (by decide!) (by decide!)
        (by decide!) (by decide!) (by decide!) (by decide!) (by decide!) (by decide!)
        (by decide!) (by decide!) (by decide!) (by decide!)
    exact ⟨m', h1, h2, h3, h4⟩⟩

section C17
variable {K : Type}

theorem updateHalfedge_vertices {m m' : Mesh K} {p : Option Nat} {f : Halfedge → Halfedge}
    (h : m.updateHalfedge p f = Except.ok m') : m'.vertices = m.vertices := by
  obtain ⟨i, e, -, -, rfl⟩ := updateHalfedge_eq_ok.1 h
  rfl

theorem updateFace_vertices {m m' : Mesh K} {p : Option Nat} {f : Face → Face}
    (h : m.updateFace p f = Except.ok m') : m'.vertices = m.vertices := by
  obtain ⟨i, e, -, -, rfl⟩ := updateFace_eq_ok.1 h
  rfl

theorem updateVertex_positions {m m' : Mesh K} {p : Option Nat} {f : Vertex K → Vertex K}
    (h : m.updateVertex p f = Except.ok m') (hf : ∀ v, (f v).position = v.position) :
    m'.vertices.map Vertex.position = m.vertices.map Vertex.position ∧
      m'.halfedges = m.halfedges := by
  obtain ⟨i, e, -, he, rfl⟩ := updateVertex_eq_ok.1 h
  exact ⟨map_set_of_eq Vertex.position _ _ _ (f e) he (hf e), rfl⟩

theorem newFace_vertices {m m' : Mesh K} {f : Option Nat}
    (h : newFace m = Except.ok (m', f)) : m'.vertices = m.vertices := by
  unfold newFace at h
  cases hl : m.m_lastFace with
  | none =>
    simp only [hl, pure_eq_ok, Except.ok.injEq, Prod.mk.injEq] at h
    rw [← h.1]
  | some last =>
    simp only [hl, bind_eq_ok, pure_eq_ok, Except.ok.injEq, Prod.mk.injEq] at h
    obtain ⟨m2, h2, m3, h3, h4, -⟩ := h
    rw [← h4]
    show m3.vertices = m.vertices
    rw [updateFace_vertices h3, updateFace_vertices h2]

theorem linkFaceHalfedgesLoop_vertices (l : List (Option Nat)) :
    ∀ (n i : Nat) (m m' : Mesh K), linkFaceHalfedgesLoop l n i m = Except.ok m' →
      m'.vertices = m.vertices := by
  intro n
  induction n with
  | zero =>
    intro i m m' h
    simp only [linkFaceHalfedgesLoop, pure_eq_ok, Except.ok.injEq] at h
    rw [h]
  | succ n ih =>
    intro i m m' h
    simp only [linkFaceHalfedgesLoop, bind_eq_ok] at h
    obtain ⟨hi, -, hj, -, m1, h1, m2, h2, h3⟩ := h
    rw [ih _ _ _ h3, updateHalfedge_vertices h2, updateHalfedge_vertices h1]

theorem updateFaceHalfedgesLeftFace_vertices (l : List (Option Nat)) (f : Option Nat) :
    ∀ (m m' : Mesh K), updateFaceHalfedgesLeftFace m l f = Except.ok m' →
      m'.vertices = m.vertices := by
  induction l with
  | nil =>
    intro m m' h
    simp only [updateFaceHalfedgesLeftFace, pure_eq_ok, Except.ok.injEq] at h
    rw [h]
  | cons a l ih =>
    intro m m' h
    simp only [updateFaceHalfedgesLeftFace, bind_eq_ok] at h
    obtain ⟨m1, h1, h2⟩ := h
    rw [ih _ _ h2, updateHalfedge_vertices h1]

/-- Splitting a face moves no vertex and allocates none. -/
theorem breakFace_positions {m m' : Mesh K} {L H M : Option Nat}
    {l1 l2 r1 r2 : List (Option Nat)}
    (h : breakFace m L H M l1 l2 = Except.ok (m', r1, r2)) :
    m'.vertices.map Vertex.position = m.vertices.map Vertex.position := by
  unfold breakFace at h
  simp only [bind_eq_ok, newHalfedge, pure_eq_ok, Except.ok.injEq, Prod.mk.injEq] at h
  unfold linkFaceHalfedges at h
  obtain ⟨e, -, ⟨m1, F⟩, h1, lf2, -, m2, h2, m3, h3, m4, h4, m5, h5, ln0, -, lf0, -, e0, -,
    m6, h6, ln1, -, m7, h7, m8, h8, m9, h9, lo2, -, m10, h10, m11, h11, m12, h12, lo0, -,
    m13, h13, h14, -⟩ := h
  have v1 : m1.vertices = m.vertices := newFace_vertices h1
  have v2 : m2.vertices = m1.vertices := updateFace_vertices h2
  have v3 : m3.vertices = m2.vertices := updateHalfedge_vertices h3
  have v4 : m4.vertices = m3.vertices := by
    have := linkFaceHalfedgesLoop_vertices _ _ _ _ _ h4
    exact this
  have v5 : m5.vertices = m4.vertices := updateFaceHalfedgesLeftFace_vertices _ _ _ _ h5
  have v6 : m6.vertices = m5.vertices := updateHalfedge_vertices h6
  have v7 : m7.vertices = m6.vertices := updateHalfedge_vertices h7
  have v8 : m8.vertices = m7.vertices := by
    have := linkFaceHalfedgesLoop_vertices _ _ _ _ _ h8
    exact this
  have v9 : m9.vertices = m8.vertices := updateFaceHalfedgesLeftFace_vertices _ _ _ _ h9
  have v10 : m10.vertices = m9.vertices := updateHalfedge_vertices h10
  have v11 : m11.vertices.map Vertex.position = m10.vertices.map Vertex.position := by
    exact (updateVertex_positions h11 (fun _ => rfl)).1
  have v12 : m12.vertices = m11.vertices := (linkHalfedgePair_frame h12).2.1
  have v13 : m13.vertices = m12.vertices := updateFace_vertices h13
  rw [← h14, v13, v12, v11, v10, v9, v8, v7, v6, v5, v4, v3, v2, v1]

/-- A successful `newVertex` appends one vertex at the origin and moves no other. -/
theorem newVertex_positions [Zero K] {m m1 : Mesh K} {v : Option Nat}
    (h : newVertex m = Except.ok (m1, v)) :
    v = some m.vertices.length ∧ m1.halfedges = m.halfedges ∧
      m1.vertices.map Vertex.position = m.vertices.map Vertex.position ++ [Vector3.zero] := by
  unfold newVertex at h
  cases hl : m.m_lastVertex with
  | none =>
    simp only [hl, pure_eq_ok, Except.ok.injEq, Prod.mk.injEq] at h
    obtain ⟨h1, h2⟩ := h
    rw [← h1, ← h2]
    simp
  | some last =>
    simp only [hl, bind_eq_ok, pure_eq_ok, Except.ok.injEq, Prod.mk.injEq] at h
    obtain ⟨m2, h2, m3, h3, h4, h5⟩ := h
    obtain ⟨e2, g2⟩ := updateVertex_positions h2 (fun _ => rfl)
    obtain ⟨e3, g3⟩ := updateVertex_positions h3 (fun _ => rfl)
    rw [← h4, ← h5]
    refine ⟨rfl, g3.trans g2, ?_⟩
    refine e3.trans (e2.trans ?_)
    simp

/-- On a well-formed mesh `breakEdge` runs to completion at every half-edge whose
opposite, if any, lies outside its own face loop. -/
theorem breakEdge_total [Field K] (m : Mesh K) (H : Nat) (wf : WellFormed m)
    (hH : H < m.halfedges.length)
    (hout : ∀ O ∈ m.opp H, O ≠ H ∧ m.next H ≠ some O ∧ m.prev H ≠ some O) :
    ∃ m', breakEdge m (some H) = Except.ok m' := by
  cases hO : m.opp H with
  | some O =>
    obtain ⟨h1, h2, h3⟩ := hout O hO
    obtain ⟨m', p, nx, pO, nO, L, R, hrun, -⟩ := breakEdge_opposite_post m H O wf hO h1 h2 h3
    exact ⟨m', hrun⟩
  | none =>
    obtain ⟨p, nx, L, vA, vB, e, ep, en, rA, rB, he, hep, hen, hepv, henx, hel, hes, hens,
      hrA, hrB, hpn, hpH, hHn, hLl, hcp, hcn, hlp, hln⟩ := wf.loop hH
    have heo : e.oppositeHalfedge = none := by rw [← opp_of_getElem? he]; exact hO
    obtain ⟨m2, m', hrun, -⟩ :=
      breakEdge_run_boundary m H L p nx vA vB e ep en rA rB wf.2.2.2.1 wf.2.2.2.2 he hep hen
        hepv henx hel heo hes hens hrA hrB hpn hpH hHn hLl
    exact ⟨m', hrun⟩

theorem position_lt {m : Mesh K} {v : Nat} {a : Vector3 K} (h : m.position v = some a) :
    v < m.vertices.length := by
  unfold Mesh.position at h
  cases hx : m.vertices[v]? with
  | none => rw [hx] at h; simp at h
  | some e => exact getElem?_lt hx

/-- After `newVertex` a vertex that was allocated before is read with its old
position. -/
theorem position_after_append {m m1 : Mesh K} {z : Vector3 K} {v : Nat} {a : Vector3 K}
    {r : Vertex K}
    (hmap : m1.vertices.map Vertex.position = m.vertices.map Vertex.position ++ [z])
    (hv : m.position v = some a) (hr : m1.vertices[v]? = some r) : r.position = a := by
  have hlt := position_lt hv
  have h1 := congrArg (fun l => l[v]?) hmap
  simp only [List.getElem?_map, hr, Option.map_some'] at h1
  rw [List.getElem?_append_left (by simpa using hlt), List.getElem?_map] at h1
  unfold Mesh.position at hv
  rw [hv] at h1
  exact Option.some.inj h1

/-- C17: when `breakEdge` at a half-edge `H` from `A` to `B` returns, the vertex store
is the old one with exactly one vertex appended, every old vertex is where it was and
the new vertex lies at `(position(A) + position(B)) / 2`, the positions being those
before the call; and on a well-formed mesh the call does return at every half-edge
whose opposite, if any, lies outside its own face loop.  No assumption on the
characteristic of the field is needed. -/
theorem breakEdge_midpoint [Field K] (m : Mesh K) (H A B : Nat) (a b : Vector3 K)
    (hA : m.start H = some A) (hB : m.target H = some B)
    (ha : m.position A = some a) (hb : m.position B = some b) :
    (∀ m', breakEdge m (some H) = Except.ok m' →
      m'.vertices.length = m.vertices.length + 1 ∧
      m'.vertices.map Vertex.position = m.vertices.map Vertex.position ++
        [⟨(a.x + b.x) / 2, (a.y + b.y) / 2, (a.z + b.z) / 2⟩]) ∧
    (WellFormed m → (∀ O ∈ m.opp H, O ≠ H ∧ m.next H ≠ some O ∧ m.prev H ≠ some O) →
      ∃ m', breakEdge m (some H) = Except.ok m') := by
  refine ⟨fun m' h => ?_, fun wf hout => breakEdge_total m H wf (lt_of_start hA) hout⟩
  have key : m'.vertices.map Vertex.position = m.vertices.map Vertex.position ++
      [⟨(a.x + b.x) / 2, (a.y + b.y) / 2, (a.z + b.z) / 2⟩] := by
    unfold breakEdge at h
    simp only [bind_eq_ok] at h
    obtain ⟨e, he, R, hR, ⟨m1, bp⟩, h1, e', he', ra, hra, en, hen, rb, hrb, m2, h2,
      ⟨m3, l1, l2⟩, h3, h4⟩ := h
    obtain ⟨hbp, g1, p1⟩ := newVertex_positions h1
    obtain ⟨i, hi, hi2⟩ := halfedgeAt_eq_ok.1 he'
    cases hi
    have hi3 : m.halfedges[H]? = some e' := by rw [← g1]; exact hi2
    have hs : e'.startVertex = some A := by rw [← start_of_getElem? hi3]; exact hA
    obtain ⟨j, hj, hj2⟩ := vertexAt_eq_ok.1 hra
    rw [hs] at hj
    cases hj
    have pa : ra.position = a := position_after_append p1 ha hj2
    obtain ⟨k, hk, hk2⟩ := halfedgeAt_eq_ok.1 hen
    have hk3 : m.halfedges[k]? = some en := by rw [← g1]; exact hk2
    have hnk : m.next H = some k := by rw [next_of_getElem? hi3]; exact hk
    have ht : en.startVertex = some B := by
      rw [← start_of_getElem? hk3]
      simpa [Mesh.target, hnk] using hB
    obtain ⟨j2, hj3, hj4⟩ := vertexAt_eq_ok.1 hrb
    rw [ht] at hj3
    cases hj3
    have pb : rb.position = b := position_after_append p1 hb hj4
    obtain ⟨n, w, hn, hw, rfl⟩ := updateVertex_eq_ok.1 h2
    have hn2 : n = m.vertices.length := by
      rw [hbp] at hn
      exact (Option.some.inj hn).symm
    have p2 : (m1.vertices.set n
        { w with position := (ra.position.add rb.position).scale (1 / 2) }).map Vertex.position
        = m.vertices.map Vertex.position ++
          [⟨(a.x + b.x) / 2, (a.y + b.y) / 2, (a.z + b.z) / 2⟩] := by
      rw [List.map_set, p1, hn2, pa, pb]
      have hl : (m.vertices.map Vertex.position).length = m.vertices.length := by simp
      rw [← hl, List.set_append_right _ _ (Nat.le_refl _)]
      simp [Vector3.add, Vector3.scale, div_eq_mul_inv]
    have p3 := breakFace_positions h3
    split at h4
    · simp only [bind_eq_ok] at h4
      obtain ⟨⟨m4, r1, r2⟩, h5, lo1, -, rn1, -, m5, h6, ln1, -, ro1, -, h7⟩ := h4
      rw [(linkHalfedgePair_frame h7).2.1, (linkHalfedgePair_frame h6).2.1,
        breakFace_positions h5, p3]
      exact p2
    · cases h4
      rw [p3]
      exact p2
  refine ⟨?_, key⟩
  have := congrArg List.length key
  simpa using this

end C17

/-- C17, at the tetrahedron and its first half-edge, from vertex 0 at the origin to
vertex 1 at `(1,0,0)`: the call returns and the new vertex lies at `(1/2,0,0)`. -/
theorem breakEdge_midpoint_witness :
    tetra.start 0 = some 0 ∧ tetra.target 0 = some 1 ∧
    tetra.position 0 = some ⟨0, 0, 0⟩ ∧ tetra.position 1 = some ⟨1, 0, 0⟩ ∧
    ∃ m', breakEdge tetra (some 0) = Except.ok m' ∧
      m'.vertices.length = 5 ∧
      m'.vertices.map Vertex.position =
        tetra.vertices.map Vertex.position ++ [⟨(0 + 1) / 2, (0 + 0) / 2, (0 + 0) / 2⟩] :=
  ⟨by decide!, by decide!, by decide!, by decide!, by
    have h := breakEdge_midpoint tetra 0 0 1 ⟨0, 0, 0⟩ ⟨1, 0, 0⟩ (by decide!) (by decide!)
      (by decide!) (by decide!)
    obtain ⟨m', hm⟩ := h.2 (by decide!) (by decide!)
    exact ⟨m', hm, h.1 m' hm⟩⟩

section C14
variable {K : Type}

theorem firstLiveFace_ge {m : Mesh K} {s : Nat} (h : m.faces.length ≤ s) :
    firstLiveFace m s = none ∧ liveFacesFrom m s = [] := by
  have : m.faces.length - s = 0 := by omega
  simp [firstLiveFace, liveFacesFrom, this]

theorem firstLiveFace_lt {m : Mesh K} {s : Nat} (h : s < m.faces.length) :
    firstLiveFace m s
      = (if m.faceRemoved s = some false then some s else firstLiveFace m (s + 1)) ∧
    liveFacesFrom m s
      = (if m.faceRemoved s = some false then s :: liveFacesFrom m (s + 1)
          else liveFacesFrom m (s + 1)) := by
  have e : m.faces.length - s = (m.faces.length - (s + 1)) + 1 := by omega
  unfold firstLiveFace liveFacesFrom
  rw [e, List.range'_succ]
  by_cases hl : m.faceRemoved s = some false
  · simp [hl]
  · simp [hl]

theorem faceRemoved_of_getElem? {m : Mesh K} {i : Nat} {f : Face} (h : m.faces[i]? = some f) :
    m.faceRemoved i = some f.removed := by simp [Mesh.faceRemoved, h]

theorem moveToNextFaceLoop_spec (m : Mesh K) (cf : FaceChain m) :
    ∀ (fuel f : Nat), f < m.faces.length → m.faces.length - f ≤ fuel →
      moveToNextFaceLoop m fuel (some f) = Except.ok (firstLiveFace m (f + 1)) := by
  intro fuel
  induction fuel with
  | zero => intro f h1 h2; omega
  | succ fuel ih =>
    intro f h1 h2
    have hf : m.faces[f]? = some m.faces[f] := List.getElem?_eq_getElem h1
    have hn := cf.2.2 f h1
    rw [hf] at hn
    simp only [Option.some_bind] at hn
    unfold moveToNextFaceLoop
    simp only [Mesh.faceAt, hf, ok_bind, hn]
    by_cases h3 : f + 1 < m.faces.length
    · have hg : m.faces[f + 1]? = some m.faces[f + 1] := List.getElem?_eq_getElem h3
      simp only [h3, if_true, ne_eq, not_false_eq_true, hg, ok_bind, reduceCtorEq]
      rw [(firstLiveFace_lt h3).1, faceRemoved_of_getElem? hg]
      cases hr : m.faces[f + 1].removed with
      | true =>
        simp only [if_true, Option.some.injEq, Bool.true_eq_false, if_false]
        exact ih (f + 1) h3 (by omega)
      | false => simp
    · simp only [h3, if_false, ne_eq, not_true_eq_false, pure_eq_ok]
      rw [(firstLiveFace_ge (by omega)).1]

theorem moveToNextFace_none (m : Mesh K) (cf : FaceChain m) (fuel : Nat)
    (hfuel : m.faces.length ≤ fuel) :
    moveToNextFace fuel m none = Except.ok (firstLiveFace m 0) := by
  unfold moveToNextFace
  simp only [if_true, cf.1]
  by_cases h0 : m.faces.length = 0
  · simp only [h0, if_true, pure_eq_ok]
    rw [(firstLiveFace_ge (by omega)).1]
  · have h1 : 0 < m.faces.length := by omega
    have hf : m.faces[0]? = some m.faces[0] := List.getElem?_eq_getElem h1
    simp only [h0, if_false, reduceCtorEq, Mesh.faceAt, hf, ok_bind]
    rw [(firstLiveFace_lt h1).1, faceRemoved_of_getElem? hf]
    cases hr : m.faces[0].removed with
    | true =>
      simp only [Bool.not_true, Bool.false_eq_true, if_false, Option.some.injEq,
        Bool.true_eq_false]
      exact moveToNextFaceLoop_spec m cf fuel 0 h1 (by omega)
    | false => simp

theorem moveToNextFace_some (m : Mesh K) (cf : FaceChain m) (fuel f : Nat)
    (hfuel : m.faces.length ≤ fuel) (hf : f < m.faces.length) :
    moveToNextFace fuel m (some f) = Except.ok (firstLiveFace m (f + 1)) := by
  unfold moveToNextFace
  simp only [reduceCtorEq, if_false]
  exact moveToNextFaceLoop_spec m cf fuel f hf (by omega)

theorem firstLiveFace_lt_length {m : Mesh K} {s j : Nat} (h : firstLiveFace m s = some j) :
    j < m.faces.length := by
  unfold firstLiveFace at h
  have := List.mem_of_find?_eq_some h
  simp only [List.mem_range'_1] at this
  omega

theorem iterateFaces_spec (m : Mesh K) (cf : FaceChain m) (fuel : Nat)
    (hfuel : m.faces.length ≤ fuel) :
    ∀ (k s n : Nat) (cursor : Option Nat), m.faces.length - s = k → k < n →
      moveToNextFace fuel m cursor = Except.ok (firstLiveFace m s) →
      iterateFaces fuel m n cursor = Except.ok (liveFacesFrom m s) := by
  intro k
  induction k with
  | zero =>
    intro s n cursor hk hn hc
    obtain ⟨n, rfl⟩ : ∃ n', n = n' + 1 := ⟨n - 1, by omega⟩
    obtain ⟨e1, e2⟩ := firstLiveFace_ge (m := m) (s := s) (by omega)
    unfold iterateFaces
    rw [hc, e1, e2]
    rfl
  | succ k ih =>
    intro s n cursor hk hn hc
    obtain ⟨n, rfl⟩ : ∃ n', n = n' + 1 := ⟨n - 1, by omega⟩
    have hs : s < m.faces.length := by omega
    obtain ⟨e1, e2⟩ := firstLiveFace_lt hs
    by_cases hl : m.faceRemoved s = some false
    · rw [if_pos hl] at e1 e2
      unfold iterateFaces
      rw [hc, e1, e2]
      simp only [ok_bind]
      rw [ih (s + 1) n (some s) (by omega) (by omega) (moveToNextFace_some m cf fuel s hfuel hs)]
      rfl
    · rw [if_neg hl] at e1 e2
      rw [e2]
      exact ih (s + 1) (n + 1) cursor (by omega) (by omega) (by rw [hc, e1])

theorem firstLiveVertex_ge {m : Mesh K} {s : Nat} (h : m.vertices.length ≤ s) :
    firstLiveVertex m s = none ∧ liveVerticesFrom m s = [] := by
  have : m.vertices.length - s = 0 := by omega
  simp [firstLiveVertex, liveVerticesFrom, this]

theorem firstLiveVertex_lt {m : Mesh K} {s : Nat} (h : s < m.vertices.length) :
    firstLiveVertex m s
      = (if m.vertexRemoved s = some false then some s else firstLiveVertex m (s + 1)) ∧
    liveVerticesFrom m s
      = (if m.vertexRemoved s = some false then s :: liveVerticesFrom m (s + 1)
          else liveVerticesFrom m (s + 1)) := by
  have e : m.vertices.length - s = (m.vertices.length - (s + 1)) + 1 := by omega
  unfold firstLiveVertex liveVerticesFrom
  rw [e, List.range'_succ]
  by_cases hl : m.vertexRemoved s = some false
  · simp [hl]
  · simp [hl]

theorem vertexRemoved_of_getElem? {m : Mesh K} {i : Nat} {f : Vertex K} (h : m.vertices[i]? = some f) :
    m.vertexRemoved i = some f.removed := by simp [Mesh.vertexRemoved, h]

theorem moveToNextVertexLoop_spec (m : Mesh K) (cf : VertexChain m) :
    ∀ (fuel f : Nat), f < m.vertices.length → m.vertices.length - f ≤ fuel →
      moveToNextVertexLoop m fuel (some f) = Except.ok (firstLiveVertex m (f + 1)) := by
  intro fuel
  induction fuel with
  | zero => intro f h1 h2; omega
  | succ fuel ih =>
    intro f h1 h2
    have hf : m.vertices[f]? = some m.vertices[f] := List.getElem?_eq_getElem h1
    have hn := cf.2.2 f h1
    rw [hf] at hn
    simp only [Option.some_bind] at hn
    unfold moveToNextVertexLoop
    simp only [Mesh.vertexAt, hf, ok_bind, hn]
    by_cases h3 : f + 1 < m.vertices.length
    · have hg : m.vertices[f + 1]? = some m.vertices[f + 1] := List.getElem?_eq_getElem h3
      simp only [h3, if_true, ne_eq, not_false_eq_true, hg, ok_bind, reduceCtorEq]
      rw [(firstLiveVertex_lt h3).1, vertexRemoved_of_getElem? hg]
      cases hr : m.vertices[f + 1].removed with
      | true =>
        simp only [if_true, Option.some.injEq, Bool.true_eq_false, if_false]
        exact ih (f + 1) h3 (by omega)
      | false => simp
    · simp only [h3, if_false, ne_eq, not_true_eq_false, pure_eq_ok]
      rw [(firstLiveVertex_ge (by omega)).1]

theorem moveToNextVertex_none (m : Mesh K) (cf : VertexChain m) (fuel : Nat)
    (hfuel : m.vertices.length ≤ fuel) :
    moveToNextVertex fuel m none = Except.ok (firstLiveVertex m 0) := by
  unfold moveToNextVertex
  simp only [if_true, cf.1]
  by_cases h0 : m.vertices.length = 0
  · simp only [h0, if_true, pure_eq_ok]
    rw [(firstLiveVertex_ge (by omega)).1]
  · have h1 : 0 < m.vertices.length := by omega
    have hf : m.vertices[0]? = some m.vertices[0] := List.getElem?_eq_getElem h1
    simp only [h0, if_false, reduceCtorEq, Mesh.vertexAt, hf, ok_bind]
    rw [(firstLiveVertex_lt h1).1, vertexRemoved_of_getElem? hf]
    cases hr : m.vertices[0].removed with
    | true =>
      simp only [Bool.not_true, Bool.false_eq_true, if_false, Option.some.injEq,
        Bool.true_eq_false]
      exact moveToNextVertexLoop_spec m cf fuel 0 h1 (by omega)
    | false => simp

theorem moveToNextVertex_some (m : Mesh K) (cf : VertexChain m) (fuel f : Nat)
    (hfuel : m.vertices.length ≤ fuel) (hf : f < m.vertices.length) :
    moveToNextVertex fuel m (some f) = Except.ok (firstLiveVertex m (f + 1)) := by
  unfold moveToNextVertex
  simp only [reduceCtorEq, if_false]
  exact moveToNextVertexLoop_spec m cf fuel f hf (by omega)

theorem firstLiveVertex_lt_length {m : Mesh K} {s j : Nat} (h : firstLiveVertex m s = some j) :
    j < m.vertices.length := by
  unfold firstLiveVertex at h
  have := List.mem_of_find?_eq_some h
  simp only [List.mem_range'_1] at this
  omega

theorem iterateVertices_spec (m : Mesh K) (cf : VertexChain m) (fuel : Nat)
    (hfuel : m.vertices.length ≤ fuel) :
    ∀ (k s n : Nat) (cursor : Option Nat), m.vertices.length - s = k → k < n →
      moveToNextVertex fuel m cursor = Except.ok (firstLiveVertex m s) →
      iterateVertices fuel m n cursor = Except.ok (liveVerticesFrom m s) := by
  intro k
  induction k with
  | zero =>
    intro s n cursor hk hn hc
    obtain ⟨n, rfl⟩ : ∃ n', n = n' + 1 := ⟨n - 1, by omega⟩
    obtain ⟨e1, e2⟩ := firstLiveVertex_ge (m := m) (s := s) (by omega)
    unfold iterateVertices
    rw [hc, e1, e2]
    rfl
  | succ k ih =>
    intro s n cursor hk hn hc
    obtain ⟨n, rfl⟩ : ∃ n', n = n' + 1 := ⟨n - 1, by omega⟩
    have hs : s < m.vertices.length := by omega
    obtain ⟨e1, e2⟩ := firstLiveVertex_lt hs
    by_cases hl : m.vertexRemoved s = some false
    · rw [if_pos hl] at e1 e2
      unfold iterateVertices
      rw [hc, e1, e2]
      simp only [ok_bind]
      rw [ih (s + 1) n (some s) (by omega) (by omega) (moveToNextVertex_some m cf fuel s hfuel hs)]
      rfl
    · rw [if_neg hl] at e1 e2
      rw [e2]
      exact ih (s + 1) (n + 1) cursor (by omega) (by omega) (by rw [hc, e1])

theorem empty_chains : FaceChain (Mesh.empty K) ∧ VertexChain (Mesh.empty K) := by
  constructor
  · refine ⟨rfl, rfl, fun i hi => ?_⟩
    simp [Mesh.empty] at hi
  · refine ⟨rfl, rfl, fun i hi => ?_⟩
    simp [Mesh.empty] at hi

/-- The only writer of the face links keeps them in order. -/
theorem newFace_faceChain {m m' : Mesh K} {f : Option Nat} (cf : FaceChain m)
    (h : newFace m = Except.ok (m', f)) : FaceChain m' := by
  obtain ⟨c1, c2, c3⟩ := cf
  unfold newFace at h
  by_cases h0 : m.faces.length = 0
  · rw [if_pos h0] at c2
    simp only [c2, pure_eq_ok, Except.ok.injEq, Prod.mk.injEq] at h
    obtain ⟨rfl, -⟩ := h
    have hnil : m.faces = [] := List.length_eq_zero.1 h0
    refine ⟨?_, ?_, fun i hi => ?_⟩
    · simp [h0]
    · simp [h0]
    · simp only [hnil, List.nil_append, List.length_singleton, Nat.lt_one_iff] at hi
      subst hi
      simp [hnil]
  · rw [if_neg h0] at c2
    have hlt : m.faces.length - 1 < m.faces.length := by omega
    have hne : m.faces.length - 1 ≠ m.faces.length := by omega
    simp only [c2, bind_eq_ok, pure_eq_ok, Except.ok.injEq, Prod.mk.injEq] at h
    obtain ⟨m2, h2, m3, h3, rfl, -⟩ := h
    obtain ⟨i2, w2, hi2, hw2, rfl⟩ := updateFace_eq_ok.1 h2
    obtain ⟨i3, w3, hi3, hw3, rfl⟩ := updateFace_eq_ok.1 h3
    cases hi2
    cases hi3
    have hw3n : w3.nextFace = none := by
      simp only [List.getElem?_set, hne, if_false] at hw3
      rw [List.getElem?_append_right (Nat.le_refl _)] at hw3
      simp only [Nat.sub_self, List.getElem?_cons_zero, Option.some.injEq] at hw3
      rw [← hw3]
    clear hw2 hw3 h2 h3
    refine ⟨?_, ?_, fun i hi => ?_⟩
    · simp [c1, h0]
    · simp
    · simp only [List.length_set, List.length_append, List.length_singleton] at hi ⊢
      by_cases e1 : i = m.faces.length
      · subst e1
        rw [List.getElem?_set_eq (by simp)]
        simp [hw3n]
      · by_cases e2 : i = m.faces.length - 1
        · subst e2
          rw [List.getElem?_set_ne (Ne.symm e1), List.getElem?_set_eq (by simp; omega)]
          have h5 : m.faces.length - 1 + 1 < m.faces.length + 1 := by omega
          have h6 : m.faces.length - 1 + 1 = m.faces.length := by omega
          simp only [Option.some_bind, h6]
          rw [if_pos (Nat.lt_succ_self _)]
        · have hi2 : i < m.faces.length := by omega
          have hi3 : i + 1 < m.faces.length := by omega
          have hi4 : i + 1 < m.faces.length + 1 := by omega
          rw [List.getElem?_set_ne (Ne.symm e1), List.getElem?_set_ne (Ne.symm e2),
            List.getElem?_append_left hi2, c3 i hi2, if_pos hi3, if_pos hi4]

/-- The only writer of the vertex links keeps them in order. -/
theorem newVertex_vertexChain [Zero K] {m m' : Mesh K} {f : Option Nat} (cf : VertexChain m)
    (h : newVertex m = Except.ok (m', f)) : VertexChain m' := by
  obtain ⟨c1, c2, c3⟩ := cf
  unfold newVertex at h
  by_cases h0 : m.vertices.length = 0
  · rw [if_pos h0] at c2
    simp only [c2, pure_eq_ok, Except.ok.injEq, Prod.mk.injEq] at h
    obtain ⟨rfl, -⟩ := h
    have hnil : m.vertices = [] := List.length_eq_zero.1 h0
    refine ⟨?_, ?_, fun i hi => ?_⟩
    · simp [h0]
    · simp [h0]
    · simp only [hnil, List.nil_append, List.length_singleton, Nat.lt_one_iff] at hi
      subst hi
      simp [hnil]
  · rw [if_neg h0] at c2
    have hlt : m.vertices.length - 1 < m.vertices.length := by omega
    have hne : m.vertices.length - 1 ≠ m.vertices.length := by omega
    simp only [c2, bind_eq_ok, pure_eq_ok, Except.ok.injEq, Prod.mk.injEq] at h
    obtain ⟨m2, h2, m3, h3, rfl, -⟩ := h
    obtain ⟨i2, w2, hi2, hw2, rfl⟩ := updateVertex_eq_ok.1 h2
    obtain ⟨i3, w3, hi3, hw3, rfl⟩ := updateVertex_eq_ok.1 h3
    cases hi2
    cases hi3
    have hw3n : w3.nextVertex = none := by
      simp only [List.getElem?_set, hne, if_false] at hw3
      rw [List.getElem?_append_right (Nat.le_refl _)] at hw3
      simp only [Nat.sub_self, List.getElem?_cons_zero, Option.some.injEq] at hw3
      rw [← hw3]
    clear hw2 hw3 h2 h3
    refine ⟨?_, ?_, fun i hi => ?_⟩
    · simp [c1, h0]
    · simp
    · simp only [List.length_set, List.length_append, List.length_singleton] at hi ⊢
      by_cases e1 : i = m.vertices.length
      · subst e1
        rw [List.getElem?_set_eq (by simp)]
        simp [hw3n]
      · by_cases e2 : i = m.vertices.length - 1
        · subst e2
          rw [List.getElem?_set_ne (Ne.symm e1), List.getElem?_set_eq (by simp; omega)]
          have h5 : m.vertices.length - 1 + 1 < m.vertices.length + 1 := by omega
          have h6 : m.vertices.length - 1 + 1 = m.vertices.length := by omega
          simp only [Option.some_bind, h6]
          rw [if_pos (Nat.lt_succ_self _)]
        · have hi2 : i < m.vertices.length := by omega
          have hi3 : i + 1 < m.vertices.length := by omega
          have hi4 : i + 1 < m.vertices.length + 1 := by omega
          rw [List.getElem?_set_ne (Ne.symm e1), List.getElem?_set_ne (Ne.symm e2),
            List.getElem?_append_left hi2, c3 i hi2, if_pos hi3, if_pos hi4]

theorem firstLiveFace_eq_some {m : Mesh K} {s j : Nat} :
    firstLiveFace m s = some j ↔
      s ≤ j ∧ j < m.faces.length ∧ m.faceRemoved j = some false ∧
        ∀ i, s ≤ i → i < j → m.faceRemoved i ≠ some false := by
  unfold firstLiveFace
  rw [List.find?_range'_eq_some]
  simp only [decide_eq_true_eq, List.mem_range'_1, Bool.not_eq_true', decide_eq_false_iff_not]
  constructor
  · rintro ⟨h1, ⟨h2, h3⟩, h4⟩
    exact ⟨h2, by omega, h1, h4⟩
  · rintro ⟨h1, h2, h3, h4⟩
    exact ⟨h3, ⟨h1, by omega⟩, h4⟩

theorem firstLiveVertex_eq_some {m : Mesh K} {s j : Nat} :
    firstLiveVertex m s = some j ↔
      s ≤ j ∧ j < m.vertices.length ∧ m.vertexRemoved j = some false ∧
        ∀ i, s ≤ i → i < j → m.vertexRemoved i ≠ some false := by
  unfold firstLiveVertex
  rw [List.find?_range'_eq_some]
  simp only [decide_eq_true_eq, List.mem_range'_1, Bool.not_eq_true', decide_eq_false_iff_not]
  constructor
  · rintro ⟨h1, ⟨h2, h3⟩, h4⟩
    exact ⟨h2, by omega, h1, h4⟩
  · rintro ⟨h1, h2, h3, h4⟩
    exact ⟨h3, ⟨h1, by omega⟩, h4⟩

/-- C14: on a mesh whose allocation lists are linked the way `newFace` and `newVertex`
link them, and with fuel for one pass over the list, `moveToNextFace(nullptr)` returns
the first face in allocation order that is not removed and `moveToNextFace(f)` the
first such face strictly after `f` (`none` when there is none; a face returned is
never removed and no live face is skipped); iterating from `nullptr` until `nullptr`
yields exactly the faces that are not removed, each once, in allocation order.  The
same holds for `moveToNextVertex`. -/
theorem moveToNext_skips_removed (m : Mesh K) (fuel : Nat)
    (cf : FaceChain m) (cv : VertexChain m)
    (hf : m.faces.length ≤ fuel) (hv : m.vertices.length ≤ fuel) :
    (moveToNextFace fuel m none = Except.ok (firstLiveFace m 0) ∧
      (∀ f < m.faces.length,
        moveToNextFace fuel m (some f) = Except.ok (firstLiveFace m (f + 1))) ∧
      (∀ s j, firstLiveFace m s = some j ↔
        s ≤ j ∧ j < m.faces.length ∧ m.faceRemoved j = some false ∧
          ∀ i, s ≤ i → i < j → m.faceRemoved i ≠ some false) ∧
      iterateFaces fuel m (m.faces.length + 1) none
        = Except.ok ((List.range m.faces.length).filter
            (fun j => decide (m.faceRemoved j = some false)))) ∧
    (moveToNextVertex fuel m none = Except.ok (firstLiveVertex m 0) ∧
      (∀ v < m.vertices.length,
        moveToNextVertex fuel m (some v) = Except.ok (firstLiveVertex m (v + 1))) ∧
      (∀ s j, firstLiveVertex m s = some j ↔
        s ≤ j ∧ j < m.vertices.length ∧ m.vertexRemoved j = some false ∧
          ∀ i, s ≤ i → i < j → m.vertexRemoved i ≠ some false) ∧
      iterateVertices fuel m (m.vertices.length + 1) none
        = Except.ok ((List.range m.vertices.length).filter
            (fun j => decide (m.vertexRemoved j = some false)))) := by
  refine ⟨⟨moveToNextFace_none m cf fuel hf,
      fun f h => moveToNextFace_some m cf fuel f hf h,
      fun s j => firstLiveFace_eq_some, ?_⟩,
    ⟨moveToNextVertex_none m cv fuel hv,
      fun v h => moveToNextVertex_some m cv fuel v hv h,
      fun s j => firstLiveVertex_eq_some, ?_⟩⟩
  · rw [iterateFaces_spec m cf fuel hf m.faces.length 0 (m.faces.length + 1) none rfl
      (Nat.lt_succ_self _) (moveToNextFace_none m cf fuel hf)]
    simp [liveFacesFrom, List.range_eq_range']
  · rw [iterateVertices_spec m cv fuel hv m.vertices.length 0 (m.vertices.length + 1) none rfl
      (Nat.lt_succ_self _) (moveToNextVertex_none m cv fuel hv)]
    simp [liveVerticesFrom, List.range_eq_range']

end C14

/-- C14, at the tetrahedron after a collapse, where faces 0 and 1 are removed: the
iteration yields faces 2 and 3 and all four vertices. -/
theorem moveToNext_skips_removed_witness :
    FaceChain tetraCollapsed ∧ VertexChain tetraCollapsed ∧
    tetraCollapsed.faces.map Face.removed = [true, true, false, false] ∧
    moveToNextFace 4 tetraCollapsed none = Except.ok (some 2) ∧
    moveToNextFace 4 tetraCollapsed (some 2) = Except.ok (some 3) ∧
    moveToNextFace 4 tetraCollapsed (some 3) = Except.ok none ∧
    iterateFaces 4 tetraCollapsed (tetraCollapsed.faces.length + 1) none = Except.ok [2, 3] ∧
    iterateVertices 4 tetraCollapsed (tetraCollapsed.vertices.length + 1) none
      = Except.ok [0, 1, 2, 3] := by
  have h := moveToNext_skips_removed tetraCollapsed 4 (by decide!) (by decide!) (by decide!)
    (by decide!)
  refine ⟨by decide!, by decide!, by decide!, ?_, ?_, ?_, ?_, ?_⟩
  · rw [h.1.1]; decide!
  · rw [h.1.2.1 2 (by decide!)]; decide!
  · rw [h.1.2.1 3 (by decide!)]; decide!
  · refine h.1.2.2.2.trans ?_
    decide!
  · refine h.2.2.2.2.trans ?_
    decide!

section C19
variable {K : Type}

theorem fanIter_none_succ {m : Mesh K} {h : Nat} :
    ∀ (i d : Nat), m.fanIter h i = none → m.fanIter h (i + d) = none := by
  intro i d hi
  induction d with
  | zero => exact hi
  | succ d ih =>
    show (m.fanIter h (i + d)).bind m.fanNext = none
    rw [ih]
    rfl

theorem fanIter_isSome {m : Mesh K} {h k : Nat} (hk : m.fanIter h k = some h) :
    ∀ i, i ≤ k → ∃ g, m.fanIter h i = some g := by
  intro i hi
  cases hg : m.fanIter h i with
  | some g => exact ⟨g, rfl⟩
  | none =>
    have := fanIter_none_succ i (k - i) hg
    rw [show i + (k - i) = k by omega, hk] at this
    cases this

theorem views_of_maps {m m0 : Mesh K}
    (hn : m.halfedges.map Halfedge.nextHalfedge = m0.halfedges.map Halfedge.nextHalfedge)
    (ho : m.halfedges.map Halfedge.oppositeHalfedge
      = m0.halfedges.map Halfedge.oppositeHalfedge) :
    (∀ j, m.next j = m0.next j) ∧ (∀ j, m.opp j = m0.opp j) :=
  ⟨fun j => bind_getElem?_of_map_eq hn j, fun j => bind_getElem?_of_map_eq ho j⟩

/-- The walk of lines 320-330 around a closed fan of at most 21 half-edges: started at
step `i` of the fan with the counter at `i`, it runs to the end without `abort`, writes
`replacement` into the start of each half-edge it passes and touches nothing else. -/
theorem pointerVertexLoopOpposite_closed (m0 : Mesh K) (replacement : Option Nat)
    (h0 k : Nat) (hk : k ≤ 21) (cf : ClosedFan m0 h0 k) :
    ∀ (r i fuel : Nat) (m : Mesh K) (h : Nat), r + i = k → 0 < r → r ≤ fuel →
      m.halfedges.map Halfedge.nextHalfedge = m0.halfedges.map Halfedge.nextHalfedge →
      m.halfedges.map Halfedge.oppositeHalfedge
        = m0.halfedges.map Halfedge.oppositeHalfedge →
      m.vertices = m0.vertices → m.faces = m0.faces →
      (∀ g, (∃ j < i, m0.fanIter h0 j = some g) → m.start g = replacement) →
      (∀ g, (∀ j < i, m0.fanIter h0 j ≠ some g) → m.start g = m0.start g) →
      m0.fanIter h0 i = some h →
      ∃ m', pointerVertexLoopOpposite replacement (some h0) fuel m (some h) i = Except.ok m' ∧
        m'.halfedges.map Halfedge.nextHalfedge = m0.halfedges.map Halfedge.nextHalfedge ∧
        m'.halfedges.map Halfedge.oppositeHalfedge
          = m0.halfedges.map Halfedge.oppositeHalfedge ∧
        m'.vertices = m0.vertices ∧ m'.faces = m0.faces ∧
        (∀ g, (∃ j < k, m0.fanIter h0 j = some g) → m'.start g = replacement) ∧
        (∀ g, (∀ j < k, m0.fanIter h0 j ≠ some g) → m'.start g = m0.start g) := by
  intro r
  induction r with
  | zero => intro i fuel m h _ hr; omega
  | succ r ih =>
    intro i fuel m h hri _ hfuel hn ho hv hf i2 i3 hh
    obtain ⟨fuel, rfl⟩ : ∃ f', fuel = f' + 1 := ⟨fuel - 1, by omega⟩
    obtain ⟨g1, hg1⟩ := fanIter_isSome cf.2.1 (i + 1) (by omega)
    have hstep : (m0.opp h).bind m0.next = some g1 := by
      have : m0.fanIter h0 (i + 1) = (m0.fanIter h0 i).bind m0.fanNext := rfl
      rw [this, hh] at hg1
      exact hg1
    obtain ⟨o, ho1, ho2⟩ : ∃ o, m0.opp h = some o ∧ m0.next o = some g1 := by
      cases hx : m0.opp h with
      | none => rw [hx] at hstep; cases hstep
      | some o => rw [hx] at hstep; exact ⟨o, rfl, hstep⟩
    have hlt : h < m0.halfedges.length := lt_of_opp ho1
    have hlen : m.halfedges.length = m0.halfedges.length := by
      have := congrArg List.length hn
      simpa using this
    have hlt2 : h < m.halfedges.length := by omega
    have he : m.halfedges[h]? = some m.halfedges[h] := List.getElem?_eq_getElem hlt2
    obtain ⟨vn, vo⟩ := views_of_maps hn ho
    -- the mesh after the write
    obtain ⟨m1, hm1⟩ : ∃ m1 : Mesh K, m1 = { m with halfedges :=
        (m.halfedges.set h { m.halfedges[h] with startVertex := replacement }) } := ⟨_, rfl⟩
    have hn1 : m1.halfedges.map Halfedge.nextHalfedge
        = m0.halfedges.map Halfedge.nextHalfedge := by
      rw [hm1, ← hn]
      exact map_set_of_eq Halfedge.nextHalfedge _ _ _ _ he rfl
    have ho3 : m1.halfedges.map Halfedge.oppositeHalfedge
        = m0.halfedges.map Halfedge.oppositeHalfedge := by
      rw [hm1, ← ho]
      exact map_set_of_eq Halfedge.oppositeHalfedge _ _ _ _ he rfl
    obtain ⟨vn1, vo1⟩ := views_of_maps hn1 ho3
    have hs1 : ∀ g, m1.start g = if g = h then replacement else m.start g := by
      intro g
      rw [hm1]
      simp only [Mesh.start, List.getElem?_set]
      by_cases hgh : h = g
      · subst hgh
        simp [hlt2]
      · simp [hgh, Ne.symm hgh]
    have hl1 : m1.halfedges[h]? = some { m.halfedges[h] with startVertex := replacement } := by
      rw [hm1]
      simp [List.getElem?_set, hlt2]
    have hoo : (m.halfedges[h]).oppositeHalfedge = some o := by
      rw [← opp_of_getElem? he, vo, ho1]
    have hlo : o < m1.halfedges.length := lt_of_next (by rw [vn1]; exact ho2)
    have heo : m1.halfedges[o]? = some m1.halfedges[o] := List.getElem?_eq_getElem hlo
    have hon : (m1.halfedges[o]).nextHalfedge = some g1 := by
      rw [← next_of_getElem? heo, vn1, ho2]
    have i2' : ∀ g, (∃ j < i + 1, m0.fanIter h0 j = some g) → m1.start g = replacement := by
      rintro g ⟨j, hj, hjg⟩
      rw [hs1]
      by_cases hgh : g = h
      · simp [hgh]
      · rw [if_neg hgh]
        have : j ≠ i := by
          intro hji
          rw [hji, hh] at hjg
          exact hgh (Option.some.inj hjg).symm
        exact i2 g ⟨j, by omega, hjg⟩
    have i3' : ∀ g, (∀ j < i + 1, m0.fanIter h0 j ≠ some g) → m1.start g = m0.start g := by
      intro g hg
      rw [hs1]
      have hgh : g ≠ h := by
        intro hgh
        exact hg i (by omega) (by rw [hh, hgh])
      rw [if_neg hgh]
      exact i3 g (fun j hj => hg j (by omega))
    have hcount : ¬ i > 20 := by omega
    unfold pointerVertexLoopOpposite
    rw [updateHalfedge_of_get _ he]
    simp only [ok_bind]
    rw [← hm1, halfedgeAt_of_get hl1]
    simp only [ok_bind, hoo, reduceCtorEq, if_false]
    rw [halfedgeAt_of_get heo]
    simp only [ok_bind, hon, hcount, if_false]
    by_cases hlast : i + 1 = k
    · have : g1 = h0 := by
        rw [hlast, cf.2.1] at hg1
        exact (Option.some.inj hg1).symm
      subst this
      simp only [ne_eq, not_true_eq_false, if_false, pure_eq_ok]
      refine ⟨m1, rfl, hn1, ho3, ?_, ?_, ?_, ?_⟩
      · rw [hm1]; exact hv
      · rw [hm1]; exact hf
      · rw [← hlast]; exact i2'
      · rw [← hlast]; exact i3'
    · have hne : g1 ≠ h0 := by
        intro hc
        rcases cf.2.2 (i + 1) (by omega) with h1 | h1
        · omega
        · exact h1 (by rw [hg1, hc])
      have hne2 : (some g1 : Option Nat) ≠ some h0 := fun hc => hne (Option.some.inj hc)
      simp only [ne_eq, hne2, not_false_eq_true, if_true]
      exact ih (i + 1) fuel m1 g1 (by omega) (by omega) (by omega) hn1 ho3
        (by rw [hm1]; exact hv) (by rw [hm1]; exact hf) i2' i3' hg1

end C19

section ConstructFace
variable {K : Type}

theorem faceAt_of_get {m : Mesh K} {i : Nat} {v : Face}
    (h : m.faces[i]? = some v) : m.faceAt (some i) = Except.ok v := by
  simp [Mesh.faceAt, h]

/-- The guarded write `if (nullptr == f->halfedge) f->halfedge = h`. -/
theorem cond_updateFace {m : Mesh K} {F : Nat} {f : Face} (h : Option Nat)
    (hf : m.faces[F]? = some f) :
    (if f.halfedge = none then m.updateFace (some F) (fun f => { f with halfedge := h })
      else Except.ok m) = Except.ok { m with faces := (m.faces.modify
        (fun f => if f.halfedge = none then { f with halfedge := h } else f) F) } := by
  have hl := getElem?_lt hf
  have key : m.faces.modify (fun f => if f.halfedge = none then { f with halfedge := h } else f) F
      = m.faces.set F (if f.halfedge = none then { f with halfedge := h } else f) := by
    apply List.ext_getElem?
    intro j
    rw [List.getElem?_set, List.getElem?_modify]
    by_cases hij : F = j
    · subst hij; simp [hl, hf]
    · simp [hij]
  rw [key]
  by_cases hc : f.halfedge = none
  · simp only [hc, if_true]
    rw [updateFace_of_get _ hf]
  · simp only [hc, if_false]
    have hs : m.faces.set F f = m.faces := by
      apply List.ext_getElem?
      intro j
      rw [List.getElem?_set]
      by_cases hij : F = j
      · subst hij; simp [hl, hf]
      · simp [hij]
    rw [hs]

/-- The guarded write `if (nullptr == v->firstHalfedge) v->firstHalfedge = h`. -/
theorem cond_updateVertex {m : Mesh K} {x : Nat} {v : Vertex K} (h : Option Nat)
    (hv : m.vertices[x]? = some v) :
    (if v.firstHalfedge = none then
        m.updateVertex (some x) (fun v => { v with firstHalfedge := h })
      else Except.ok m) = Except.ok { m with vertices := (m.vertices.modify
        (fun v => if v.firstHalfedge = none then { v with firstHalfedge := h } else v) x) } := by
  have hl := getElem?_lt hv
  have key : m.vertices.modify
      (fun v => if v.firstHalfedge = none then { v with firstHalfedge := h } else v) x
      = m.vertices.set x (if v.firstHalfedge = none then { v with firstHalfedge := h } else v) := by
    apply List.ext_getElem?
    intro j
    rw [List.getElem?_set, List.getElem?_modify]
    by_cases hij : x = j
    · subst hij; simp [hl, hv]
    · simp [hij]
  rw [key]
  by_cases hc : v.firstHalfedge = none
  · simp only [hc, if_true]
    rw [updateVertex_of_get _ hv]
  · simp only [hc, if_false]
    have hs : m.vertices.set x v = m.vertices := by
      apply List.ext_getElem?
      intro j
      rw [List.getElem?_set]
      by_cases hij : x = j
      · subst hij; simp [hl, hv]
      · simp [hij]
    rw [hs]

/-- One round of the constructor's loop over `i`, written out. -/
theorem constructHalfedge_run (mk : Nat → Nat → Nat) (hv hf : List (Option Nat))
    (F : Nat) (indices : List Nat) (i first second : Nat) (s : BuildState K)
    (h1 : indices[i]? = some first) (h2 : indices[(i + 1) % 3]? = some second)
    (hvx : hv[first]? = some (some first)) (hfF : hf[F]? = some (some F))
    (hxl : first < s.mesh.vertices.length) (hFl : F < s.mesh.faces.length) :
    constructHalfedge mk hv hf F indices i s = Except.ok
      { mesh :=
          { s.mesh with
            halfedges := ((s.mesh.halfedges ++
              [{ startVertex := some first, leftFace := some F, previousHalfedge := none,
                 nextHalfedge := none, oppositeHalfedge := none,
                 debugIndex := s.mesh.m_debugHalfedgeIndex + 1 }]))
            faces := (s.mesh.faces.modify (fun f =>
              if f.halfedge = none then { f with halfedge := some s.mesh.halfedges.length }
              else f) F)
            vertices := (s.mesh.vertices.modify (fun v =>
              if v.firstHalfedge = none then
                { v with firstHalfedge := some s.mesh.halfedges.length }
              else v) first)
            m_debugHalfedgeIndex := s.mesh.m_debugHalfedgeIndex + 1 },
        halfedgeMap := (mapInsert s.halfedgeMap (mk first second)
          (some s.mesh.halfedges.length)).1,
        halfedges := s.halfedges.set i (some s.mesh.halfedges.length) } := by
  unfold constructHalfedge
  simp only [h1, h2, pure_eq_ok, ok_bind, vectorAt, hvx, hfF, newHalfedge]
  rw [updateHalfedge_modify _ (by simp)]
  simp only [ok_bind]
  rw [updateHalfedge_modify _ (by simp)]
  simp only [ok_bind]
  rw [halfedgeAt_of_get
    (e := ⟨some first, some F, none, none, none, s.mesh.m_debugHalfedgeIndex + 1⟩) (by
      simp only [List.getElem?_modify_eq, List.getElem?_concat_length, Option.map_eq_map,
        Option.map_some'])]
  simp only [ok_bind]
  rw [faceAt_of_get (by exact List.getElem?_eq_getElem hFl)]
  simp only [ok_bind]
  rw [cond_updateFace _ (by exact List.getElem?_eq_getElem hFl)]
  simp only [ok_bind]
  rw [vertexAt_of_get (by exact List.getElem?_eq_getElem hxl)]
  simp only [ok_bind]
  rw [cond_updateVertex _ (by exact List.getElem?_eq_getElem hxl)]
  simp only [ok_bind]
  congr 3
  apply List.ext_getElem?
  intro j
  simp only [List.getElem?_modify, List.getElem?_append, List.length_append, List.length_cons,
    List.length_nil]
  by_cases hj : j < s.mesh.halfedges.length
  · have : s.mesh.halfedges.length ≠ j := by omega
    simp [hj, this]
  · by_cases hj2 : j = s.mesh.halfedges.length
    · subst hj2; simp
    · have : s.mesh.halfedges.length ≠ j := fun h => hj2 h.symm
      simp only [hj, this, if_false]
      rw [List.getElem?_eq_none (by simp only [List.length_singleton]; omega),
        List.getElem?_eq_none (by simp only [List.length_singleton]; omega)]
      rfl

/-- Six writes at the three slots appended last leave the older slots alone. -/
theorem modify_appended_three {α : Type} (l : List α) (a b c : α) (f1 f2 f3 f4 f5 f6 : α → α) :
    ((((((l ++ [a] ++ [b] ++ [c]).modify f1 l.length).modify f2 (l.length + 1)).modify f3
      (l.length + 1)).modify f4 (l.length + 2)).modify f5 (l.length + 2)).modify f6 l.length
      = l ++ [f6 (f1 a), f3 (f2 b), f5 (f4 c)] := by
  apply List.ext_getElem?
  intro j
  by_cases h0 : j < l.length
  · simp (disch := first | omega | (simp only [List.length_modify, List.length_append,
      List.length_cons, List.length_nil]; omega)) only [List.getElem?_modify_ne,
      List.getElem?_append_left]
  · by_cases h1 : j = l.length
    · subst h1
      simp (disch := first | omega | (simp only [List.length_modify, List.length_append,
        List.length_cons, List.length_nil]; omega)) only [List.getElem?_modify_ne,
        List.getElem?_modify_eq, List.getElem?_append_left, List.getElem?_append_right,
        Nat.sub_self, List.getElem?_cons_zero, Option.map_some', Option.map_eq_map]
    · by_cases h2 : j = l.length + 1
      · subst h2
        simp (disch := first | omega | (simp only [List.length_modify, List.length_append,
          List.length_cons, List.length_nil]; omega)) only [List.getElem?_modify_ne,
          List.getElem?_modify_eq, List.getElem?_append_left, List.getElem?_append_right,
          Nat.sub_self, List.getElem?_cons_zero, Option.map_some', List.length_append,
          List.length_cons, List.length_nil, Nat.add_sub_cancel_left,
          List.getElem?_cons_succ, Option.map_eq_map]
      · by_cases h3 : j = l.length + 2
        · subst h3
          simp (disch := first | omega | (simp only [List.length_modify, List.length_append,
            List.length_cons, List.length_nil]; omega)) only [List.getElem?_modify_ne,
            List.getElem?_modify_eq, List.getElem?_append_left, List.getElem?_append_right,
            Nat.sub_self, List.getElem?_cons_zero, Option.map_some', List.length_append,
            List.length_cons, List.length_nil, Nat.add_sub_cancel_left,
            List.getElem?_cons_succ, Option.map_eq_map]
        · rw [List.getElem?_eq_none (by
            simp only [List.length_modify, List.length_append, List.length_cons,
              List.length_nil]; omega),
            List.getElem?_eq_none (by
            simp only [List.length_append, List.length_cons, List.length_nil]; omega)]

/-- One round of the loop over `i`, by components. -/
theorem constructHalfedge_step (mk : Nat → Nat → Nat) (hv hf : List (Option Nat))
    (F : Nat) (indices : List Nat) (i first second : Nat) (s : BuildState K)
    (h1 : indices[i]? = some first) (h2 : indices[(i + 1) % 3]? = some second)
    (hvx : hv[first]? = some (some first)) (hfF : hf[F]? = some (some F))
    (hxl : first < s.mesh.vertices.length) (hFl : F < s.mesh.faces.length) :
    ∃ s', constructHalfedge mk hv hf F indices i s = Except.ok s' ∧
      s'.mesh.halfedges = s.mesh.halfedges ++
        [{ startVertex := some first, leftFace := some F, previousHalfedge := none,
           nextHalfedge := none, oppositeHalfedge := none,
           debugIndex := s.mesh.m_debugHalfedgeIndex + 1 }] ∧
      s'.mesh.faces = s.mesh.faces.modify (fun f =>
        if f.halfedge = none then { f with halfedge := some s.mesh.halfedges.length }
        else f) F ∧
      s'.mesh.vertices = s.mesh.vertices.modify (fun v =>
        if v.firstHalfedge = none then { v with firstHalfedge := some s.mesh.halfedges.length }
        else v) first ∧
      s'.mesh.m_debugHalfedgeIndex = s.mesh.m_debugHalfedgeIndex + 1 ∧
      s'.mesh.m_lastVertex = s.mesh.m_lastVertex ∧ s'.mesh.m_lastFace = s.mesh.m_lastFace ∧
      s'.mesh.m_firstVertex = s.mesh.m_firstVertex ∧
      s'.mesh.m_firstFace = s.mesh.m_firstFace ∧
      s'.halfedgeMap = (mapInsert s.halfedgeMap (mk first second)
        (some s.mesh.halfedges.length)).1 ∧
      s'.halfedges = s.halfedges.set i (some s.mesh.halfedges.length) :=
  ⟨_, constructHalfedge_run mk hv hf F indices i first second s h1 h2 hvx hfF hxl hFl,
    rfl, rfl, rfl, rfl, rfl, rfl, rfl, rfl, rfl, rfl⟩

theorem map_modify_cond_face (l : List Face) (F : Nat) (h : Option Nat) :
    (l.modify (fun f => if f.halfedge = none then { f with halfedge := h } else f) F).map
      Face.removed = l.map Face.removed := by
  rw [map_modify_of_eq Face.removed]
  intro a
  by_cases hc : a.halfedge = none <;> simp [hc]

theorem map_modify_cond_vertex {β : Type} (g : Vertex K → β)
    (hg : ∀ v x, g { v with firstHalfedge := x } = g v) (l : List (Vertex K)) (i : Nat)
    (h : Option Nat) :
    (l.modify (fun v => if v.firstHalfedge = none then { v with firstHalfedge := h } else v)
      i).map g = l.map g := by
  rw [map_modify_of_eq g]
  intro a
  by_cases hc : a.firstHalfedge = none <;> simp [hc, hg]

/-- What lines 56-81 do for a triangle. -/
theorem constructFace_triangle (mk : Nat → Nat → Nat) (hv hf : List (Option Nat))
    (F x y z : Nat) (m : Mesh K) (map : List (Nat × Option Nat))
    (hvx : hv[x]? = some (some x)) (hvy : hv[y]? = some (some y))
    (hvz : hv[z]? = some (some z)) (hfF : hf[F]? = some (some F))
    (hxl : x < m.vertices.length) (hyl : y < m.vertices.length) (hzl : z < m.vertices.length)
    (hFl : F < m.faces.length) :
    ∃ m', constructFace mk hv hf F [x, y, z] m map
        = Except.ok (m', insertTriangle mk map m.halfedges.length x y z) ∧
      m'.halfedges = m.halfedges ++
        triangleHalfedges m.halfedges.length F m.m_debugHalfedgeIndex x y z ∧
      m'.m_debugHalfedgeIndex = m.m_debugHalfedgeIndex + 3 ∧
      m'.faces.length = m.faces.length ∧
      m'.faces.map Face.removed = m.faces.map Face.removed ∧
      (∀ j, j ≠ F → m'.rep j = m.rep j) ∧
      (m.rep F = none → m'.rep F = some m.halfedges.length) ∧
      m'.vertices.length = m.vertices.length ∧
      m'.vertices.map Vertex.position = m.vertices.map Vertex.position ∧
      m'.vertices.map Vertex.removed = m.vertices.map Vertex.removed := by
  obtain ⟨s1, r1, e1, f1, v1, d1, -, -, -, -, p1, l1⟩ :=
    constructHalfedge_step mk hv hf F [x, y, z] 0 x y
      { mesh := m, halfedgeMap := map, halfedges := List.replicate 3 none }
      rfl rfl hvx hfF hxl hFl
  obtain ⟨s2, r2, e2, f2, v2, d2, -, -, -, -, p2, l2⟩ :=
    constructHalfedge_step mk hv hf F [x, y, z] 1 y z s1
      rfl rfl hvy hfF (by rw [v1, List.length_modify]; exact hyl)
      (by rw [f1, List.length_modify]; exact hFl)
  obtain ⟨s3, r3, e3, f3, v3, d3, -, -, -, -, p3, l3⟩ :=
    constructHalfedge_step mk hv hf F [x, y, z] 2 z x s2
      rfl rfl hvz hfF (by rw [v2, v1, List.length_modify, List.length_modify]; exact hzl)
      (by rw [f2, f1, List.length_modify, List.length_modify]; exact hFl)
  have n1 : s1.mesh.halfedges.length = m.halfedges.length + 1 := by rw [e1]; simp
  have n2 : s2.mesh.halfedges.length = m.halfedges.length + 2 := by rw [e2]; simp [n1]
  have n3 : s3.mesh.halfedges.length = m.halfedges.length + 3 := by rw [e3]; simp [n2]
  have hl : s3.halfedges
      = [some m.halfedges.length, some (m.halfedges.length + 1),
          some (m.halfedges.length + 2)] := by
    rw [l3, l2, l1, n1, n2]
    rfl
  have hp : s3.halfedgeMap = insertTriangle mk map m.halfedges.length x y z := by
    rw [p3, p2, p1, n1, n2]
    rfl
  obtain ⟨M, hlink, hMh, hMf, hMv, hMd⟩ : ∃ M : Mesh K,
      linkFaceHalfedges s3.mesh [some m.halfedges.length, some (m.halfedges.length + 1),
        some (m.halfedges.length + 2)] = Except.ok M ∧
      M.halfedges = ((((((s3.mesh.halfedges.modify
        (fun h => { h with nextHalfedge := some (m.halfedges.length + 1) })
          m.halfedges.length).modify
        (fun h => { h with previousHalfedge := some m.halfedges.length })
          (m.halfedges.length + 1)).modify
        (fun h => { h with nextHalfedge := some (m.halfedges.length + 2) })
          (m.halfedges.length + 1)).modify
        (fun h => { h with previousHalfedge := some (m.halfedges.length + 1) })
          (m.halfedges.length + 2)).modify
        (fun h => { h with nextHalfedge := some m.halfedges.length })
          (m.halfedges.length + 2)).modify
        (fun h => { h with previousHalfedge := some (m.halfedges.length + 2) })
          m.halfedges.length) ∧
      M.faces = s3.mesh.faces ∧ M.vertices = s3.mesh.vertices ∧
      M.m_debugHalfedgeIndex = s3.mesh.m_debugHalfedgeIndex :=
    ⟨_, linkFaceHalfedges_three s3.mesh m.halfedges.length (m.halfedges.length + 1)
      (m.halfedges.length + 2) (by omega) (by omega) (by omega), rfl, rfl, rfl, rfl⟩
  refine ⟨M, ?_, ?_, ?_, ?_, ?_, ?_, ?_, ?_, ?_, ?_⟩
  · unfold constructFace
    simp only [List.length_cons, List.length_nil, Nat.reduceAdd, ne_eq, not_true_eq_false,
      if_false, r1, ok_bind, r2, r3, hl, hlink, pure_eq_ok, hp]
  · rw [hMh, e3, e2, e1, d2, d1]
    exact modify_appended_three m.halfedges _ _ _ _ _ _ _ _ _
  · rw [hMd, d3, d2, d1]
  · rw [hMf, f3, f2, f1, List.length_modify, List.length_modify, List.length_modify]
  · rw [hMf, f3, f2, f1, map_modify_cond_face, map_modify_cond_face, map_modify_cond_face]
  · intro j hj
    unfold Mesh.rep
    rw [hMf, f3, f2, f1, List.getElem?_modify_ne _ _ (Ne.symm hj),
      List.getElem?_modify_ne _ _ (Ne.symm hj), List.getElem?_modify_ne _ _ (Ne.symm hj)]
  · intro hrep
    have hF : m.faces[F]? = some m.faces[F] := List.getElem?_eq_getElem hFl
    have hnone : m.faces[F].halfedge = none := by
      unfold Mesh.rep at hrep
      rw [hF] at hrep
      exact hrep
    unfold Mesh.rep
    rw [hMf, f3, f2, f1, List.getElem?_modify_eq, List.getElem?_modify_eq,
      List.getElem?_modify_eq, hF]
    simp [hnone]
  · rw [hMv, v3, v2, v1, List.length_modify, List.length_modify, List.length_modify]
  · rw [hMv, v3, v2, v1, map_modify_cond_vertex Vertex.position (fun _ _ => rfl),
      map_modify_cond_vertex Vertex.position (fun _ _ => rfl),
      map_modify_cond_vertex Vertex.position (fun _ _ => rfl)]
  · rw [hMv, v3, v2, v1, map_modify_cond_vertex Vertex.removed (fun _ _ => rfl),
      map_modify_cond_vertex Vertex.removed (fun _ _ => rfl),
      map_modify_cond_vertex Vertex.removed (fun _ _ => rfl)]

end ConstructFace

section ConstructStores
variable {K : Type}

/-- Lines 35-39: one vertex per position, in order. -/
theorem constructVertices_spec [Zero K] (vs : List (Vector3 K)) :
    ∀ (m : Mesh K) (hv : List (Option Nat)),
      (∀ v ∈ m.m_lastVertex, v < m.vertices.length) →
      ∃ m', constructVertices vs m hv
          = Except.ok (m', hv ++ (List.range' m.vertices.length vs.length).map some) ∧
        m'.vertices.length = m.vertices.length + vs.length ∧
        m'.halfedges = m.halfedges ∧ m'.faces = m.faces ∧ m'.m_lastFace = m.m_lastFace := by
  induction vs with
  | nil =>
    intro m hv _
    exact ⟨m, by simp [constructVertices], rfl, rfl, rfl, rfl⟩
  | cons it rest ih =>
    intro m hv hlast
    obtain ⟨m1, vNew, h1, e1, f1, lf1, lv1, n1, g1, -⟩ := newVertex_spec m hlast
    obtain ⟨m2, h2, e2, f2, lf2, lv2, n2⟩ : ∃ m2 : Mesh K,
        m1.updateVertex (some m.vertices.length) (fun v => { v with position := it })
          = Except.ok m2 ∧ m2.halfedges = m1.halfedges ∧ m2.faces = m1.faces ∧
          m2.m_lastFace = m1.m_lastFace ∧ m2.m_lastVertex = m1.m_lastVertex ∧
          m2.vertices.length = m1.vertices.length :=
      ⟨_, updateVertex_of_get _ g1, rfl, rfl, rfl, rfl, by simp⟩
    obtain ⟨m', h3, n3, e3, f3, lf3⟩ := ih m2 (hv ++ [some m.vertices.length]) (by
      intro v hvm
      rw [lv2, lv1] at hvm
      cases hvm
      omega)
    refine ⟨m', ?_, ?_, ?_, ?_, ?_⟩
    · unfold constructVertices
      simp only [h1, ok_bind, h2, h3, n2, n1, List.length_cons, List.range'_succ,
        List.map_cons, List.append_assoc, List.singleton_append]
    · rw [n3, n2, n1, List.length_cons]; omega
    · rw [e3, e2, e1]
    · rw [f3, f2, f1]
    · rw [lf3, lf2, lf1]

/-- Lines 43-47: one face per input face, in order, each live and without
representative. -/
theorem constructFaces_spec (fs : List (List Nat)) :
    ∀ (m : Mesh K) (hf : List (Option Nat)),
      (∀ f ∈ m.m_lastFace, f < m.faces.length) →
      ∃ m', constructFaces fs m hf
          = Except.ok (m', hf ++ (List.range' m.faces.length fs.length).map some) ∧
        m'.faces.length = m.faces.length + fs.length ∧
        m'.halfedges = m.halfedges ∧ m'.vertices = m.vertices ∧
        m'.faces.map (fun f => (f.halfedge, f.removed))
          = m.faces.map (fun f => (f.halfedge, f.removed))
            ++ List.replicate fs.length (none, false) := by
  induction fs with
  | nil =>
    intro m hf _
    exact ⟨m, by simp [constructFaces], rfl, rfl, rfl, by simp⟩
  | cons it rest ih =>
    intro m hf hlast
    obtain ⟨m1, fNew, h1, e1, v1, lv1, lf1, n1, g1, -, -, r1⟩ := newFace_spec m hlast
    have g1' : ({ m1 with m_debugFaceIndex := m1.m_debugFaceIndex + 1 } : Mesh K).faces[
        m.faces.length]? = some fNew := g1
    obtain ⟨m2, h2, e2, v2, lf2, n2, r2⟩ : ∃ m2 : Mesh K,
        ({ m1 with m_debugFaceIndex := m1.m_debugFaceIndex + 1 } : Mesh K).updateFace
          (some m.faces.length) (fun f => { f with debugIndex := m1.m_debugFaceIndex + 1 })
          = Except.ok m2 ∧ m2.halfedges = m1.halfedges ∧ m2.vertices = m1.vertices ∧
          m2.m_lastFace = m1.m_lastFace ∧ m2.faces.length = m1.faces.length ∧
          m2.faces.map (fun f => (f.halfedge, f.removed))
            = m1.faces.map (fun f => (f.halfedge, f.removed)) :=
      ⟨_, updateFace_of_get _ g1', rfl, rfl, rfl, by simp,
        map_set_of_eq (fun f => (f.halfedge, f.removed)) _ _ _
          { fNew with debugIndex := m1.m_debugFaceIndex + 1 } g1 rfl⟩
    obtain ⟨m', h3, n3, e3, v3, r3⟩ := ih m2 (hf ++ [some m.faces.length]) (by
      intro f hfm
      rw [lf2, lf1] at hfm
      cases hfm
      omega)
    refine ⟨m', ?_, ?_, ?_, ?_, ?_⟩
    · unfold constructFaces
      simp only [h1, ok_bind, h2, h3, n2, n1, List.length_cons, List.range'_succ,
        List.map_cons, List.append_assoc, List.singleton_append]
    · rw [n3, n2, n1, List.length_cons]; omega
    · rw [e3, e2, e1]
    · rw [v3, v2, v1]
    · rw [r3, r2, r1, List.length_cons, List.replicate_succ, List.append_assoc,
        List.singleton_append]

theorem range'_map_some_getElem? (n x : Nat) (h : x < n) :
    ((List.range' 0 n).map some)[x]? = some (some x) := by
  simp [List.getElem?_map, List.getElem?_range', h]

end ConstructStores

section FaceLoop
variable {K : Type}

theorem length_three {f : List Nat} (h : f.length = 3) : ∃ x y z, f = [x, y, z] := by
  rcases f with _ | ⟨a, _ | ⟨b, _ | ⟨c, _ | ⟨d, t⟩⟩⟩⟩ <;> simp at h
  exact ⟨a, b, c, rfl⟩

theorem loopHalfedges_skip {f : List Nat} (h : f.length ≠ 3) (rest : List (List Nat))
    (F n d : Nat) : loopHalfedges (f :: rest) F n d = loopHalfedges rest (F + 1) n d := by
  rcases f with _ | ⟨a, _ | ⟨b, _ | ⟨c, _ | ⟨d, t⟩⟩⟩⟩ <;> first | rfl | simp at h

theorem loopMap_skip (mk : Nat → Nat → Nat) {f : List Nat} (h : f.length ≠ 3)
    (rest : List (List Nat)) (n : Nat) (map : List (Nat × Option Nat)) :
    loopMap mk (f :: rest) n map = loopMap mk rest n map := by
  rcases f with _ | ⟨a, _ | ⟨b, _ | ⟨c, _ | ⟨d, t⟩⟩⟩⟩ <;> first | rfl | simp at h

theorem edgesOf_skip {f : List Nat} (h : f.length ≠ 3) (rest : List (List Nat)) :
    edgesOf (f :: rest) = edgesOf rest := by
  rcases f with _ | ⟨a, _ | ⟨b, _ | ⟨c, _ | ⟨d, t⟩⟩⟩⟩ <;> first | rfl | simp at h

theorem constructFace_skip (mk : Nat → Nat → Nat) (hv hf : List (Option Nat)) (F : Nat)
    {f : List Nat} (h : f.length ≠ 3) (m : Mesh K) (map : List (Nat × Option Nat)) :
    constructFace mk hv hf F f m map = Except.ok (m, map) := by
  unfold constructFace
  rw [if_pos (fun hc => h hc.symm)]
  rfl

/-- The loop of lines 50-82 from `faceIndex = F` on: it runs through, appends the
half-edges of the triangles, gives each triangle face its representative and builds the
map. -/
theorem constructFaceLoop_spec (mk : Nat → Nat → Nat) (hv hf : List (Option Nat))
    (faces : List (List Nat)) :
    ∀ (F : Nat) (m : Mesh K) (map : List (Nat × Option Nat)),
      (∀ x < m.vertices.length, hv[x]? = some (some x)) →
      (∀ f < m.faces.length, hf[f]? = some (some f)) →
      F + faces.length ≤ m.faces.length →
      (∀ f ∈ faces, f.length = 3 → ∀ x ∈ f, x < m.vertices.length) →
      (∀ j, F ≤ j → m.rep j = none) →
      ∃ m', constructFaceLoop mk hv hf faces F m map
          = Except.ok (m', loopMap mk faces m.halfedges.length map) ∧
        m'.halfedges = m.halfedges ++
          loopHalfedges faces F m.halfedges.length m.m_debugHalfedgeIndex ∧
        m'.faces.length = m.faces.length ∧
        m'.faces.map Face.removed = m.faces.map Face.removed ∧
        (∀ j < F, m'.rep j = m.rep j) ∧
        (∀ k f, faces[k]? = some f → f.length = 3 →
          ∃ h, m'.rep (F + k) = some h ∧ m'.left h = some (F + k)) ∧
        (∀ k f, faces[k]? = some f → f.length ≠ 3 → m'.rep (F + k) = none) ∧
        m'.vertices.length = m.vertices.length ∧
        m'.vertices.map Vertex.position = m.vertices.map Vertex.position ∧
        m'.vertices.map Vertex.removed = m.vertices.map Vertex.removed := by
  induction faces with
  | nil =>
    intro F m map _ _ _ _ _
    refine ⟨m, rfl, by simp [loopHalfedges], rfl, rfl, fun _ _ => rfl, ?_, ?_, rfl, rfl, rfl⟩
    · intro k f hk; simp at hk
    · intro k f hk; simp at hk
  | cons f rest ih =>
    intro F m map hvv hff hF hin hrep
    have hF1 : F + 1 + rest.length ≤ m.faces.length := by
      simp only [List.length_cons] at hF; omega
    by_cases h3 : f.length = 3
    · obtain ⟨x, y, z, rfl⟩ := length_three h3
      have hx := hin [x, y, z] (List.mem_cons_self _ _) rfl x (by simp)
      have hy := hin [x, y, z] (List.mem_cons_self _ _) rfl y (by simp)
      have hz := hin [x, y, z] (List.mem_cons_self _ _) rfl z (by simp)
      have hFl : F < m.faces.length := by simp only [List.length_cons] at hF; omega
      obtain ⟨m1, r1, e1, d1, fl1, fr1, rp1, rn1, vl1, vp1, vr1⟩ :=
        constructFace_triangle mk hv hf F x y z m map (hvv x hx) (hvv y hy) (hvv z hz)
          (hff F hFl) hx hy hz hFl
      have n1 : m1.halfedges.length = m.halfedges.length + 3 := by
        rw [e1]; simp [triangleHalfedges]
      obtain ⟨m', r2, e2, fl2, fr2, rp2, rt2, rs2, vl2, vp2, vr2⟩ :=
        ih (F + 1) m1 (insertTriangle mk map m.halfedges.length x y z)
          (by rw [vl1]; exact hvv) (by rw [fl1]; exact hff) (by rw [fl1]; exact hF1)
          (by rw [vl1]; exact fun g hg => hin g (List.mem_cons_of_mem _ hg))
          (fun j hj => by rw [rp1 j (by omega)]; exact hrep j (by omega))
      refine ⟨m', ?_, ?_, ?_, ?_, ?_, ?_, ?_, ?_, ?_, ?_⟩
      · unfold constructFaceLoop
        simp only [r1, ok_bind, r2, n1]
        rfl
      · rw [e2, n1, d1, e1, List.append_assoc]
        rfl
      · rw [fl2, fl1]
      · rw [fr2, fr1]
      · intro j hj
        rw [rp2 j (by omega), rp1 j (by omega)]
      · intro k g hk hg
        cases k with
        | zero =>
          refine ⟨m.halfedges.length, ?_, ?_⟩
          · rw [Nat.add_zero, rp2 F (by omega)]
            exact rn1 (hrep F (Nat.le_refl _))
          · unfold Mesh.left
            rw [e2, List.getElem?_append_left (by omega), e1,
              List.getElem?_append_right (Nat.le_refl _)]
            simp [triangleHalfedges]
        | succ k =>
          obtain ⟨h, hh1, hh2⟩ := rt2 k g (by simpa using hk) hg
          exact ⟨h, by rw [← hh1]; congr 1; omega, by rw [hh2]; congr 1; omega⟩
      · intro k g hk hg
        cases k with
        | zero =>
          simp only [List.getElem?_cons_zero, Option.some.injEq] at hk
          subst hk
          exact absurd rfl hg
        | succ k =>
          have := rs2 k g (by simpa using hk) hg
          rw [← this]; congr 1; omega
      · rw [vl2, vl1]
      · rw [vp2, vp1]
      · rw [vr2, vr1]
    · have r1 := constructFace_skip mk hv hf F h3 m map
      obtain ⟨m', r2, e2, fl2, fr2, rp2, rt2, rs2, vl2, vp2, vr2⟩ :=
        ih (F + 1) m map hvv hff hF1 (fun g hg => hin g (List.mem_cons_of_mem _ hg))
          (fun j hj => hrep j (by omega))
      refine ⟨m', ?_, ?_, fl2, fr2, fun j hj => rp2 j (by omega), ?_, ?_, vl2, vp2, vr2⟩
      · unfold constructFaceLoop
        simp only [r1, ok_bind, r2, loopMap_skip mk h3]
      · rw [e2, loopHalfedges_skip h3]
      · intro k g hk hg
        cases k with
        | zero =>
          simp only [List.getElem?_cons_zero, Option.some.injEq] at hk
          subst hk
          exact absurd hg h3
        | succ k =>
          obtain ⟨h, hh1, hh2⟩ := rt2 k g (by simpa using hk) hg
          exact ⟨h, by rw [← hh1]; congr 1; omega, by rw [hh2]; congr 1; omega⟩
      · intro k g hk hg
        cases k with
        | zero =>
          rw [Nat.add_zero, rp2 F (by omega)]
          exact hrep F (Nat.le_refl _)
        | succ k =>
          have := rs2 k g (by simpa using hk) hg
          rw [← this]; congr 1; omega

end FaceLoop

section MapLemmas

theorem mapInsert_eq (map : List (Nat × Option Nat)) (key : Nat) (val : Option Nat) :
    ((∃ e ∈ map, e.1 = key) ∧ (mapInsert map key val).1 = map) ∨
    ((∀ e ∈ map, e.1 ≠ key) ∧ (mapInsert map key val).1 = map ++ [(key, val)]) := by
  unfold mapInsert
  by_cases h : map.any (fun e => e.1 == key) = true
  · left
    rw [if_pos h]
    simp only [List.any_eq_true, beq_iff_eq] at h
    exact ⟨h, rfl⟩
  · right
    rw [if_neg h]
    simp only [List.any_eq_true, beq_iff_eq, not_exists, not_and] at h
    exact ⟨h, rfl⟩

/-- One call of `insert` for the half-edge made next keeps the map in order. -/
theorem MapInv.insert {mk : Nat → Nat → Nat} {E : List (Nat × Nat)}
    {map : List (Nat × Option Nat)} (inv : MapInv mk E map) (u v : Nat) :
    MapInv mk (E ++ [(u, v)]) (mapInsert map (mk u v) (some E.length)).1 := by
  obtain ⟨m1, m2, m3⟩ := inv
  have old : ∀ (i a b : Nat), E[i]? = some (a, b) →
      (E ++ [(u, v)])[i]? = some (a, b) ∧ ∀ j : Nat, j < i → (E ++ [(u, v)])[j]? = E[j]? := by
    intro i a b hi
    have hlt := getElem?_lt hi
    refine ⟨by rw [List.getElem?_append_left hlt]; exact hi, fun j hj => ?_⟩
    rw [List.getElem?_append_left (by omega)]
  have m1' : ∀ e ∈ map, ∃ (i a b : Nat), e = (mk a b, some i) ∧ (E ++ [(u, v)])[i]? = some (a, b) ∧
      ∀ j < i, (E ++ [(u, v)])[j]? ≠ some (a, b) := by
    intro e he
    obtain ⟨i, a, b, h1, h2, h3⟩ := m1 e he
    obtain ⟨o1, o2⟩ := old i a b h2
    exact ⟨i, a, b, h1, o1, fun j hj => by rw [o2 j hj]; exact h3 j hj⟩
  have split : ∀ (i a b : Nat), (E ++ [(u, v)])[i]? = some (a, b) →
      E[i]? = some (a, b) ∨ (i = E.length ∧ a = u ∧ b = v) := by
    intro i a b hi
    by_cases hlt : i < E.length
    · left
      rw [List.getElem?_append_left hlt] at hi
      exact hi
    · right
      rw [List.getElem?_append_right (by omega)] at hi
      have h0 : i - E.length = 0 := by
        rcases Nat.eq_zero_or_pos (i - E.length) with h | h
        · exact h
        · rw [List.getElem?_eq_none (by simp; omega)] at hi
          cases hi
      rw [h0] at hi
      simp only [List.getElem?_cons_zero, Option.some.injEq, Prod.mk.injEq] at hi
      exact ⟨by omega, hi.1.symm, hi.2.symm⟩
  rcases mapInsert_eq map (mk u v) (some E.length) with ⟨⟨e, he, hk⟩, heq⟩ | ⟨hno, heq⟩
  · rw [heq]
    refine ⟨m1', ?_, m3⟩
    intro i a b hi
    rcases split i a b hi with h | ⟨-, rfl, rfl⟩
    · exact m2 i a b h
    · exact ⟨e.2, by rw [← hk]; exact he⟩
  · rw [heq]
    refine ⟨?_, ?_, ?_⟩
    · intro e he
      rcases List.mem_append.1 he with h | h
      · exact m1' e h
      · simp only [List.mem_singleton] at h
        refine ⟨E.length, u, v, h, by simp, fun j hj hc => ?_⟩
        rw [List.getElem?_append_left hj] at hc
        obtain ⟨val, hval⟩ := m2 j u v hc
        exact hno _ hval rfl
    · intro i a b hi
      rcases split i a b hi with h | ⟨-, rfl, rfl⟩
      · obtain ⟨val, hval⟩ := m2 i a b h
        exact ⟨val, List.mem_append_left _ hval⟩
      · exact ⟨some E.length, List.mem_append_right _ (List.mem_singleton.2 rfl)⟩
    · rw [List.map_append, List.nodup_append]
      refine ⟨m3, by simp, ?_⟩
      intro a ha hb
      simp only [List.map_cons, List.map_nil, List.mem_singleton] at hb
      simp only [List.mem_map] at ha
      obtain ⟨e, he, rfl⟩ := ha
      exact hno e he hb

theorem edgesOf_triangle (x y z : Nat) (rest : List (List Nat)) :
    edgesOf ([x, y, z] :: rest) = (x, y) :: (y, z) :: (z, x) :: edgesOf rest := rfl

/-- The map after the loop over the faces holds the first half-edge of every pair. -/
theorem MapInv.after_loop (mk : Nat → Nat → Nat) (faces : List (List Nat)) :
    ∀ (E : List (Nat × Nat)) (map : List (Nat × Option Nat)), MapInv mk E map →
      MapInv mk (E ++ edgesOf faces) (loopMap mk faces E.length map) := by
  induction faces with
  | nil =>
    intro E map inv
    simpa [edgesOf, loopMap] using inv
  | cons f rest ih =>
    intro E map inv
    by_cases h3 : f.length = 3
    · obtain ⟨x, y, z, rfl⟩ := length_three h3
      have i1 := inv.insert x y
      have i2 := i1.insert y z
      have i3 := i2.insert z x
      have := ih _ _ i3
      simp only [List.length_append, List.length_cons, List.length_nil, List.append_assoc,
        List.singleton_append, List.cons_append, List.nil_append] at this
      rw [edgesOf_triangle]
      exact this
    · rw [edgesOf_skip h3, loopMap_skip mk h3]
      exact ih E map inv

theorem MapInv.nil (mk : Nat → Nat → Nat) : MapInv mk [] [] := by
  refine ⟨fun e he => ?_, fun i u v h => ?_, ?_⟩
  · cases he
  · simp at h
  · simp

end MapLemmas

section LoopHalfedges

theorem loopHalfedges_triangle (x y z : Nat) (rest : List (List Nat)) (F n d : Nat) :
    loopHalfedges ([x, y, z] :: rest) F n d
      = triangleHalfedges n F d x y z ++ loopHalfedges rest (F + 1) (n + 3) (d + 3) := rfl

theorem loopHalfedges_length (faces : List (List Nat)) :
    ∀ (F n d : Nat), (loopHalfedges faces F n d).length = (edgesOf faces).length := by
  induction faces with
  | nil => intro F n d; rfl
  | cons f rest ih =>
    intro F n d
    by_cases h3 : f.length = 3
    · obtain ⟨x, y, z, rfl⟩ := length_three h3
      rw [loopHalfedges_triangle, List.length_append, ih, edgesOf_triangle]
      simp only [triangleHalfedges, List.length_cons, List.length_nil]
      omega
    · rw [loopHalfedges_skip h3, edgesOf_skip h3, ih]

theorem triangleHalfedges_get (n F d x y z : Nat) (T : List Halfedge) :
    (triangleHalfedges n F d x y z ++ T)[0]?
      = some ⟨some x, some F, some (n + 2), some (n + 1), none, d + 1⟩ ∧
    (triangleHalfedges n F d x y z ++ T)[1]?
      = some ⟨some y, some F, some n, some (n + 2), none, d + 2⟩ ∧
    (triangleHalfedges n F d x y z ++ T)[2]?
      = some ⟨some z, some F, some (n + 1), some n, none, d + 3⟩ := by
  refine ⟨rfl, rfl, ?_⟩
  simp [triangleHalfedges]

/-- The half-edge that the loop makes for the directed edge `(u, v)` starts at `u`, has no
opposite yet, and lies on a closed loop of three half-edges of one face whose second
member starts at `v`; `n` is the number of half-edges before the loop. -/
theorem loopHalfedges_spec (faces : List (List Nat)) :
    ∀ (F n d i u v : Nat), (edgesOf faces)[i]? = some (u, v) →
      ∃ (e ea eb : Halfedge) (a b lf : Nat),
        (loopHalfedges faces F n d)[i]? = some e ∧
        (loopHalfedges faces F n d)[a]? = some ea ∧
        (loopHalfedges faces F n d)[b]? = some eb ∧
        e.startVertex = some u ∧ ea.startVertex = some v ∧
        e.nextHalfedge = some (n + a) ∧ ea.nextHalfedge = some (n + b) ∧
        eb.nextHalfedge = some (n + i) ∧
        e.leftFace = some lf ∧ ea.leftFace = some lf ∧ eb.leftFace = some lf ∧
        e.oppositeHalfedge = none ∧ a ≠ i := by
  induction faces with
  | nil => intro F n d i u v h; simp [edgesOf] at h
  | cons f rest ih =>
    intro F n d i u v h
    by_cases h3 : f.length = 3
    · obtain ⟨x, y, z, rfl⟩ := length_three h3
      rw [edgesOf_triangle] at h
      rw [loopHalfedges_triangle]
      obtain ⟨g0, g1, g2⟩ := triangleHalfedges_get n F d x y z
        (loopHalfedges rest (F + 1) (n + 3) (d + 3))
      match i, h with
      | 0, h =>
        simp only [List.getElem?_cons_zero, Option.some.injEq, Prod.mk.injEq] at h
        obtain ⟨rfl, rfl⟩ := h
        exact ⟨_, _, _, 1, 2, F, g0, g1, g2, rfl, rfl, rfl, rfl, rfl, rfl, rfl, rfl, rfl,
          by decide⟩
      | 1, h =>
        simp only [List.getElem?_cons_succ, List.getElem?_cons_zero, Option.some.injEq,
          Prod.mk.injEq] at h
        obtain ⟨rfl, rfl⟩ := h
        exact ⟨_, _, _, 2, 0, F, g1, g2, g0, rfl, rfl, rfl, rfl, rfl, rfl, rfl, rfl, rfl,
          by decide⟩
      | 2, h =>
        simp only [List.getElem?_cons_succ, List.getElem?_cons_zero, Option.some.injEq,
          Prod.mk.injEq] at h
        obtain ⟨rfl, rfl⟩ := h
        exact ⟨_, _, _, 0, 1, F, g2, g0, g1, rfl, rfl, rfl, rfl, rfl, rfl, rfl, rfl, rfl,
          by decide⟩
      | i + 3, h =>
        simp only [List.getElem?_cons_succ] at h
        obtain ⟨e, ea, eb, a, b, lf, h1, h2, h3, h4, h5, h6, h7, h8, h9, h10, h11, h12, h13⟩ :=
          ih (F + 1) (n + 3) (d + 3) i u v h
        have sh : ∀ k, (triangleHalfedges n F d x y z ++
            loopHalfedges rest (F + 1) (n + 3) (d + 3))[k + 3]?
            = (loopHalfedges rest (F + 1) (n + 3) (d + 3))[k]? := by
          intro k
          rw [List.getElem?_append_right (by simp [triangleHalfedges])]
          simp [triangleHalfedges]
        refine ⟨e, ea, eb, a + 3, b + 3, lf, by rw [sh]; exact h1, by rw [sh]; exact h2,
          by rw [sh]; exact h3, h4, h5, ?_, ?_, ?_, h9, h10, h11, h12, by omega⟩
        · rw [h6]; congr 1; omega
        · rw [h7]; congr 1; omega
        · rw [h8]; congr 1; omega
    · rw [edgesOf_skip h3] at h
      rw [loopHalfedges_skip h3]
      exact ih (F + 1) n d i u v h

end LoopHalfedges

section Pairing
variable {K : Type}

theorem mapFind_some {map : List (Nat × Option Nat)} {key : Nat} {e : Nat × Option Nat}
    (h : mapFind map key = some e) : e ∈ map ∧ e.1 = key := by
  unfold mapFind at h
  refine ⟨List.mem_of_find?_eq_some h, ?_⟩
  have := List.find?_some h
  simpa using this

theorem mapFind_none {map : List (Nat × Option Nat)} {key : Nat}
    (h : mapFind map key = none) : ∀ e ∈ map, e.1 ≠ key := by
  unfold mapFind at h
  intro e he
  have := List.find?_eq_none.1 h e he
  simpa using this

theorem keys_unique {map : List (Nat × Option Nat)} (nd : (map.map Prod.fst).Nodup)
    {k : Nat} {a b : Option Nat} (ha : (k, a) ∈ map) (hb : (k, b) ∈ map) : a = b := by
  have := List.inj_on_of_nodup_map nd ha hb rfl
  exact (Prod.mk.inj this).2

theorem opp_after_set {m : Mesh K} {h : Nat} {e : Halfedge} (he : m.halfedges[h]? = some e)
    (x : Option Nat) (j : Nat) :
    ({ m with halfedges := m.halfedges.set h { e with oppositeHalfedge := x } } : Mesh K).opp j
      = if j = h then x else m.opp j := by
  have hl := getElem?_lt he
  simp only [Mesh.opp, List.getElem?_set]
  by_cases hj : h = j
  · subst hj
    simp [hl]
  · simp [hj, Ne.symm hj]

theorem Partners.symm {sw : Nat → Nat} {map : List (Nat × Option Nat)}
    (K4 : ∀ e ∈ map, sw (sw e.1) = e.1) {h g : Nat} (p : Partners sw map h g) :
    Partners sw map g h := by
  obtain ⟨k, h1, h2⟩ := p
  refine ⟨sw k, h2, ?_⟩
  rw [K4 _ h1]
  exact h1

theorem Partners.unique {sw : Nat → Nat} {map : List (Nat × Option Nat)}
    (K2 : (map.map Prod.fst).Nodup)
    (K3 : ∀ k1 k2 h, (k1, some h) ∈ map → (k2, some h) ∈ map → k1 = k2) {h g g' : Nat}
    (p : Partners sw map h g) (q : Partners sw map h g') : g = g' := by
  obtain ⟨k, h1, h2⟩ := p
  obtain ⟨k', h3, h4⟩ := q
  have hk := K3 k k' h h1 h3
  rw [← hk] at h4
  exact Option.some.inj (keys_unique K2 h2 h4)

/-- The pairing pass of lines 83-89 over a map in order: it runs through, writes
opposites only, links partners only, and every half-edge whose entry it visits gets its
partner. -/
theorem pairOpposites_spec (sw : Nat → Nat) (map : List (Nat × Option Nat)) (N : Nat)
    (K1 : ∀ e ∈ map, ∃ h, e.2 = some h ∧ h < N)
    (K2 : (map.map Prod.fst).Nodup)
    (K3 : ∀ k1 k2 h, (k1, some h) ∈ map → (k2, some h) ∈ map → k1 = k2)
    (K4 : ∀ e ∈ map, sw (sw e.1) = e.1) :
    ∀ (visit : List (Nat × Option Nat)) (m : Mesh K), (∀ e ∈ visit, e ∈ map) →
      m.halfedges.length = N →
      (∀ h g, m.opp h = some g → Partners sw map h g) →
      ∃ m', pairOpposites sw map visit m = Except.ok m' ∧
        m'.faces = m.faces ∧ m'.vertices = m.vertices ∧
        (∀ {β : Type} (g : Halfedge → β), (∀ e x, g { e with oppositeHalfedge := x } = g e) →
          m'.halfedges.map g = m.halfedges.map g) ∧
        (∀ h g, m'.opp h = some g → Partners sw map h g) ∧
        (∀ h g, Partners sw map h g → (m.opp h = some g ∨ ∃ k, (k, some h) ∈ visit) →
          m'.opp h = some g) := by
  intro visit
  induction visit with
  | nil =>
    intro m _ _ sound
    refine ⟨m, rfl, rfl, rfl, fun _ _ => rfl, sound, ?_⟩
    intro h g _ hc
    rcases hc with hc | ⟨k, hk⟩
    · exact hc
    · cases hk
  | cons it rest ih =>
    intro m hsub hN sound
    have hit : it ∈ map := hsub it (List.mem_cons_self _ _)
    have hrest : ∀ e ∈ rest, e ∈ map := fun e he => hsub e (List.mem_cons_of_mem _ he)
    obtain ⟨h0, hv0, hl0⟩ := K1 it hit
    have hit' : (it.1, some h0) ∈ map := by rw [← hv0]; exact hit
    cases hfind : mapFind map (sw it.1) with
    | none =>
      obtain ⟨m', r, f, v, fr, snd, cmp⟩ := ih m hrest hN sound
      refine ⟨m', ?_, f, v, fr, snd, ?_⟩
      · unfold pairOpposites
        simp only [hfind]
        exact r
      · intro h g p hc
        apply cmp h g p
        rcases hc with hc | ⟨k, hk⟩
        · exact Or.inl hc
        · rcases List.mem_cons.1 hk with hk | hk
          · exfalso
            obtain ⟨k2, p1, p2⟩ := p
            have e1 : (k, some h) ∈ map := by rw [hk]; exact hit
            have e2 : k2 = it.1 := by
              have := K3 k2 k h p1 e1
              rw [this, ← hk]
            rw [e2] at p2
            exact mapFind_none hfind _ p2 rfl
          · exact Or.inr ⟨k, hk⟩
    | some e' =>
      obtain ⟨he', hk'⟩ := mapFind_some hfind
      obtain ⟨g0, hv1, hl1⟩ := K1 e' he'
      have he'' : (sw it.1, some g0) ∈ map := by rw [← hk', ← hv1]; exact he'
      have p0 : Partners sw map h0 g0 := ⟨it.1, hit', he''⟩
      have p0' : Partners sw map g0 h0 := p0.symm K4
      have e0 : m.halfedges[h0]? = some m.halfedges[h0] :=
        List.getElem?_eq_getElem (by omega)
      obtain ⟨m1, hm1⟩ : ∃ m1 : Mesh K, m1 = { m with halfedges :=
          (m.halfedges.set h0 { m.halfedges[h0] with oppositeHalfedge := some g0 }) } :=
        ⟨_, rfl⟩
      have l1 : m1.halfedges.length = N := by rw [hm1]; simpa using hN
      have e1 : m1.halfedges[g0]? = some m1.halfedges[g0] :=
        List.getElem?_eq_getElem (by omega)
      obtain ⟨m2, hm2⟩ : ∃ m2 : Mesh K, m2 = { m1 with halfedges :=
          (m1.halfedges.set g0 { m1.halfedges[g0] with oppositeHalfedge := some h0 }) } :=
        ⟨_, rfl⟩
      have l2 : m2.halfedges.length = N := by rw [hm2]; simpa using l1
      have o1 : ∀ j, m1.opp j = if j = h0 then some g0 else m.opp j := by
        intro j; rw [hm1]; exact opp_after_set e0 _ j
      have o2 : ∀ j, m2.opp j = if j = g0 then some h0 else m1.opp j := by
        intro j; rw [hm2]; exact opp_after_set e1 _ j
      have snd2 : ∀ h g, m2.opp h = some g → Partners sw map h g := by
        intro h g hg
        rw [o2] at hg
        by_cases c1 : h = g0
        · rw [if_pos c1] at hg
          cases hg
          rw [c1]
          exact p0'
        · rw [if_neg c1, o1] at hg
          by_cases c2 : h = h0
          · rw [if_pos c2] at hg
            cases hg
            rw [c2]
            exact p0
          · rw [if_neg c2] at hg
            exact sound h g hg
      obtain ⟨m', r, f, v, fr, snd, cmp⟩ := ih m2 hrest l2 snd2
      have run1 : m.updateHalfedge it.2 (fun h => { h with oppositeHalfedge := e'.2 })
          = Except.ok m1 := by
        rw [hv0, hv1, hm1]
        exact updateHalfedge_of_get _ e0
      have run2 : m1.updateHalfedge e'.2 (fun h => { h with oppositeHalfedge := it.2 })
          = Except.ok m2 := by
        rw [hv0, hv1, hm2]
        exact updateHalfedge_of_get _ e1
      refine ⟨m', ?_, ?_, ?_, ?_, snd, ?_⟩
      · unfold pairOpposites
        simp only [hfind, run1, ok_bind, run2]
        exact r
      · have f1 : m1.faces = m.faces := by rw [hm1]
        have f2 : m2.faces = m1.faces := by rw [hm2]
        rw [f, f2, f1]
      · have v1 : m1.vertices = m.vertices := by rw [hm1]
        have v2 : m2.vertices = m1.vertices := by rw [hm2]
        rw [v, v2, v1]
      · intro β g hg
        have g1 : m1.halfedges.map g = m.halfedges.map g := by
          rw [hm1]
          exact map_set_of_eq g _ _ _ _ e0 (hg _ _)
        have g2 : m2.halfedges.map g = m1.halfedges.map g := by
          rw [hm2]
          exact map_set_of_eq g _ _ _ _ e1 (hg _ _)
        rw [fr g hg, g2, g1]
      · intro h g p hc
        apply cmp h g p
        rcases hc with hc | ⟨k, hk⟩
        · left
          rw [o2]
          by_cases c1 : h = g0
          · rw [if_pos c1]
            rw [c1] at p
            rw [Partners.unique K2 K3 p p0']
          · rw [if_neg c1, o1]
            by_cases c2 : h = h0
            · rw [if_pos c2]
              rw [c2] at p
              rw [Partners.unique K2 K3 p p0]
            · rw [if_neg c2]
              exact hc
        · rcases List.mem_cons.1 hk with hk | hk
          · left
            have hh : h = h0 := by
              have : it.2 = some h := by rw [← hk]
              rw [hv0] at this
              exact (Option.some.inj this).symm
            rw [hh] at p
            have hg : g = g0 := Partners.unique K2 K3 p p0
            rw [hh, hg, o2]
            by_cases c1 : h0 = g0
            · rw [if_pos c1, c1]
            · rw [if_neg c1, o1, if_pos rfl]
          · exact Or.inr ⟨k, hk⟩

end Pairing

section Assembly
variable {K : Type}

theorem edgesOf_lt (n : Nat) (faces : List (List Nat))
    (hin : ∀ f ∈ faces, f.length = 3 → ∀ x ∈ f, x < n) :
    ∀ e ∈ edgesOf faces, e.1 < n ∧ e.2 < n := by
  induction faces with
  | nil => intro e he; simp [edgesOf] at he
  | cons f rest ih =>
    have hr : ∀ g ∈ rest, g.length = 3 → ∀ x ∈ g, x < n :=
      fun g hg => hin g (List.mem_cons_of_mem _ hg)
    by_cases h3 : f.length = 3
    · obtain ⟨x, y, z, rfl⟩ := length_three h3
      have hx := hin [x, y, z] (List.mem_cons_self _ _) rfl x (by simp)
      have hy := hin [x, y, z] (List.mem_cons_self _ _) rfl y (by simp)
      have hz := hin [x, y, z] (List.mem_cons_self _ _) rfl z (by simp)
      intro e he
      rw [edgesOf_triangle] at he
      simp only [List.mem_cons] at he
      rcases he with rfl | rfl | rfl | he
      · exact ⟨hx, hy⟩
      · exact ⟨hy, hz⟩
      · exact ⟨hz, hx⟩
      · exact ih hr e he
    · rw [edgesOf_skip h3]
      exact ih hr

/-- With an injective key function an entry of the map is the first half-edge made for
its pair, and the other way round. -/
theorem MapInv.mem_iff {mk : Nat → Nat → Nat} {E : List (Nat × Nat)}
    {map : List (Nat × Option Nat)} (inv : MapInv mk E map) (n : Nat)
    (hE : ∀ e ∈ E, e.1 < n ∧ e.2 < n)
    (hinj : ∀ a b c d, a < n → b < n → c < n → d < n → mk a b = mk c d → a = c ∧ b = d)
    (i u v : Nat) (hu : u < n) (hv : v < n) :
    (mk u v, some i) ∈ map ↔ E[i]? = some (u, v) ∧ ∀ k < i, E[k]? ≠ some (u, v) := by
  obtain ⟨m1, m2, m3⟩ := inv
  constructor
  · intro h
    obtain ⟨i', a, b, h1, h2, h3⟩ := m1 _ h
    have hab := hE _ (List.getElem?_mem h2)
    simp only [Prod.mk.injEq, Option.some.injEq] at h1
    obtain ⟨e1, e2⟩ := hinj u v a b hu hv hab.1 hab.2 h1.1
    subst e1; subst e2
    rw [h1.2]
    exact ⟨h2, h3⟩
  · rintro ⟨h1, h2⟩
    obtain ⟨val, hval⟩ := m2 i u v h1
    obtain ⟨i', a, b, e1, e2, e3⟩ := m1 _ hval
    have hab := hE _ (List.getElem?_mem e2)
    simp only [Prod.mk.injEq] at e1
    obtain ⟨c1, c2⟩ := hinj u v a b hu hv hab.1 hab.2 e1.1
    subst c1; subst c2
    have hii : i' = i := by
      rcases Nat.lt_trichotomy i' i with h | h | h
      · exact absurd e2 (h2 i' h)
      · exact h
      · exact absurd h1 (e3 i h)
    rw [e1.2, hii] at hval
    exact hval

theorem replicate_rep_none {l : List Face} {k : Nat}
    (h : l.map (fun f => (f.halfedge, f.removed)) = [] ++ List.replicate k (none, false)) :
    ∀ j, (l[j]?).bind Face.halfedge = none ∧ (j < l.length → (l[j]?).map Face.removed = some false) := by
  intro j
  have hj := congrArg (fun x => x[j]?) h
  simp only [List.getElem?_map, List.nil_append] at hj
  cases hx : l[j]? with
  | none =>
    refine ⟨rfl, fun hlt => ?_⟩
    rw [List.getElem?_eq_getElem hlt] at hx
    cases hx
  | some f =>
    rw [hx] at hj
    have hk : j < k := by
      rcases Nat.lt_or_ge j k with h1 | h1
      · exact h1
      · rw [List.getElem?_eq_none (by simpa using h1)] at hj
        cases hj
    rw [List.getElem?_replicate, if_pos hk] at hj
    simp only [Option.map_some', Option.some.injEq, Prod.mk.injEq] at hj
    exact ⟨hj.1, fun _ => by simp [hj.2]⟩

/-- The loop leaves every half-edge without opposite. -/
theorem loopHalfedges_opp_none (faces : List (List Nat)) (F n d j : Nat) :
    ((loopHalfedges faces F n d)[j]?).bind Halfedge.oppositeHalfedge = none := by
  cases hx : (loopHalfedges faces F n d)[j]? with
  | none => rfl
  | some e =>
    have hlt : j < (edgesOf faces).length := by
      rw [← loopHalfedges_length faces F n d]
      exact getElem?_lt hx
    obtain ⟨e', _, _, _, _, _, h1, _, _, _, _, _, _, _, _, _, _, h12, _⟩ :=
      loopHalfedges_spec faces F n d j _ _ (List.getElem?_eq_getElem hlt)
    rw [hx] at h1
    cases h1
    exact h12

/-- The constructor runs through on every input whose triangles have their indices in
range, and leaves the footprint `ConstructorPost`; the map it builds on the way holds
the first half-edge made for each pair. -/
theorem constructor_spec [Zero K] (mk : Nat → Nat → Nat) (sw : Nat → Nat)
    (order : List (Nat × Option Nat) → List (Nat × Option Nat))
    (vs : List (Vector3 K)) (faces : List (List Nat))
    (hin : ∀ f ∈ faces, f.length = 3 → ∀ x ∈ f, x < vs.length)
    (hinj : ∀ a b c d, a < vs.length → b < vs.length → c < vs.length → d < vs.length →
      mk a b = mk c d → a = c ∧ b = d)
    (hsw : ∀ a b, a < vs.length → b < vs.length → sw (mk a b) = mk b a)
    (hord : ∀ l e, e ∈ order l ↔ e ∈ l) :
    ∃ mv hv mf hf ml map m,
      constructVertices vs (Mesh.empty K) [] = Except.ok (mv, hv) ∧
      constructFaces faces mv [] = Except.ok (mf, hf) ∧
      constructFaceLoop mk hv hf faces 0 mf [] = Except.ok (ml, map) ∧
      pairOpposites sw map (order map) ml = Except.ok m ∧
      HalfedgeMesh mk sw order vs faces = Except.ok m ∧
      MapInv mk (edgesOf faces) map ∧
      ConstructorPost vs.length faces m := by
  -- the two stores
  obtain ⟨mv, r1, vl1, he1, fa1, lf1⟩ :=
    constructVertices_spec vs (Mesh.empty K) [] (fun v hv => by cases hv)
  have vl1' : mv.vertices.length = vs.length := by rw [vl1]; simp [Mesh.empty]
  have he1' : mv.halfedges = [] := he1
  have fa1' : mv.faces = [] := fa1
  obtain ⟨mf, r2, fl2, he2, v2, fm2⟩ :=
    constructFaces_spec faces mv [] (fun f hf => by rw [lf1] at hf; cases hf)
  have fl2' : mf.faces.length = faces.length := by rw [fl2, fa1']; simp
  have he2' : mf.halfedges = [] := by rw [he2, he1']
  have vl2 : mf.vertices.length = vs.length := by rw [v2, vl1']
  rw [fa1'] at fm2 r2
  have r1' : constructVertices vs (Mesh.empty K) []
      = Except.ok (mv, (List.range' 0 vs.length).map some) := r1
  have r2' : constructFaces faces mv []
      = Except.ok (mf, (List.range' 0 faces.length).map some) := r2
  have hnone := replicate_rep_none fm2
  -- the loop over the faces
  obtain ⟨ml, r3, e3, fl3, fr3, -, rt3, rs3, vl3, -, -⟩ :=
    constructFaceLoop_spec mk ((List.range' 0 vs.length).map some)
      ((List.range' 0 faces.length).map some) faces 0 mf []
      (fun x hx => range'_map_some_getElem? _ x (by omega))
      (fun f hf => range'_map_some_getElem? _ f (by omega))
      (by omega) (by rw [vl2]; exact hin) (fun j _ => (hnone j).1)
  rw [he2'] at r3 e3
  simp only [List.length_nil, List.nil_append] at r3 e3
  have inv : MapInv mk (edgesOf faces) (loopMap mk faces 0 []) := by
    have := MapInv.after_loop mk faces [] [] (MapInv.nil mk)
    simpa using this
  have hE := edgesOf_lt vs.length faces hin
  have hlen : ml.halfedges.length = (edgesOf faces).length := by
    rw [e3, loopHalfedges_length]
  -- the pairing pass
  obtain ⟨m, r5, f5, v5, fr5, snd5, cmp5⟩ :=
    pairOpposites_spec (K := K) sw (loopMap mk faces 0 []) (edgesOf faces).length
      (fun e he => by
        obtain ⟨i, u, v, h1, h2, -⟩ := inv.1 e he
        exact ⟨i, by rw [h1], getElem?_lt h2⟩)
      inv.2.2
      (fun k1 k2 h h1 h2 => by
        obtain ⟨i, u, v, a1, a2, -⟩ := inv.1 _ h1
        obtain ⟨i', u', v', b1, b2, -⟩ := inv.1 _ h2
        simp only [Prod.mk.injEq, Option.some.injEq] at a1 b1
        rw [← a1.2] at a2
        rw [← b1.2, a2] at b2
        simp only [Option.some.injEq, Prod.mk.injEq] at b2
        rw [a1.1, b1.1, b2.1, b2.2])
      (fun e he => by
        obtain ⟨i, u, v, h1, h2, -⟩ := inv.1 e he
        have huv := hE _ (List.getElem?_mem h2)
        rw [h1]
        show sw (sw (mk u v)) = mk u v
        rw [hsw u v huv.1 huv.2, hsw v u huv.2 huv.1])
      (order (loopMap mk faces 0 [])) ml (fun e he => (hord _ e).1 he) hlen
      (fun h g hg => by
        have : ml.opp h = none := by
          unfold Mesh.opp
          rw [e3]
          exact loopHalfedges_opp_none faces 0 0 _ h
        rw [this] at hg
        cases hg)
  refine ⟨mv, _, mf, _, ml, _, m, r1', r2', r3, r5, ?_, inv, ?_⟩
  · unfold HalfedgeMesh
    simp only [r1', ok_bind, r2', r3, r5]
  -- views of the result
  have sS : ∀ j, m.start j = ml.start j :=
    fun j => bind_getElem?_of_map_eq (fr5 Halfedge.startVertex (fun _ _ => rfl)) j
  have sN : ∀ j, m.next j = ml.next j :=
    fun j => bind_getElem?_of_map_eq (fr5 Halfedge.nextHalfedge (fun _ _ => rfl)) j
  have sL : ∀ j, m.left j = ml.left j :=
    fun j => bind_getElem?_of_map_eq (fr5 Halfedge.leftFace (fun _ _ => rfl)) j
  have key : ∀ (i u v : Nat), (edgesOf faces)[i]? = some (u, v) →
      ∃ a b lf, m.start i = some u ∧ m.next i = some a ∧ m.start a = some v ∧
        m.next a = some b ∧ m.next b = some i ∧ a ≠ i ∧
        m.left i = some lf ∧ m.left a = some lf ∧ m.left b = some lf := by
    intro i u v h
    obtain ⟨e, ea, eb, a, b, lf, h1, h2, h3, h4, h5, h6, h7, h8, h9, h10, h11, -, h13⟩ :=
      loopHalfedges_spec faces 0 0 mf.m_debugHalfedgeIndex i u v h
    rw [Nat.zero_add] at h6 h7 h8
    have g1 : ml.halfedges[i]? = some e := by rw [e3]; exact h1
    have g2 : ml.halfedges[a]? = some ea := by rw [e3]; exact h2
    have g3 : ml.halfedges[b]? = some eb := by rw [e3]; exact h3
    refine ⟨a, b, lf, ?_, ?_, ?_, ?_, ?_, h13, ?_, ?_, ?_⟩
    · rw [sS, start_of_getElem? g1, h4]
    · rw [sN, next_of_getElem? g1, h6]
    · rw [sS, start_of_getElem? g2, h5]
    · rw [sN, next_of_getElem? g2, h7]
    · rw [sN, next_of_getElem? g3, h8]
    · rw [sL, left_of_getElem? g1, h9]
    · rw [sL, left_of_getElem? g2, h10]
    · rw [sL, left_of_getElem? g3, h11]
  exact {
    halfedges_length := by
      have := congrArg List.length (fr5 Halfedge.startVertex (fun _ _ => rfl))
      simp only [List.length_map] at this
      rw [this, hlen]
    faces_length := by rw [f5, fl3, fl2']
    vertices_length := by rw [v5, vl3, vl2]
    start_target := by
      intro i u v h
      obtain ⟨a, b, lf, k1, k2, k3, -⟩ := key i u v h
      refine ⟨k1, ?_⟩
      unfold Mesh.target
      rw [k2]
      exact k3
    cycle := by
      intro i hi
      obtain ⟨a, b, lf, -, k2, -, k4, k5, k6, k7, k8, k9⟩ :=
        key i _ _ (List.getElem?_eq_getElem hi)
      exact ⟨a, b, lf, k2, k4, k5, k6, k7, k8, k9⟩
    opp_iff := by
      intro i j
      constructor
      · intro h
        obtain ⟨k, p1, p2⟩ := snd5 i j h
        obtain ⟨i', u, v, a1, a2, a3⟩ := inv.1 _ p1
        simp only [Prod.mk.injEq, Option.some.injEq] at a1
        rw [← a1.2] at a2 a3
        have huv := hE _ (List.getElem?_mem a2)
        rw [a1.1, hsw u v huv.1 huv.2] at p2
        have := (inv.mem_iff vs.length hE hinj j v u huv.2 huv.1).1 p2
        exact ⟨u, v, a2, a3, this.1, this.2⟩
      · rintro ⟨u, v, h1, h2, h3, h4⟩
        have huv := hE _ (List.getElem?_mem h1)
        have p1 := (inv.mem_iff vs.length hE hinj i u v huv.1 huv.2).2 ⟨h1, h2⟩
        have p2 := (inv.mem_iff vs.length hE hinj j v u huv.2 huv.1).2 ⟨h3, h4⟩
        refine cmp5 i j ⟨mk u v, p1, ?_⟩ (Or.inr ⟨mk u v, (hord _ _).2 p1⟩)
        rw [hsw u v huv.1 huv.2]
        exact p2
    live := by
      intro f hf
      unfold Mesh.faceRemoved
      rw [f5]
      have h1 := getElem?_of_map_eq fr3 f
      rw [h1]
      exact (hnone f).2 (by omega)
    rep_triangle := by
      intro f t hf ht
      obtain ⟨h, h1, h2⟩ := rt3 f t hf ht
      rw [Nat.zero_add] at h1 h2
      refine ⟨h, ?_, ?_⟩
      · unfold Mesh.rep
        rw [f5]
        exact h1
      · rw [sL]
        exact h2
    rep_other := by
      intro f t hf ht
      have h1 := rs3 f t hf ht
      rw [Nat.zero_add] at h1
      unfold Mesh.rep
      rw [f5]
      exact h1 }

end Assembly

section AnyKeys
variable {K : Type}

/-- The pairing pass with any swap function: it runs through, writes opposites only,
and only into half-edges that are stored in the map. -/
theorem pairOpposites_values (sw : Nat → Nat) (map : List (Nat × Option Nat)) (N : Nat)
    (K1 : ∀ e ∈ map, ∃ h, e.2 = some h ∧ h < N) :
    ∀ (visit : List (Nat × Option Nat)) (m : Mesh K), (∀ e ∈ visit, e ∈ map) →
      m.halfedges.length = N →
      (∀ h g, m.opp h = some g → ∃ k, (k, some h) ∈ map) →
      ∃ m', pairOpposites sw map visit m = Except.ok m' ∧
        m'.faces = m.faces ∧ m'.vertices = m.vertices ∧
        (∀ {β : Type} (g : Halfedge → β), (∀ e x, g { e with oppositeHalfedge := x } = g e) →
          m'.halfedges.map g = m.halfedges.map g) ∧
        (∀ h g, m'.opp h = some g → ∃ k, (k, some h) ∈ map) := by
  intro visit
  induction visit with
  | nil =>
    intro m _ _ sound
    exact ⟨m, rfl, rfl, rfl, fun _ _ => rfl, sound⟩
  | cons it rest ih =>
    intro m hsub hN sound
    have hit : it ∈ map := hsub it (List.mem_cons_self _ _)
    have hrest : ∀ e ∈ rest, e ∈ map := fun e he => hsub e (List.mem_cons_of_mem _ he)
    obtain ⟨h0, hv0, hl0⟩ := K1 it hit
    have hit' : (it.1, some h0) ∈ map := by rw [← hv0]; exact hit
    cases hfind : mapFind map (sw it.1) with
    | none =>
      obtain ⟨m', r, f, v, fr, snd⟩ := ih m hrest hN sound
      refine ⟨m', ?_, f, v, fr, snd⟩
      unfold pairOpposites
      simp only [hfind]
      exact r
    | some e' =>
      obtain ⟨he', hk'⟩ := mapFind_some hfind
      obtain ⟨g0, hv1, hl1⟩ := K1 e' he'
      have he'' : (e'.1, some g0) ∈ map := by rw [← hv1]; exact he'
      have e0 : m.halfedges[h0]? = some m.halfedges[h0] :=
        List.getElem?_eq_getElem (by omega)
      obtain ⟨m1, hm1⟩ : ∃ m1 : Mesh K, m1 = { m with halfedges :=
          (m.halfedges.set h0 { m.halfedges[h0] with oppositeHalfedge := some g0 }) } :=
        ⟨_, rfl⟩
      have l1 : m1.halfedges.length = N := by rw [hm1]; simpa using hN
      have e1 : m1.halfedges[g0]? = some m1.halfedges[g0] :=
        List.getElem?_eq_getElem (by omega)
      obtain ⟨m2, hm2⟩ : ∃ m2 : Mesh K, m2 = { m1 with halfedges :=
          (m1.halfedges.set g0 { m1.halfedges[g0] with oppositeHalfedge := some h0 }) } :=
        ⟨_, rfl⟩
      have l2 : m2.halfedges.length = N := by rw [hm2]; simpa using l1
      have o1 : ∀ j, m1.opp j = if j = h0 then some g0 else m.opp j := by
        intro j; rw [hm1]; exact opp_after_set e0 _ j
      have o2 : ∀ j, m2.opp j = if j = g0 then some h0 else m1.opp j := by
        intro j; rw [hm2]; exact opp_after_set e1 _ j
      have snd2 : ∀ h g, m2.opp h = some g → ∃ k, (k, some h) ∈ map := by
        intro h g hg
        rw [o2] at hg
        by_cases c1 : h = g0
        · rw [c1]; exact ⟨_, he''⟩
        · rw [if_neg c1, o1] at hg
          by_cases c2 : h = h0
          · rw [c2]; exact ⟨_, hit'⟩
          · rw [if_neg c2] at hg
            exact sound h g hg
      obtain ⟨m', r, f, v, fr, snd⟩ := ih m2 hrest l2 snd2
      have run1 : m.updateHalfedge it.2 (fun h => { h with oppositeHalfedge := e'.2 })
          = Except.ok m1 := by
        rw [hv0, hv1, hm1]
        exact updateHalfedge_of_get _ e0
      have run2 : m1.updateHalfedge e'.2 (fun h => { h with oppositeHalfedge := it.2 })
          = Except.ok m2 := by
        rw [hv0, hv1, hm2]
        exact updateHalfedge_of_get _ e1
      refine ⟨m', ?_, ?_, ?_, ?_, snd⟩
      · unfold pairOpposites
        simp only [hfind, run1, ok_bind, run2]
        exact r
      · have f1 : m1.faces = m.faces := by rw [hm1]
        have f2 : m2.faces = m1.faces := by rw [hm2]
        rw [f, f2, f1]
      · have v1 : m1.vertices = m.vertices := by rw [hm1]
        have v2 : m2.vertices = m1.vertices := by rw [hm2]
        rw [v, v2, v1]
      · intro β g hg
        have g1 : m1.halfedges.map g = m.halfedges.map g := by
          rw [hm1]
          exact map_set_of_eq g _ _ _ _ e0 (hg _ _)
        have g2 : m2.halfedges.map g = m1.halfedges.map g := by
          rw [hm2]
          exact map_set_of_eq g _ _ _ _ e1 (hg _ _)
        rw [fr g hg, g2, g1]

/-- The constructor runs through whatever the key functions are, as long as the
triangles have their indices in range and the pairing pass visits entries of the map
only. -/
theorem constructor_any_keys [Zero K] (mk : Nat → Nat → Nat) (sw : Nat → Nat)
    (order : List (Nat × Option Nat) → List (Nat × Option Nat))
    (vs : List (Vector3 K)) (faces : List (List Nat))
    (hin : ∀ f ∈ faces, f.length = 3 → ∀ x ∈ f, x < vs.length)
    (hord : ∀ l e, e ∈ order l → e ∈ l) :
    ∃ map m, halfedgeMapOf mk vs faces = Except.ok map ∧
      HalfedgeMesh mk sw order vs faces = Except.ok m ∧
      MapInv mk (edgesOf faces) map ∧ FacesPost vs.length faces m ∧
      (∀ h g, m.opp h = some g → ∃ k, (k, some h) ∈ map) := by
  obtain ⟨mv, r1, vl1, he1, fa1, lf1⟩ :=
    constructVertices_spec vs (Mesh.empty K) [] (fun v hv => by cases hv)
  have vl1' : mv.vertices.length = vs.length := by rw [vl1]; simp [Mesh.empty]
  have he1' : mv.halfedges = [] := he1
  have fa1' : mv.faces = [] := fa1
  obtain ⟨mf, r2, fl2, he2, v2, fm2⟩ :=
    constructFaces_spec faces mv [] (fun f hf => by rw [lf1] at hf; cases hf)
  have fl2' : mf.faces.length = faces.length := by rw [fl2, fa1']; simp
  have he2' : mf.halfedges = [] := by rw [he2, he1']
  have vl2 : mf.vertices.length = vs.length := by rw [v2, vl1']
  rw [fa1'] at fm2 r2
  have r1' : constructVertices vs (Mesh.empty K) []
      = Except.ok (mv, (List.range' 0 vs.length).map some) := r1
  have r2' : constructFaces faces mv []
      = Except.ok (mf, (List.range' 0 faces.length).map some) := r2
  have hnone := replicate_rep_none fm2
  obtain ⟨ml, r3, e3, fl3, fr3, -, rt3, rs3, vl3, -, -⟩ :=
    constructFaceLoop_spec mk ((List.range' 0 vs.length).map some)
      ((List.range' 0 faces.length).map some) faces 0 mf []
      (fun x hx => range'_map_some_getElem? _ x (by omega))
      (fun f hf => range'_map_some_getElem? _ f (by omega))
      (by omega) (by rw [vl2]; exact hin) (fun j _ => (hnone j).1)
  rw [he2'] at r3 e3
  simp only [List.length_nil, List.nil_append] at r3 e3
  have inv : MapInv mk (edgesOf faces) (loopMap mk faces 0 []) := by
    have := MapInv.after_loop mk faces [] [] (MapInv.nil mk)
    simpa using this
  have hlen : ml.halfedges.length = (edgesOf faces).length := by
    rw [e3, loopHalfedges_length]
  obtain ⟨m, r5, f5, v5, fr5, snd5⟩ :=
    pairOpposites_values (K := K) sw (loopMap mk faces 0 []) (edgesOf faces).length
      (fun e he => by
        obtain ⟨i, u, v, h1, h2, -⟩ := inv.1 e he
        exact ⟨i, by rw [h1], getElem?_lt h2⟩)
      (order (loopMap mk faces 0 [])) ml (fun e he => hord _ e he) hlen
      (fun h g hg => by
        have : ml.opp h = none := by
          unfold Mesh.opp
          rw [e3]
          exact loopHalfedges_opp_none faces 0 0 _ h
        rw [this] at hg
        cases hg)
  refine ⟨_, m, ?_, ?_, inv, ?_, snd5⟩
  · unfold halfedgeMapOf
    simp only [r1', ok_bind, r2', r3, pure_eq_ok]
  · unfold HalfedgeMesh
    simp only [r1', ok_bind, r2', r3, r5]
  have sS : ∀ j, m.start j = ml.start j :=
    fun j => bind_getElem?_of_map_eq (fr5 Halfedge.startVertex (fun _ _ => rfl)) j
  have sN : ∀ j, m.next j = ml.next j :=
    fun j => bind_getElem?_of_map_eq (fr5 Halfedge.nextHalfedge (fun _ _ => rfl)) j
  have sL : ∀ j, m.left j = ml.left j :=
    fun j => bind_getElem?_of_map_eq (fr5 Halfedge.leftFace (fun _ _ => rfl)) j
  have key : ∀ (i u v : Nat), (edgesOf faces)[i]? = some (u, v) →
      ∃ a b lf, m.start i = some u ∧ m.next i = some a ∧ m.start a = some v ∧
        m.next a = some b ∧ m.next b = some i ∧ a ≠ i ∧
        m.left i = some lf ∧ m.left a = some lf ∧ m.left b = some lf := by
    intro i u v h
    obtain ⟨e, ea, eb, a, b, lf, h1, h2, h3, h4, h5, h6, h7, h8, h9, h10, h11, -, h13⟩ :=
      loopHalfedges_spec faces 0 0 mf.m_debugHalfedgeIndex i u v h
    rw [Nat.zero_add] at h6 h7 h8
    have g1 : ml.halfedges[i]? = some e := by rw [e3]; exact h1
    have g2 : ml.halfedges[a]? = some ea := by rw [e3]; exact h2
    have g3 : ml.halfedges[b]? = some eb := by rw [e3]; exact h3
    refine ⟨a, b, lf, ?_, ?_, ?_, ?_, ?_, h13, ?_, ?_, ?_⟩
    · rw [sS, start_of_getElem? g1, h4]
    · rw [sN, next_of_getElem? g1, h6]
    · rw [sS, start_of_getElem? g2, h5]
    · rw [sN, next_of_getElem? g2, h7]
    · rw [sN, next_of_getElem? g3, h8]
    · rw [sL, left_of_getElem? g1, h9]
    · rw [sL, left_of_getElem? g2, h10]
    · rw [sL, left_of_getElem? g3, h11]
  exact {
    halfedges_length := by
      have := congrArg List.length (fr5 Halfedge.startVertex (fun _ _ => rfl))
      simp only [List.length_map] at this
      rw [this, hlen]
    faces_length := by rw [f5, fl3, fl2']
    vertices_length := by rw [v5, vl3, vl2]
    start_target := by
      intro i u v h
      obtain ⟨a, b, lf, k1, k2, k3, -⟩ := key i u v h
      refine ⟨k1, ?_⟩
      unfold Mesh.target
      rw [k2]
      exact k3
    cycle := by
      intro i hi
      obtain ⟨a, b, lf, -, k2, -, k4, k5, k6, k7, k8, k9⟩ :=
        key i _ _ (List.getElem?_eq_getElem hi)
      exact ⟨a, b, lf, k2, k4, k5, k6, k7, k8, k9⟩
    live := by
      intro f hf
      unfold Mesh.faceRemoved
      rw [f5]
      have h1 := getElem?_of_map_eq fr3 f
      rw [h1]
      exact (hnone f).2 (by omega)
    rep_triangle := by
      intro f t hf ht
      obtain ⟨h, h1, h2⟩ := rt3 f t hf ht
      rw [Nat.zero_add] at h1 h2
      refine ⟨h, ?_, ?_⟩
      · unfold Mesh.rep
        rw [f5]
        exact h1
      · rw [sL]
        exact h2
    rep_other := by
      intro f t hf ht
      have h1 := rs3 f t hf ht
      rw [Nat.zero_add] at h1
      unfold Mesh.rep
      rw [f5]
      exact h1 }

end AnyKeys

section KeyLemmas

theorem packHalfedgeKey_inj (n : Nat) (hn : n ≤ 4294967296) :
    ∀ a b c d, a < n → b < n → c < n → d < n →
      packHalfedgeKey a b = packHalfedgeKey c d → a = c ∧ b = d := by
  intro a b c d ha hb hc hd h
  unfold packHalfedgeKey at h
  omega

theorem swapPackedKey_pack (n : Nat) (hn : n ≤ 4294967296) :
    ∀ a b, a < n → b < n → swapPackedKey (packHalfedgeKey a b) = packHalfedgeKey b a := by
  intro a b ha hb
  unfold swapPackedKey packHalfedgeKey
  omega

end KeyLemmas

section ConstructorClaims
variable {K : Type}

/-- C20: for every input whose triangles have their indices in range, with an
injective key function (nothing is assumed on the swap function), the constructor
completes; the map holds, for each ordered pair, exactly the first half-edge made for it
in face order; only a half-edge held in the map can receive an opposite, so every later
half-edge made for the same pair has opposite none; and every half-edge lies on a closed
loop of three, every triangle face having a representative on its own loop. -/
theorem constructor_duplicate_edges [Zero K] (mk : Nat → Nat → Nat) (sw : Nat → Nat)
    (order : List (Nat × Option Nat) → List (Nat × Option Nat))
    (vs : List (Vector3 K)) (faces : List (List Nat))
    (hin : ∀ f ∈ faces, f.length = 3 → ∀ x ∈ f, x < vs.length)
    (hinj : ∀ a b c d, a < vs.length → b < vs.length → c < vs.length → d < vs.length →
      mk a b = mk c d → a = c ∧ b = d)
    (hord : ∀ l e, e ∈ order l → e ∈ l) :
    ∃ map m, halfedgeMapOf mk vs faces = Except.ok map ∧
      HalfedgeMesh mk sw order vs faces = Except.ok m ∧
      m.halfedges.length = (edgesOf faces).length ∧
      (∀ (i u v : Nat), (edgesOf faces)[i]? = some (u, v) →
        ((mk u v, some i) ∈ map ↔ ∀ k < i, (edgesOf faces)[k]? ≠ some (u, v))) ∧
      (∀ (i g : Nat), m.opp i = some g →
        ∃ (u v : Nat), (edgesOf faces)[i]? = some (u, v) ∧ (mk u v, some i) ∈ map) ∧
      (∀ (i u v : Nat), (edgesOf faces)[i]? = some (u, v) →
        (∃ k < i, (edgesOf faces)[k]? = some (u, v)) → m.opp i = none) ∧
      (∀ i < m.halfedges.length, m.next i ≠ some i ∧
        ((m.next i).bind m.next).bind m.next = some i ∧ (m.next i).bind m.left = m.left i) ∧
      (∀ (f : Nat) (t : List Nat), faces[f]? = some t → t.length = 3 →
        ∃ h, m.rep f = some h ∧ m.left h = some f) := by
  obtain ⟨map, m, rmap, run, inv, post, snd⟩ :=
    constructor_any_keys mk sw order vs faces hin hord
  have hE := edgesOf_lt vs.length faces hin
  have kept : ∀ (i u v : Nat), (edgesOf faces)[i]? = some (u, v) →
      ((mk u v, some i) ∈ map ↔ ∀ k < i, (edgesOf faces)[k]? ≠ some (u, v)) := by
    intro i u v h
    have huv := hE _ (List.getElem?_mem h)
    rw [inv.mem_iff vs.length hE hinj i u v huv.1 huv.2]
    exact ⟨fun x => x.2, fun x => ⟨h, x⟩⟩
  have only : ∀ (i g : Nat), m.opp i = some g →
      ∃ (u v : Nat), (edgesOf faces)[i]? = some (u, v) ∧ (mk u v, some i) ∈ map := by
    intro i g h
    obtain ⟨k, hk⟩ := snd i g h
    obtain ⟨i', u, v, h1, h2, -⟩ := inv.1 _ hk
    simp only [Prod.mk.injEq, Option.some.injEq] at h1
    rw [← h1.2] at h2
    exact ⟨u, v, h2, by rw [← h1.1]; exact hk⟩
  refine ⟨map, m, rmap, run, post.halfedges_length, kept, only, ?_, ?_, post.rep_triangle⟩
  · intro i u v h ⟨k, hk, hku⟩
    cases ho : m.opp i with
    | none => rfl
    | some g =>
      exfalso
      obtain ⟨u', v', h1, h2⟩ := only i g ho
      rw [h] at h1
      simp only [Option.some.injEq, Prod.mk.injEq] at h1
      rw [← h1.1, ← h1.2] at h2
      exact (kept i u v h).1 h2 k hk hku
  · intro i hi
    rw [post.halfedges_length] at hi
    obtain ⟨a, b, lf, c1, c2, c3, c4, c5, c6, -⟩ := post.cycle i hi
    refine ⟨?_, ?_, ?_⟩
    · rw [c1]
      exact fun hc => c4 (Option.some.inj hc)
    · rw [c1, Option.some_bind, c2, Option.some_bind, c3]
    · rw [c1, Option.some_bind, c6, c5]

theorem first_occurrence {mk : Nat → Nat → Nat} {E : List (Nat × Nat)}
    {map : List (Nat × Option Nat)} (inv : MapInv mk E map) (n : Nat)
    (hE : ∀ e ∈ E, e.1 < n ∧ e.2 < n)
    (hinj : ∀ a b c d, a < n → b < n → c < n → d < n → mk a b = mk c d → a = c ∧ b = d)
    {u v : Nat} (h : (u, v) ∈ E) :
    ∃ j : Nat, E[j]? = some (u, v) ∧ ∀ k < j, E[k]? ≠ some (u, v) := by
  obtain ⟨j0, hj0⟩ := List.mem_iff_getElem?.1 h
  have huv := hE _ h
  obtain ⟨val, hval⟩ := inv.2.1 j0 u v hj0
  obtain ⟨j, a, b, e1, e2, e3⟩ := inv.1 _ hval
  have hab := hE _ (List.getElem?_mem e2)
  simp only [Prod.mk.injEq] at e1
  obtain ⟨c1, c2⟩ := hinj u v a b huv.1 huv.2 hab.1 hab.2 e1.1
  subst c1; subst c2
  exact ⟨j, e2, e3⟩

/-- C3: for every input whose triangles have their indices in range (boundary edges,
faces that are not triangles, repeated directed edges and degenerate triangles
included), with a key function that is injective and a swap function that reverses the
pair on the indices in range, the constructor completes and `oppositeHalfedge` is
symmetric; a half-edge made for `(u, v)` has opposite none when the map has no entry for
the reversed pair, which is the case exactly when no triangle has the directed edge
`(v, u)`. -/
theorem constructor_opposite_symmetric [Zero K] (mk : Nat → Nat → Nat) (sw : Nat → Nat)
    (order : List (Nat × Option Nat) → List (Nat × Option Nat))
    (vs : List (Vector3 K)) (faces : List (List Nat))
    (hin : ∀ f ∈ faces, f.length = 3 → ∀ x ∈ f, x < vs.length)
    (hinj : ∀ a b c d, a < vs.length → b < vs.length → c < vs.length → d < vs.length →
      mk a b = mk c d → a = c ∧ b = d)
    (hsw : ∀ a b, a < vs.length → b < vs.length → sw (mk a b) = mk b a)
    (hord : ∀ l e, e ∈ order l ↔ e ∈ l) :
    ∃ map m, halfedgeMapOf mk vs faces = Except.ok map ∧
      HalfedgeMesh mk sw order vs faces = Except.ok m ∧
      (∀ a b, m.opp a = some b → m.opp b = some a) ∧
      (∀ (i u v : Nat), (edgesOf faces)[i]? = some (u, v) →
        (∀ val, (mk v u, val) ∉ map) → m.opp i = none) ∧
      (∀ (i u v : Nat), (edgesOf faces)[i]? = some (u, v) →
        ((∃ val, (mk v u, val) ∈ map) ↔ (v, u) ∈ edgesOf faces)) := by
  obtain ⟨mv, hv, mf, hf, ml, map, m, r1, r2, r3, -, run, inv, post⟩ :=
    constructor_spec mk sw order vs faces hin hinj hsw hord
  have hE := edgesOf_lt vs.length faces hin
  refine ⟨map, m, ?_, run, ?_, ?_, ?_⟩
  · unfold halfedgeMapOf
    simp only [r1, ok_bind, r2, r3, pure_eq_ok]
  · intro a b h
    obtain ⟨u, v, h1, h2, h3, h4⟩ := (post.opp_iff a b).1 h
    exact (post.opp_iff b a).2 ⟨v, u, h3, h4, h1, h2⟩
  · intro i u v h hno
    cases ho : m.opp i with
    | none => rfl
    | some j =>
      exfalso
      obtain ⟨u', v', h1, -, h3, h4⟩ := (post.opp_iff i j).1 ho
      rw [h] at h1
      simp only [Option.some.injEq, Prod.mk.injEq] at h1
      rw [← h1.1, ← h1.2] at h3 h4
      have huv := hE _ (List.getElem?_mem h)
      exact hno _ ((inv.mem_iff vs.length hE hinj j v u huv.2 huv.1).2 ⟨h3, h4⟩)
  · intro i u v h
    have huv := hE _ (List.getElem?_mem h)
    constructor
    · rintro ⟨val, hval⟩
      obtain ⟨j, a, b, e1, e2, -⟩ := inv.1 _ hval
      have hab := hE _ (List.getElem?_mem e2)
      simp only [Prod.mk.injEq] at e1
      obtain ⟨c1, c2⟩ := hinj v u a b huv.2 huv.1 hab.1 hab.2 e1.1
      subst c1; subst c2
      exact List.getElem?_mem e2
    · intro hm
      obtain ⟨j, hj⟩ := List.mem_iff_getElem?.1 hm
      exact inv.2.1 j v u hj

/-- C15: under the hypotheses of C3, whenever the half-edge `h` made for the ordered
pair `(u, v)` ends up with opposite `g`, `g` was made for `(v, u)`, it starts where `h`
ends and ends where `h` starts; and a half-edge held in the map for `(u, v)` gets an
opposite whenever some half-edge was made for `(v, u)`. -/
theorem constructor_opposite_endpoints [Zero K] (mk : Nat → Nat → Nat) (sw : Nat → Nat)
    (order : List (Nat × Option Nat) → List (Nat × Option Nat))
    (vs : List (Vector3 K)) (faces : List (List Nat))
    (hin : ∀ f ∈ faces, f.length = 3 → ∀ x ∈ f, x < vs.length)
    (hinj : ∀ a b c d, a < vs.length → b < vs.length → c < vs.length → d < vs.length →
      mk a b = mk c d → a = c ∧ b = d)
    (hsw : ∀ a b, a < vs.length → b < vs.length → sw (mk a b) = mk b a)
    (hord : ∀ l e, e ∈ order l ↔ e ∈ l) :
    ∃ map m, halfedgeMapOf mk vs faces = Except.ok map ∧
      HalfedgeMesh mk sw order vs faces = Except.ok m ∧
      (∀ (h g u v : Nat), (edgesOf faces)[h]? = some (u, v) → m.opp h = some g →
        (edgesOf faces)[g]? = some (v, u) ∧
        m.start g = (m.next h).bind m.start ∧ m.start h = (m.next g).bind m.start ∧
        m.start h = some u ∧ m.start g = some v) ∧
      (∀ (h u v : Nat), (edgesOf faces)[h]? = some (u, v) → (mk u v, some h) ∈ map →
        (v, u) ∈ edgesOf faces → ∃ g, m.opp h = some g) := by
  obtain ⟨mv, hv, mf, hf, ml, map, m, r1, r2, r3, -, run, inv, post⟩ :=
    constructor_spec mk sw order vs faces hin hinj hsw hord
  have hE := edgesOf_lt vs.length faces hin
  refine ⟨map, m, ?_, run, ?_, ?_⟩
  · unfold halfedgeMapOf
    simp only [r1, ok_bind, r2, r3, pure_eq_ok]
  · intro h g u v hh ho
    obtain ⟨u', v', h1, -, h3, -⟩ := (post.opp_iff h g).1 ho
    rw [hh] at h1
    simp only [Option.some.injEq, Prod.mk.injEq] at h1
    rw [← h1.1, ← h1.2] at h3
    obtain ⟨s1, t1⟩ := post.start_target h u v hh
    obtain ⟨s2, t2⟩ := post.start_target g v u h3
    unfold Mesh.target at t1 t2
    exact ⟨h3, by rw [s2, t1], by rw [s1, t2], s1, s2⟩
  · intro h u v hh hmem hrev
    have huv := hE _ (List.getElem?_mem hh)
    have hfirst := (inv.mem_iff vs.length hE hinj h u v huv.1 huv.2).1 hmem
    obtain ⟨j, hj1, hj2⟩ := first_occurrence inv vs.length hE hinj hrev
    exact ⟨j, (post.opp_iff h j).2 ⟨u, v, hfirst.1, hfirst.2, hj1, hj2⟩⟩

/-- C2: for every closed, manifold triangle list (every face has three indices, all in
range, no ordered pair occurs twice as a directed edge, and the reverse of every directed
edge occurs), with a key function that is injective and a swap function that reverses
the pair on the indices in range, the constructor completes, makes three half-edges per
face, and every half-edge has an opposite whose opposite is the half-edge itself. -/
theorem constructor_closed_manifold_opposites [Zero K] (mk : Nat → Nat → Nat)
    (sw : Nat → Nat) (order : List (Nat × Option Nat) → List (Nat × Option Nat))
    (vs : List (Vector3 K)) (faces : List (List Nat))
    (htri : ∀ f ∈ faces, f.length = 3)
    (hin : ∀ f ∈ faces, ∀ x ∈ f, x < vs.length)
    (hnodup : (edgesOf faces).Nodup)
    (hclosed : ∀ e ∈ edgesOf faces, (e.2, e.1) ∈ edgesOf faces)
    (hinj : ∀ a b c d, a < vs.length → b < vs.length → c < vs.length → d < vs.length →
      mk a b = mk c d → a = c ∧ b = d)
    (hsw : ∀ a b, a < vs.length → b < vs.length → sw (mk a b) = mk b a)
    (hord : ∀ l e, e ∈ order l ↔ e ∈ l) :
    ∃ m, HalfedgeMesh mk sw order vs faces = Except.ok m ∧
      m.halfedges.length = (edgesOf faces).length ∧
      ∀ h < m.halfedges.length, ∃ g, m.opp h = some g ∧ m.opp g = some h := by
  obtain ⟨mv, hv, mf, hf, ml, map, m, -, -, -, -, run, inv, post⟩ :=
    constructor_spec mk sw order vs faces (fun f hf _ => hin f hf) hinj hsw hord
  refine ⟨m, run, post.halfedges_length, ?_⟩
  intro h hh
  rw [post.halfedges_length] at hh
  have first : ∀ (i : Nat) (p : Nat × Nat), (edgesOf faces)[i]? = some p →
      ∀ k < i, (edgesOf faces)[k]? ≠ some p := by
    intro i p hi k hk hc
    have := List.getElem?_inj (getElem?_lt hc) hnodup (hc.trans hi.symm)
    omega
  have h1 : (edgesOf faces)[h]? = some ((edgesOf faces)[h].1, (edgesOf faces)[h].2) :=
    List.getElem?_eq_getElem hh
  have hrev := hclosed _ (List.getElem?_mem h1)
  obtain ⟨g, hg⟩ := List.mem_iff_getElem?.1 hrev
  simp only at hg
  exact ⟨g, (post.opp_iff h g).2 ⟨_, _, h1, first h _ h1, hg, first g _ hg⟩,
    (post.opp_iff g h).2 ⟨_, _, hg, first g _ hg, h1, first h _ h1⟩⟩

end ConstructorClaims

/-- C20, at two triangles that both run along the ordered pair `(0, 1)`: half-edge 0
is kept, half-edge 3 is made later for the same pair and has no opposite. -/
theorem constructor_duplicate_edges_witness :
    (edgesOf [[0, 1, 2], [0, 1, 3]])[0]? = some (0, 1) ∧
    (edgesOf [[0, 1, 2], [0, 1, 3]])[3]? = some (0, 1) ∧
    ∃ map m, halfedgeMapOf packHalfedgeKey
        [(⟨0, 0, 0⟩ : Vector3 ℚ), ⟨1, 0, 0⟩, ⟨0, 1, 0⟩, ⟨0, 0, 1⟩] [[0, 1, 2], [0, 1, 3]]
        = Except.ok map ∧
      HalfedgeMesh.HalfedgeMesh packHalfedgeKey swapPackedKey id
        [(⟨0, 0, 0⟩ : Vector3 ℚ), ⟨1, 0, 0⟩, ⟨0, 1, 0⟩, ⟨0, 0, 1⟩] [[0, 1, 2], [0, 1, 3]]
        = Except.ok m ∧
      (packHalfedgeKey 0 1, some 0) ∈ map ∧ m.opp 3 = none :=
  ⟨rfl, rfl, by
    obtain ⟨map, m, h1, h2, -, h3, -, h4, -⟩ :=
      constructor_duplicate_edges packHalfedgeKey swapPackedKey id
        [(⟨0, 0, 0⟩ : Vector3 ℚ), ⟨1, 0, 0⟩, ⟨0, 1, 0⟩, ⟨0, 0, 1⟩] [[0, 1, 2], [0, 1, 3]]
        (by decide) (packHalfedgeKey_inj 4 (by decide)) (fun l e h => h)
    exact ⟨map, m, h1, h2, (h3 0 0 1 rfl).2 (fun k hk => absurd hk (Nat.not_lt_zero k)),
      h4 3 0 1 rfl ⟨0, by decide, rfl⟩⟩⟩

/-- C3, at two triangles that share one edge: half-edge 1, made for `(1, 2)`, is
paired with half-edge 3, made for `(2, 1)`, and half-edge 0, made for `(0, 1)` on the
boundary, has no opposite. -/
theorem constructor_opposite_symmetric_witness :
    (edgesOf [[0, 1, 2], [2, 1, 3]])[0]? = some (0, 1) ∧
    ∃ map m, halfedgeMapOf packHalfedgeKey
        [(⟨0, 0, 0⟩ : Vector3 ℚ), ⟨1, 0, 0⟩, ⟨0, 1, 0⟩, ⟨1, 1, 0⟩] [[0, 1, 2], [2, 1, 3]]
        = Except.ok map ∧
      HalfedgeMesh.HalfedgeMesh packHalfedgeKey swapPackedKey id
        [(⟨0, 0, 0⟩ : Vector3 ℚ), ⟨1, 0, 0⟩, ⟨0, 1, 0⟩, ⟨1, 1, 0⟩] [[0, 1, 2], [2, 1, 3]]
        = Except.ok m ∧
      (∀ a b, m.opp a = some b → m.opp b = some a) ∧ m.opp 0 = none :=
  ⟨rfl, by
    obtain ⟨map, m, h1, h2, h3, h4, h5⟩ :=
      constructor_opposite_symmetric packHalfedgeKey swapPackedKey id
        [(⟨0, 0, 0⟩ : Vector3 ℚ), ⟨1, 0, 0⟩, ⟨0, 1, 0⟩, ⟨1, 1, 0⟩] [[0, 1, 2], [2, 1, 3]]
        (by decide) (packHalfedgeKey_inj 4 (by decide)) (swapPackedKey_pack 4 (by decide))
        (fun l e => Iff.rfl)
    refine ⟨map, m, h1, h2, h3, h4 0 0 1 rfl (fun val hval => ?_)⟩
    have := (h5 0 0 1 rfl).1 ⟨val, hval⟩
    revert this
    decide⟩

/-- C15, at the same two triangles: half-edge 1, made for `(1, 2)`, is held in the map,
the reversed pair `(2, 1)` occurs, so it gets an opposite `g`, made for `(2, 1)`. -/
theorem constructor_opposite_endpoints_witness :
    (edgesOf [[0, 1, 2], [2, 1, 3]])[1]? = some (1, 2) ∧
    (2, 1) ∈ edgesOf [[0, 1, 2], [2, 1, 3]] ∧
    ∃ m g, HalfedgeMesh.HalfedgeMesh packHalfedgeKey swapPackedKey id
        [(⟨0, 0, 0⟩ : Vector3 ℚ), ⟨1, 0, 0⟩, ⟨0, 1, 0⟩, ⟨1, 1, 0⟩] [[0, 1, 2], [2, 1, 3]]
        = Except.ok m ∧
      m.opp 1 = some g ∧ (edgesOf [[0, 1, 2], [2, 1, 3]])[g]? = some (2, 1) ∧
      m.start g = (m.next 1).bind m.start :=
  ⟨rfl, by decide, by
    obtain ⟨map, m, h1, h2, h3, h4⟩ :=
      constructor_opposite_endpoints packHalfedgeKey swapPackedKey id
        [(⟨0, 0, 0⟩ : Vector3 ℚ), ⟨1, 0, 0⟩, ⟨0, 1, 0⟩, ⟨1, 1, 0⟩] [[0, 1, 2], [2, 1, 3]]
        (by decide) (packHalfedgeKey_inj 4 (by decide)) (swapPackedKey_pack 4 (by decide))
        (fun l e => Iff.rfl)
    have hmap : map = [(packHalfedgeKey 0 1, some 0), (packHalfedgeKey 1 2, some 1),
        (packHalfedgeKey 2 0, some 2), (packHalfedgeKey 2 1, some 3),
        (packHalfedgeKey 1 3, some 4), (packHalfedgeKey 3 2, some 5)] := by
      have : halfedgeMapOf packHalfedgeKey
          [(⟨0, 0, 0⟩ : Vector3 ℚ), ⟨1, 0, 0⟩, ⟨0, 1, 0⟩, ⟨1, 1, 0⟩] [[0, 1, 2], [2, 1, 3]]
          = Except.ok [(packHalfedgeKey 0 1, some 0), (packHalfedgeKey 1 2, some 1),
            (packHalfedgeKey 2 0, some 2), (packHalfedgeKey 2 1, some 3),
            (packHalfedgeKey 1 3, some 4), (packHalfedgeKey 3 2, some 5)] := by decide!
      rw [this] at h1
      exact (Except.ok.inj h1).symm
    obtain ⟨g, hg⟩ := h4 1 1 2 rfl (by rw [hmap]; simp) (by decide)
    obtain ⟨e1, e2, -⟩ := h3 1 g 1 2 rfl hg
    exact ⟨m, g, h2, hg, e1, e2⟩⟩

/-- C2, at the tetrahedron: the input is closed and manifold, and every half-edge of
the mesh built has an opposite that points back. -/
theorem constructor_closed_manifold_opposites_witness :
    (∀ f ∈ [[0, 1, 2], [0, 3, 1], [0, 2, 3], [1, 3, 2]], f.length = 3) ∧
    (edgesOf [[0, 1, 2], [0, 3, 1], [0, 2, 3], [1, 3, 2]]).Nodup ∧
    (∀ e ∈ edgesOf [[0, 1, 2], [0, 3, 1], [0, 2, 3], [1, 3, 2]],
      (e.2, e.1) ∈ edgesOf [[0, 1, 2], [0, 3, 1], [0, 2, 3], [1, 3, 2]]) ∧
    ∃ m, HalfedgeMesh.HalfedgeMesh packHalfedgeKey swapPackedKey id
        [(⟨0, 0, 0⟩ : Vector3 ℚ), ⟨1, 0, 0⟩, ⟨0, 1, 0⟩, ⟨0, 0, 1⟩]
        [[0, 1, 2], [0, 3, 1], [0, 2, 3], [1, 3, 2]] = Except.ok m ∧
      m.halfedges.length = 12 ∧
      ∀ h < m.halfedges.length, ∃ g, m.opp h = some g ∧ m.opp g = some h :=
  ⟨by decide, by decide, by decide,
    constructor_closed_manifold_opposites packHalfedgeKey swapPackedKey id
      [(⟨0, 0, 0⟩ : Vector3 ℚ), ⟨1, 0, 0⟩, ⟨0, 1, 0⟩, ⟨0, 0, 1⟩]
      [[0, 1, 2], [0, 3, 1], [0, 2, 3], [1, 3, 2]] (by decide) (by decide) (by decide)
      (by decide) (packHalfedgeKey_inj 4 (by decide)) (swapPackedKey_pack 4 (by decide))
      (fun l e => Iff.rfl)⟩

section Claims

/-- C1: when `collapseEdge` returns false, the mesh after the call is the mesh before
it, in every field of every vertex, face and half-edge. -/
theorem collapseEdge_false_unchanged {K : Type} [LinearOrderedField K] (fuel : Nat)
    (m m' : Mesh K) (halfedge : Option Nat) (maxEdgeLengthSquared : K)
    (h : collapseEdge fuel m halfedge maxEdgeLengthSquared = Except.ok (false, m')) :
    m' = m := by
  unfold collapseEdge at h
  simp only [bind_eq_ok] at h
  obtain ⟨e, -, a, -, en, -, b, -, t1, -, h⟩ := h
  cases t1 with
  | true =>
    simp at h
    exact h.symm
  | false =>
    simp only [Bool.false_eq_true, if_false, bind_eq_ok] at h
    obtain ⟨t2, -, h⟩ := h
    cases t2 with
    | true =>
      simp at h
      exact h.symm
    | false =>
      simp only [Bool.false_eq_true, if_false, bind_eq_ok] at h
      obtain ⟨m2, -, h⟩ := h
      simp at h

/-- C1, at the tetrahedron with bound zero: the call returns false and hands back
the tetrahedron. -/
theorem collapseEdge_false_unchanged_witness :
    collapseEdge 10 tetra (some 0) 0 = Except.ok (false, tetra) ∧ tetra = tetra :=
  ⟨by decide!, collapseEdge_false_unchanged 10 tetra tetra (some 0) 0 (by decide!)⟩

/-- C7, at the tetrahedron: the hypotheses hold and the conclusion follows. -/
theorem collapseEdge_removed_flags_witness :
    WellFormed tetra ∧
    collapseEdge 10 tetra (some 0) 4 = Except.ok (true, tetraCollapsed) ∧
    (∀ v, tetraCollapsed.vertexRemoved v = tetra.vertexRemoved v) ∧
    (∀ f, tetraCollapsed.faceRemoved f =
      if tetra.left 0 = some f ∨ (tetra.opp 0).bind tetra.left = some f then some true
      else tetra.faceRemoved f) ∧
    tetraCollapsed.faces.countP (fun f => f.removed) =
      tetra.faces.countP (fun f => f.removed) + (if (tetra.opp 0).isSome then 2 else 1) :=
  ⟨by decide!, by decide!,
    collapseEdge_removed_flags 10 tetra tetraCollapsed 0 0 4 (by decide!) (by decide!)
      (by decide!) (by decide!) (by decide!)⟩

/-- C9, at the tetrahedron and its first half-edge: the hypotheses hold and the
conclusion follows. -/
theorem breakEdge_new_vertex_fan_witness :
    WellFormed tetra ∧ tetra.opp 0 = some 5 ∧ tetra.left 0 = some 0 ∧ tetra.left 5 = some 1 ∧
    ∃ m', breakEdge tetra (some 0) = Except.ok m' ∧
      (∀ j, m'.start j = some tetra.vertices.length ↔
        j = tetra.halfedges.length + 1 ∨ j = tetra.halfedges.length + 2 ∨
        j = tetra.halfedges.length + 4 ∨ j = tetra.halfedges.length + 5) ∧
      (List.range m'.halfedges.length).countP
        (fun j => decide (m'.start j = some tetra.vertices.length)) = 4 ∧
      m'.left (tetra.halfedges.length + 1) = some tetra.faces.length ∧
      m'.left (tetra.halfedges.length + 2) = some 0 ∧
      m'.left (tetra.halfedges.length + 4) = some (tetra.faces.length + 1) ∧
      m'.left (tetra.halfedges.length + 5) = some 1 ∧
      [tetra.faces.length, 0, tetra.faces.length + 1, 1].Nodup ∧
      m'.faceRemoved tetra.faces.length = some false ∧ m'.faceRemoved 0 = some false ∧
      m'.faceRemoved (tetra.faces.length + 1) = some false ∧ m'.faceRemoved 1 = some false ∧
      m'.first tetra.vertices.length = some (tetra.halfedges.length + 4) :=
  ⟨by decide!, by decide!, by decide!, by decide!,
    breakEdge_new_vertex_fan tetra 0 5 0 1 (by decide!) (by decide!) (by decide!) (by decide!)
      (by decide!) (by decide!) (by decide!)⟩

end Claims

section Evaluations

/-- C5 at the fan: the mesh is well-formed, half-edge 5 runs from vertex 0 at
`(0,0,0)` to vertex 1 at `(2,0,0)`, so `collapseTo` is `(1,0,0)`; half-edge 6 starts
at vertex 0 and ends at vertex 3 at `(-10,1,0)`, at squared distance 122 from
`collapseTo`; yet `collapseEdge` with bound 4 returns true. -/
theorem collapseEdge_fan_far_endpoint_accepted :
    WellFormed fanMesh ∧
    fanMesh.start 5 = some 0 ∧ fanMesh.target 5 = some 1 ∧
    fanMesh.start 6 = some 0 ∧ fanMesh.target 6 = some 3 ∧
    fanMesh.position 0 = some ⟨0, 0, 0⟩ ∧ fanMesh.position 1 = some ⟨2, 0, 0⟩ ∧
    fanMesh.position 3 = some ⟨-10, 1, 0⟩ ∧
    ((⟨-10, 1, 0⟩ : Vector3 ℚ).sub ⟨1, 0, 0⟩).lengthSquared = 122 ∧
    (collapseEdge 100 fanMesh (some 5) 4).map Prod.fst = Except.ok true := by
  decide!

/-- C6 at the fan: `collapseEdge` at half-edge 5, from vertex 0 to vertex 1, returns
true, and half-edge 6, which started at vertex 0 before the call, still starts at
vertex 0 after it. -/
theorem collapseEdge_fan_start_left_behind :
    WellFormed fanMesh ∧ fanMesh.start 5 = some 0 ∧ fanMesh.target 5 = some 1 ∧
    collapseEdge 100 fanMesh (some 5) 4 = Except.ok (true, fanCollapsed) ∧
    fanMesh.start 6 = some 0 ∧ fanCollapsed.start 6 = some 0 := by
  decide!

/-- C8 at the strip: the mesh is well-formed, every `firstHalfedge` starts at its vertex
on a live face, `collapseEdge` at half-edge 3, from vertex 0 to vertex 1, returns true,
and afterwards the `firstHalfedge` of vertex 1 is half-edge 4, whose face 1 is
removed. -/
theorem collapseEdge_strip_first_on_removed_face :
    WellFormed strip ∧
    (∀ v < strip.vertices.length, ∀ h ∈ strip.first v,
      strip.start h = some v ∧ (strip.left h).bind strip.faceRemoved = some false) ∧
    strip.start 3 = some 0 ∧ strip.target 3 = some 1 ∧
    collapseEdge 10 strip (some 3) 4 = Except.ok (true, stripCollapsed) ∧
    stripCollapsed.first 1 = some 4 ∧ stripCollapsed.left 4 = some 1 ∧
    stripCollapsed.faceRemoved 1 = some true := by
  decide!

/-- C12 at one triangle with edge lengths 3, 4 and 7 (taxicab): `averageEdgeLength`
returns 3, the length of the first edge alone, where the mean of the three edges is
14/3. -/
theorem averageEdgeLength_triangle_first_edge_only :
    WellFormed triangle ∧ triangle.faceRemoved 0 = some false ∧ triangle.faces.length = 1 ∧
    averageEdgeLength taxicabLength 10 triangle = Except.ok 3 ∧
    (taxicabLength ((⟨0, 0, 0⟩ : Vector3 ℚ).sub ⟨3, 0, 0⟩) +
      taxicabLength ((⟨3, 0, 0⟩ : Vector3 ℚ).sub ⟨3, 4, 0⟩) +
      taxicabLength ((⟨3, 4, 0⟩ : Vector3 ℚ).sub ⟨0, 0, 0⟩)) / 3 = 14 / 3 := by
  decide!

/-- C13 at the tetrahedron: after a successful `collapseEdge` two of the four faces
are removed, yet the loop of `averageEdgeLength` still counts four half-edges, one for
each allocated face; and setting the removed flag of a face by hand does not change
the result. -/
theorem averageEdgeLength_counts_removed_faces :
    collapseEdge 10 tetra (some 0) 4 = Except.ok (true, tetraCollapsed) ∧
    tetraCollapsed.faces.map Face.removed = [true, true, false, false] ∧
    averageEdgeLengthLoop taxicabLength tetraCollapsed 10 tetraCollapsed.m_firstFace 0 0
      = Except.ok (9 / 2, 4) ∧
    averageEdgeLength taxicabLength 10 tetraCollapsed = Except.ok (9 / 8) ∧
    averageEdgeLength taxicabLength 10 tetraMarked = averageEdgeLength taxicabLength 10 tetra := by
  decide!

/-- C16 at a face list holding one face with two indices: the mesh has no half-edge,
and `averageEdgeLength` follows the null representative of the skipped face, whatever
the length function and the fuel. -/
theorem averageEdgeLength_twoGon_faults (length : Vector3 ℚ → ℚ) (fuel : Nat) :
    twoGon.halfedges = [] ∧
    averageEdgeLength length (fuel + 1) twoGon = Except.error Fault.nullDereference := by
  have h1 : twoGon.m_firstFace = some 0 := by decide!
  have h2 : twoGon.faceAt (some 0) = Except.ok ⟨none, none, none, false, 2⟩ := by decide!
  refine ⟨by decide!, ?_⟩
  simp [averageEdgeLength, averageEdgeLengthLoop, averageEdgeLengthInner, h1, h2,
    Mesh.halfedgeAt, bind, Except.bind]

/-- C18 at one triangle: the mesh is well-formed, the `firstHalfedge` of vertex 0 has no
opposite, and both walks follow the missing opposite of the previous half-edge: the
length test, the re-pointing walk and `collapseEdge` at each of the three
half-edges all end in a null dereference. -/
theorem collapseEdge_triangle_faults :
    WellFormed triangle ∧ triangle.first 0 = some 0 ∧ triangle.opp 0 = none ∧
    testLengthSquaredAroundVertex 100 triangle (some 0) ⟨0, 0, 0⟩ 1000
      = Except.error Fault.nullDereference ∧
    pointerVertexToNewVertex 100 triangle (some 0) (some 1)
      = Except.error Fault.nullDereference ∧
    collapseEdge 100 triangle (some 0) 1000 = Except.error Fault.nullDereference ∧
    collapseEdge 100 triangle (some 1) 1000 = Except.error Fault.nullDereference ∧
    collapseEdge 100 triangle (some 2) 1000 = Except.error Fault.nullDereference := by
  decide!

end Evaluations

end HalfedgeMesh
